import Mathlib

/-!
# The implicit well model of `StandardWellsDense`

A shallow embedding of `opm/autodiff/StandardWellsDense.hpp` and theorems about it.

Conventions of the embedding.

* `double` quantities that only take part in arithmetic and comparisons are rationals
  (exact arithmetic, no rounding).  Where the source distinguishes NaN and the infinities
  (`getWellConvergence`) the type `Dbl` adds those values with the IEEE comparison rules.
* `std::vector` is `List`; a read `v[i]` is `v.getD i d` and a write `v[i] = x` is `v.set i x`.
  The source never checks an index, so all theorems are stated for well-formed sizes.
* `EvalWell` (a value with derivatives) is represented by its value.
* Member data of the class is the structure `StandardWellsDense`; a member function takes it as
  `self` and returns the parts it changes.
* Functions whose body is not in the header (they live in other files of the repository) are
  fields of the structure `External`, so results hold for every behaviour of those functions.
-/

namespace Opm

/-! ## Enumerations -/

/-- Phase index `Water` of the phase enumeration (first entry of the table in
`flowPhaseToEbosPhaseIdx`). -/
def Water : Nat := 0

/-- Phase index `Oil` (second entry of the table in `flowPhaseToEbosPhaseIdx`). -/
def Oil : Nat := 1

/-- Phase index `Gas` (third entry of the table in `flowPhaseToEbosPhaseIdx`). -/
def Gas : Nat := 2

/-- Position `XvarWell = 0` of `enum WellVariablePositions`. -/
def XvarWell : Nat := 0

/-- Position `WFrac = 1` of `enum WellVariablePositions`. -/
def WFrac : Nat := 1

/-- Position `GFrac = 2` of `enum WellVariablePositions`. -/
def GFrac : Nat := 2

/-- The well types read from `wells().type[w]`. -/
inductive WellType where
  | INJECTOR
  | PRODUCER
  deriving DecidableEq, Repr

/-- The control kinds returned by `well_controls_iget_type`. -/
inductive WellControlType where
  | BHP
  | THP
  | RESERVOIR_RATE
  | SURFACE_RATE
  deriving DecidableEq, Repr

/-- Results of fallible functions can be compared. -/
instance instDecidableEqExcept {ε α : Type} [DecidableEq ε] [DecidableEq α] :
    DecidableEq (Except ε α)
  | Except.ok a, Except.ok b =>
    if h : a = b then isTrue (by rw [h]) else isFalse (fun hab => h (by cases hab; rfl))
  | Except.error a, Except.error b =>
    if h : a = b then isTrue (by rw [h]) else isFalse (fun hab => h (by cases hab; rfl))
  | Except.ok _, Except.error _ => isFalse (fun hab => by cases hab)
  | Except.error _, Except.ok _ => isFalse (fun hab => by cases hab)

/-! ## Doubles with NaN and infinities -/

/-- A `double` where the source tells NaN and the infinities apart: a finite value, `+inf`,
`-inf` or NaN.  Finite arithmetic is exact (no rounding, no overflow) and zero is unsigned. -/
inductive Dbl where
  | fin (q : ℚ)
  | pinf
  | ninf
  | nan
  deriving DecidableEq, Repr

/-- Model of `std::isnan`. -/
def Dbl.isnan : Dbl → Bool
  | Dbl.nan => true
  | _ => false

/-- Model of `std::isfinite`. -/
def Dbl.isFinite : Dbl → Bool
  | Dbl.fin _ => true
  | _ => false

/-- The comparison `a < b` of two doubles: false as soon as one side is NaN. -/
def Dbl.lt : Dbl → Dbl → Bool
  | Dbl.fin a, Dbl.fin b => decide (a < b)
  | Dbl.fin _, Dbl.pinf => true
  | Dbl.ninf, Dbl.fin _ => true
  | Dbl.ninf, Dbl.pinf => true
  | _, _ => false

/-- The comparison `a > b` of two doubles. -/
def Dbl.gt (a b : Dbl) : Bool := Dbl.lt b a

/-- The product of two doubles: NaN is absorbing, zero times an infinity is NaN, otherwise the
sign rule applies. -/
def Dbl.mul : Dbl → Dbl → Dbl
  | Dbl.nan, _ => Dbl.nan
  | _, Dbl.nan => Dbl.nan
  | Dbl.fin a, Dbl.fin b => Dbl.fin (a * b)
  | Dbl.fin a, Dbl.pinf => if a = 0 then Dbl.nan else if 0 < a then Dbl.pinf else Dbl.ninf
  | Dbl.fin a, Dbl.ninf => if a = 0 then Dbl.nan else if 0 < a then Dbl.ninf else Dbl.pinf
  | Dbl.pinf, Dbl.fin b => if b = 0 then Dbl.nan else if 0 < b then Dbl.pinf else Dbl.ninf
  | Dbl.ninf, Dbl.fin b => if b = 0 then Dbl.nan else if 0 < b then Dbl.ninf else Dbl.pinf
  | Dbl.pinf, Dbl.pinf => Dbl.pinf
  | Dbl.pinf, Dbl.ninf => Dbl.ninf
  | Dbl.ninf, Dbl.pinf => Dbl.ninf
  | Dbl.ninf, Dbl.ninf => Dbl.pinf

/-- The magnitude `std::abs` of a double. -/
def Dbl.abs : Dbl → Dbl
  | Dbl.fin a => Dbl.fin |a|
  | Dbl.pinf => Dbl.pinf
  | Dbl.ninf => Dbl.pinf
  | Dbl.nan => Dbl.nan

/-! ## Data model -/

/-- One declared constraint of a well: what `well_controls_iget_type`, `_target`, `_distr`,
`_vfp` and `_alq` return for one control index. -/
structure Control where
  type : WellControlType
  target : ℚ
  distr : List ℚ
  vfp : Int
  alq : ℚ
  deriving DecidableEq, Repr

/-- The `WellControls` object of one well: the ordered constraints and the index that
`well_controls_get_current` returns and `well_controls_set_current` writes. -/
structure WellControls where
  ctrls : List Control
  current : Int
  deriving DecidableEq, Repr

/-- The fields of the C struct `Wells` that the header reads. -/
structure Wells where
  number_of_wells : Nat
  number_of_phases : Nat
  type : List WellType
  ctrls : List WellControls
  comp_frac : List ℚ
  well_connpos : List Nat
  well_cells : List Nat
  WI : List ℚ
  name : List String
  deriving DecidableEq, Repr

/-- The fields of `WellStateFullyImplicitBlackoilDense` that the header reads and writes. -/
structure WellState where
  bhp : List ℚ
  thp : List ℚ
  wellRates : List ℚ
  wellSolutions : List ℚ
  currentControls : List Int
  perfPhaseRates : List ℚ
  perfPress : List ℚ
  wellPotentials : List ℚ
  deriving DecidableEq, Repr

/-- A leaf of the group tree as seen through `WellNode`: `selfIndex`, `isInjector`,
`individualControl` and `groupControlIndex`. -/
structure WellNode where
  name : String
  selfIndex : Nat
  isInjector : Bool
  individualControl : Bool
  groupControlIndex : Int
  deriving DecidableEq, Repr

/-- What the header reads from the external `WellCollection`. -/
structure WellCollection where
  groupControlActive : Bool
  havingVREPGroups : Bool
  leafNodes : List WellNode
  deriving DecidableEq, Repr

/-- The entries of `PhaseUsage` the header uses. -/
structure PhaseUsage where
  num_phases : Nat
  phase_used : List Bool
  phase_pos : List Nat
  deriving DecidableEq, Repr

/-- The entries of `BlackoilModelParameters` the header uses. -/
structure ModelParameters where
  tolerance_wells_ : ℚ
  max_residual_allowed_ : ℚ
  dbhp_max_rel_ : ℚ
  dwell_fraction_max_ : ℚ
  deriving DecidableEq, Repr

/-- Member data of the class `StandardWellsDense`.  The dense blocks are kept as row lists. -/
structure StandardWellsDense where
  wells_ : Wells
  well_collection_ : WellCollection
  param_ : ModelParameters
  phase_usage_ : PhaseUsage
  active_ : List Bool
  gravity_ : ℚ
  well_perforation_densities_ : List ℚ
  well_perforation_pressure_diffs_ : List ℚ
  wellVariables_ : List ℚ
  invDuneD_ : List (List ℚ)
  duneC_ : List (List ℚ)
  resWell_ : List ℚ
  deriving DecidableEq, Repr

/-- Functions the header calls whose bodies are in other files of the repository or in the
libraries it links to.  Every theorem quantifies over this structure. -/
structure External where
  /-- `wellhelpers::constraintBroken(bhp, thp, rates, w, np, type, wc, ctrl_index)`. -/
  constraintBroken :
    List ℚ → List ℚ → List ℚ → Nat → Nat → WellType → WellControls → Nat → Bool
  /-- `vfp_properties_->getInj()->bhp(vfp, aqua, liquid, vapour, thp)`. -/
  vfpInjBhp : Int → ℚ → ℚ → ℚ → ℚ → ℚ
  /-- `vfp_properties_->getProd()->bhp(vfp, aqua, liquid, vapour, thp, alq)`. -/
  vfpProdBhp : Int → ℚ → ℚ → ℚ → ℚ → ℚ → ℚ
  /-- `vfp_properties_->getInj()->getTable(vfp)->getDatumDepth()`. -/
  vfpInjDatumDepth : Int → ℚ
  /-- `vfp_properties_->getProd()->getTable(vfp)->getDatumDepth()`. -/
  vfpProdDatumDepth : Int → ℚ
  /-- `wellhelpers::computeHydrostaticCorrection(wells, w, depth, rho, gravity)`. -/
  computeHydrostaticCorrection : Wells → Nat → ℚ → ℚ → ℚ → ℚ
  /-- `rate_converter_->calcCoeff(rates, fipreg, coeff)`, returning the new `coeff`. -/
  calcCoeff : List ℚ → Nat → List ℚ → List ℚ
  /-- `wellCollection()->applyVREPGroupControls(voidage_rates, conversion_coeffs)`. -/
  applyVREPGroupControls : WellCollection → List ℚ → List ℚ → WellCollection
  /-- `wellCollection()->updateWellTargets(well_rates)`; it may rewrite the targets held in
  the wells structure as well as the tree. -/
  updateWellTargets : WellCollection → Wells → List ℚ → WellCollection × Wells
  /-- `wellCollection()->groupTargetConverged(well_rates)`. -/
  groupTargetConverged : WellCollection → List ℚ → Bool
  /-- `flowPhaseToEbosCompIdx(phaseIdx)`, declared in the header, defined elsewhere. -/
  flowPhaseToEbosCompIdx : Nat → Nat
  /-- `assembleWellEq(ebosSimulator, dt, well_state, only_wells)`, declared in the header and
  defined elsewhere; a non-const member, so it may change member data and the well state. -/
  assembleWellEq : StandardWellsDense → ℚ → WellState → Bool → StandardWellsDense × WellState
  /-- `setWellVariables(xw)`, declared in the header and defined elsewhere. -/
  setWellVariables : StandardWellsDense → WellState → StandardWellsDense
  /-- `FluidSystem::waterPhaseIdx`. -/
  waterPhaseIdx : Nat
  /-- `FluidSystem::oilPhaseIdx`. -/
  oilPhaseIdx : Nat
  /-- `FluidSystem::gasPhaseIdx`. -/
  gasPhaseIdx : Nat
  /-- `FluidSystem::oilPvt().saturatedGasDissolutionFactor(region, temperature, pressure)`. -/
  saturatedGasDissolutionFactor : Nat → ℚ → ℚ → ℚ
  /-- `FluidSystem::gasPvt().saturatedOilVaporizationFactor(region, temperature, pressure)`. -/
  saturatedOilVaporizationFactor : Nat → ℚ → ℚ → ℚ
  /-- `allow_cross_flow(w, ebosSimulator)`, declared in the header and defined elsewhere. -/
  allow_cross_flow : StandardWellsDense → Nat → Bool
  /-- The values `B_avg` and `maxNormWell` that `detail::convergenceReduction` leaves for the
  present cell data and `residual()` (lines 400-415), as doubles. -/
  convergenceReduction : StandardWellsDense → List Dbl × List Dbl

/-! ## Small helpers for loops and control access -/

/-- A counted loop: `for (int i = 0; i < n; ++i) body(i)`. -/
def forRange {σ : Type} (n : Nat) (body : Nat → σ → σ) (s : σ) : σ :=
  (List.range n).foldl (fun acc i => body i acc) s

/-- An empty `WellControls`, the value of an out-of-range read. -/
def WellControls.empty : WellControls := { ctrls := [], current := -1 }

/-- A control with no content, the value of an out-of-range read. -/
def Control.zero : Control :=
  { type := WellControlType.BHP, target := 0, distr := [], vfp := 0, alq := 0 }

/-- Model of `well_controls_get_num`. -/
def well_controls_get_num (wc : WellControls) : Nat := wc.ctrls.length

/-- Model of `well_controls_iget_type`. -/
def well_controls_iget_type (wc : WellControls) (i : Int) : WellControlType :=
  (wc.ctrls.getD i.toNat Control.zero).type

/-- Model of `well_controls_iget_target`. -/
def well_controls_iget_target (wc : WellControls) (i : Int) : ℚ :=
  (wc.ctrls.getD i.toNat Control.zero).target

/-- Model of `well_controls_iget_distr`. -/
def well_controls_iget_distr (wc : WellControls) (i : Int) : List ℚ :=
  (wc.ctrls.getD i.toNat Control.zero).distr

/-- Model of `well_controls_iget_vfp`. -/
def well_controls_iget_vfp (wc : WellControls) (i : Int) : Int :=
  (wc.ctrls.getD i.toNat Control.zero).vfp

/-- Model of `well_controls_iget_alq`. -/
def well_controls_iget_alq (wc : WellControls) (i : Int) : ℚ :=
  (wc.ctrls.getD i.toNat Control.zero).alq

/-- Model of `well_controls_set_current`. -/
def well_controls_set_current (wc : WellControls) (i : Int) : WellControls :=
  { wc with current := i }

/-- Member function `numPhases`/`wells().number_of_phases`. -/
def StandardWellsDense.np (self : StandardWellsDense) : Nat := self.wells_.number_of_phases

/-- The value `wells().number_of_wells`. -/
def StandardWellsDense.nw (self : StandardWellsDense) : Nat := self.wells_.number_of_wells

/-- Modelled from the spec: `localWellsActive()` is declared in the header with the comment
"return true if wells are available on this process"; its body is in the implementation file. -/
def StandardWellsDense.localWellsActive (self : StandardWellsDense) : Bool :=
  decide (0 < self.wells_.number_of_wells)

/-- A read `v[i]` of a `std::vector<double>`. -/
def rd (v : List ℚ) (i : Nat) : ℚ := v.getD i 0

/-- A read `active_[phase]`. -/
def StandardWellsDense.active (self : StandardWellsDense) (phase : Nat) : Bool :=
  self.active_.getD phase false

/-- A read `pu.phase_pos[phase]`. -/
def StandardWellsDense.phasePos (self : StandardWellsDense) (phase : Nat) : Nat :=
  self.phase_usage_.phase_pos.getD phase 0

/-- A read `wells().type[w]`. -/
def StandardWellsDense.wellType (self : StandardWellsDense) (w : Nat) : WellType :=
  self.wells_.type.getD w WellType.PRODUCER

/-- A read `wells().ctrls[w]`. -/
def StandardWellsDense.wellCtrls (self : StandardWellsDense) (w : Nat) : WellControls :=
  self.wells_.ctrls.getD w WellControls.empty

/-! ## `updateWellStateWithTarget` (lines 1638-1798) -/

/-- The bhp that the THP branches compute from the VFP tables: `bhp(vfp, aqua, liquid, vapour,
thp[, alq]) - dp` with the hydrostatic correction `dp` of the first connection. -/
def bhpFromThp (E : External) (self : StandardWellsDense) (wc : WellControls) (current : Int)
    (well_index : Nat) (rates : List ℚ) : ℚ :=
  let np := self.np
  let aqua := if self.active Water then rd rates (well_index * np + self.phasePos Water) else 0
  let liquid := if self.active Oil then rd rates (well_index * np + self.phasePos Oil) else 0
  let vapour := if self.active Gas then rd rates (well_index * np + self.phasePos Gas) else 0
  let vfp := well_controls_iget_vfp wc current
  let thp := well_controls_iget_target wc current
  let alq := well_controls_iget_alq wc current
  let perf := self.wells_.well_connpos.getD well_index 0
  let rho := rd self.well_perforation_densities_ perf
  match self.wellType well_index with
  | WellType.INJECTOR =>
    let dp := E.computeHydrostaticCorrection self.wells_ well_index (E.vfpInjDatumDepth vfp) rho
      self.gravity_
    E.vfpInjBhp vfp aqua liquid vapour thp - dp
  | WellType.PRODUCER =>
    let dp := E.computeHydrostaticCorrection self.wells_ well_index (E.vfpProdDatumDepth vfp) rho
      self.gravity_
    E.vfpProdBhp vfp aqua liquid vapour thp alq - dp

/-- The first `switch` of `updateWellStateWithTarget`: seed bhp or the rates from the target. -/
def seedFromTarget (E : External) (self : StandardWellsDense) (wc : WellControls)
    (current : Int) (well_index : Nat) (xw : WellState) : WellState :=
  let np := self.np
  let target := well_controls_iget_target wc current
  let distr := well_controls_iget_distr wc current
  match well_controls_iget_type wc current with
  | WellControlType.BHP => { xw with bhp := xw.bhp.set well_index target }
  | WellControlType.THP =>
    { xw with bhp := xw.bhp.set well_index (bhpFromThp E self wc current well_index xw.wellRates) }
  | WellControlType.RESERVOIR_RATE => xw
  | WellControlType.SURFACE_RATE =>
    match self.wellType well_index with
    | WellType.INJECTOR =>
      forRange np (fun phase (st : WellState) =>
        let compi := rd self.wells_.comp_frac (np * well_index + phase)
        { st with wellRates := st.wellRates.set (np * well_index + phase) (target * compi) }) xw
    | WellType.PRODUCER =>
      let numPhasesWithTargetsUnderThisControl :=
        forRange np (fun phase (n : Nat) => if rd distr phase > 0 then n + 1 else n) 0
      forRange np (fun phase (st : WellState) =>
        if rd distr phase > 0 ∧ numPhasesWithTargetsUnderThisControl < 2 then
          { st with wellRates :=
              st.wellRates.set (np * well_index + phase) (target * rd distr phase) }
        else st) xw

/-- The scaling vector `g` of lines 1745-1750: `{1, 1, 0.01}`, replaced by the control's
distribution for a RESERVOIR_RATE control. -/
def targetScaling (self : StandardWellsDense) (wc : WellControls) (current : Int) : List ℚ :=
  let distr := well_controls_iget_distr wc current
  let g0 : List ℚ := [1, 1, 1 / 100]
  if well_controls_iget_type wc current = WellControlType.RESERVOIR_RATE then
    forRange self.np (fun phase (gg : List ℚ) => gg.set phase (rd distr phase)) g0
  else g0

/-- The second `switch` of `updateWellStateWithTarget` (lines 1755-1775): the first well
variable is the scaled total rate under BHP or THP control and the bhp under a rate control. -/
def seedXvarWell (self : StandardWellsDense) (wc : WellControls) (current : Int)
    (well_index : Nat) (g : List ℚ) (xw1 : WellState) : WellState :=
  let np := self.np
  let nw := self.nw
  match well_controls_iget_type wc current with
  | WellControlType.THP | WellControlType.BHP =>
    let z : WellState :=
      { xw1 with wellSolutions := xw1.wellSolutions.set (nw * XvarWell + well_index) 0 }
    match self.wellType well_index with
    | WellType.INJECTOR =>
      forRange np (fun p (st : WellState) =>
        let acc : ℚ := rd st.wellSolutions (nw * XvarWell + well_index)
          + rd st.wellRates (np * well_index + p) * rd self.wells_.comp_frac (np * well_index + p)
        { st with wellSolutions := st.wellSolutions.set (nw * XvarWell + well_index) acc }) z
    | WellType.PRODUCER =>
      forRange np (fun p (st : WellState) =>
        let acc : ℚ := rd st.wellSolutions (nw * XvarWell + well_index)
          + rd g p * rd st.wellRates (np * well_index + p)
        { st with wellSolutions := st.wellSolutions.set (nw * XvarWell + well_index) acc }) z
  | WellControlType.RESERVOIR_RATE | WellControlType.SURFACE_RATE =>
    { xw1 with wellSolutions :=
        xw1.wellSolutions.set (nw * XvarWell + well_index) (rd xw1.bhp well_index) }

/-- The end of `updateWellStateWithTarget` (lines 1777-1796): the water and gas fractions are
the scaled rates over the scaled total rate, or the injection composition when that total is
zero. -/
def seedFractions (self : StandardWellsDense) (well_index : Nat) (g : List ℚ) (xw2 : WellState) :
    WellState :=
  let np := self.np
  let nw := self.nw
  let tot_well_rate : ℚ :=
    forRange np (fun p (t : ℚ) => t + rd g p * rd xw2.wellRates (np * well_index + p)) 0
  let fw : ℚ :=
    if |tot_well_rate| > 0 then
      rd g Water * rd xw2.wellRates (np * well_index + Water) / tot_well_rate
    else rd self.wells_.comp_frac (np * well_index + Water)
  let fg : ℚ :=
    if |tot_well_rate| > 0 then
      rd g Gas * rd xw2.wellRates (np * well_index + Gas) / tot_well_rate
    else rd self.wells_.comp_frac (np * well_index + Gas)
  let xw3 : WellState :=
    if self.active Water then
      { xw2 with wellSolutions := xw2.wellSolutions.set (WFrac * nw + well_index) fw }
    else xw2
  if self.active Gas then
    { xw3 with wellSolutions := xw3.wellSolutions.set (GFrac * nw + well_index) fg }
  else xw3

/-- Model of `updateWellStateWithTarget(wc, current, well_index, xw)`: the first switch, the
scaling vector, the second switch and the fractions, in this order. -/
def updateWellStateWithTarget (E : External) (self : StandardWellsDense) (wc : WellControls)
    (current : Int) (well_index : Nat) (xw : WellState) : WellState :=
  let xw1 := seedFromTarget E self wc current well_index xw
  let g := targetScaling self wc current
  let xw2 := seedXvarWell self wc current well_index g xw1
  seedFractions self well_index g xw2

/-! ## Group control: `computeWellVoidageRates` and `applyVREPGroupControl` (lines 1164-1237) -/

/-- Model of `std::vector::resize(n, x)`. -/
def resize (v : List ℚ) (n : Nat) (x : ℚ) : List ℚ :=
  v.take n ++ List.replicate (n - v.length) x

/-- The slice `wellRates[np*w .. np*(w+1))` of one well. -/
def wellRateSlice (np w : Nat) (rates : List ℚ) : List ℚ :=
  (List.range np).map (fun p => rd rates (np * w + p))

/-- Model of `std::inner_product(a.begin(), a.end(), b.begin(), 0.0)`. -/
def inner_product (a b : List ℚ) : ℚ :=
  forRange a.length (fun i (t : ℚ) => t + rd a i * rd b i) 0

/-- Model of `computeWellVoidageRates`; the two output vectors are passed in and returned.
The counts `well_state.numWells()` and `numPhases()` are those of the wells structure. -/
def computeWellVoidageRates (E : External) (self : StandardWellsDense) (well_state : WellState)
    (well_voidage_rates voidage_conversion_coeffs : List ℚ) : List ℚ × List ℚ :=
  if !self.localWellsActive then (well_voidage_rates, voidage_conversion_coeffs)
  else
    let nw := self.nw
    let np := self.np
    let rates0 := resize well_voidage_rates nw 0
    let coeffs0 := resize voidage_conversion_coeffs (nw * np) 1
    let convert0 : List ℚ := List.replicate np 1
    let out := forRange nw (fun w (acc : List ℚ × List ℚ × List ℚ) =>
      let vr := acc.1
      let cc := acc.2.1
      let convert_coeff := acc.2.2
      if self.wellType w = WellType.PRODUCER then
        let well_rates := (wellRateSlice np w well_state.wellRates).map (fun x => -x)
        let convert_coeff1 := E.calcCoeff well_rates 0 convert_coeff
        (vr.set w (inner_product well_rates convert_coeff1), cc, convert_coeff1)
      else
        let well_rates := wellRateSlice np w well_state.wellRates
        let convert_coeff1 := E.calcCoeff well_rates 0 convert_coeff
        let cc1 := forRange convert_coeff1.length
          (fun i (c : List ℚ) => c.set (np * w + i) (rd convert_coeff1 i)) cc
        (vr, cc1, convert_coeff1)) (rates0, coeffs0, convert0)
    (out.1, out.2.1)

/-- Model of `applyVREPGroupControl(well_state)`: the tree is updated by the external
`applyVREPGroupControls`, then every injector leaf that is not under individual control has its
entry of `currentControls` overwritten by the node's `groupControlIndex`. -/
def applyVREPGroupControl (E : External) (self : StandardWellsDense) (well_state : WellState) :
    StandardWellsDense × WellState :=
  if self.well_collection_.havingVREPGroups then
    let vc := computeWellVoidageRates E self well_state [] []
    let coll := E.applyVREPGroupControls self.well_collection_ vc.1 vc.2
    let ws := coll.leafNodes.foldl (fun (st : WellState) (well_node : WellNode) =>
      if well_node.isInjector && !well_node.individualControl then
        { st with currentControls :=
            st.currentControls.set well_node.selfIndex well_node.groupControlIndex }
      else st) well_state
    ({ self with well_collection_ := coll }, ws)
  else (self, well_state)

/-! ## `updateWellControls` (lines 790-879) -/

/-- The scan `for (; ctrl_index < nwc; ++ctrl_index)` of lines 818-832, started at `ctrl_index`
with `fuel` iterations left: the current control is skipped, the scan stops at the first index
for which `broken` holds, and it ends with `nwc` when no such index is met. -/
def scanControls (broken : Nat → Bool) (current : Int) (nwc : Nat) : Nat → Nat → Nat
  | 0, ctrl_index => ctrl_index
  | fuel + 1, ctrl_index =>
    if ctrl_index < nwc then
      if (ctrl_index : Int) = current then scanControls broken current nwc fuel (ctrl_index + 1)
      else if broken ctrl_index then ctrl_index
      else scanControls broken current nwc fuel (ctrl_index + 1)
    else ctrl_index

/-- The violation pattern of well `w`: `constraintBroken` evaluated on the present state for
control index `i`, as in lines 826-828. -/
def brokenAt (E : External) (self : StandardWellsDense) (xw : WellState) (w : Nat) (i : Nat) :
    Bool :=
  E.constraintBroken xw.bhp xw.thp xw.wellRates w self.np (self.wellType w) (self.wellCtrls w) i

/-- The index at which the scan of well `w` stops (`nwc` when nothing is broken). -/
def scanResult (E : External) (self : StandardWellsDense) (xw : WellState) (w : Nat) : Nat :=
  let nwc := well_controls_get_num (self.wellCtrls w)
  scanControls (brokenAt E self xw w) (xw.currentControls.getD w 0) nwc nwc 0

/-- Modelled from the spec: `findWellNode(name)` followed by `setIndividualControl(flag)`; the
well collection is external, its leaves are looked up by well name. -/
def setIndividualControlOf (coll : WellCollection) (name : String) (flag : Int → Bool) :
    WellCollection :=
  { coll with leafNodes := coll.leafNodes.map (fun node =>
      if node.name = name then { node with individualControl := flag node.groupControlIndex }
      else node) }

/-- The body of the loop over wells of lines 808-854 for well `w`. -/
def scanWell (E : External) (w : Nat) (s : StandardWellsDense × WellState) :
    StandardWellsDense × WellState :=
  let self := s.1
  let xw := s.2
  let wc := self.wellCtrls w
  let current0 : Int := xw.currentControls.getD w 0
  let nwc := well_controls_get_num wc
  let ctrl_index := scanResult E self xw w
  let switched : Bool := decide (ctrl_index ≠ nwc)
  let xw1 : WellState :=
    if switched then { xw with currentControls := xw.currentControls.set w (ctrl_index : Int) }
    else xw
  let current : Int := if switched then (ctrl_index : Int) else current0
  let wells1 : Wells :=
    if switched then
      { self.wells_ with ctrls := self.wells_.ctrls.set w (well_controls_set_current wc current) }
    else self.wells_
  let coll1 : WellCollection :=
    if self.well_collection_.groupControlActive then
      setIndividualControlOf self.well_collection_ (self.wells_.name.getD w "")
        (fun groupControlIndex => !(decide (groupControlIndex ≥ 0) && decide (current = groupControlIndex)))
    else self.well_collection_
  ({ self with wells_ := wells1, well_collection_ := coll1 }, xw1)

/-- The first loop of `updateWellControls` over all wells (lines 808-854). -/
def scanWells (E : External) (self : StandardWellsDense) (xw : WellState) :
    StandardWellsDense × WellState :=
  forRange self.nw (scanWell E) (self, xw)

/-- Model of `updateWellControls(xw)`.  The switching logger only writes messages. -/
def updateWellControls (E : External) (self : StandardWellsDense) (xw : WellState) :
    StandardWellsDense × WellState :=
  if !self.localWellsActive then (self, xw)
  else
    let nw := self.nw
    let old_control_index : List Int := (List.range nw).map (fun w => xw.currentControls.getD w 0)
    let s1 := scanWells E self xw
    let s2 : StandardWellsDense × WellState :=
      if s1.1.well_collection_.groupControlActive then
        let a := applyVREPGroupControl E s1.1 s1.2
        let t := E.updateWellTargets a.1.well_collection_ a.1.wells_ a.2.wellRates
        ({ a.1 with well_collection_ := t.1, wells_ := t.2 }, a.2)
      else s1
    let updated_control_index : List Int :=
      (List.range nw).map (fun w => s2.2.currentControls.getD w 0)
    let xw3 := forRange nw (fun w (st : WellState) =>
      if updated_control_index.getD w 0 ≠ old_control_index.getD w 0 then
        updateWellStateWithTarget E s2.1 (s2.1.wellCtrls w) (updated_control_index.getD w 0) w st
      else st) s2.2
    (s2.1, xw3)

/-! ## `updateWellState` (lines 583-786) -/

/-- The block size of the well blocks (`blocksize = 3`). -/
def blocksize : Nat := 3

/-- A read `dwells[w][c]` of a block vector kept as one flat list of `blocksize` entries per
well. -/
def blockEntry (v : List ℚ) (w c : Nat) : ℚ := rd v (blocksize * w + c)

/-- The limited increment `sign * std::min(std::abs(dx), limit)` with `sign = dx > 0 ? 1 : -1`. -/
def limitedStep (dx limit : ℚ) : ℚ :=
  (if dx > 0 then 1 else -1) * min |dx| limit

/-- The fractions `F` of lines 612-650: oil is what water and gas leave, and a negative
fraction is set to zero after the others are divided by one minus it. -/
def normalizedFractions (self : StandardWellsDense) (fw fg : ℚ) : List ℚ :=
  let F0 : List ℚ := List.replicate self.np 0
  let F1 := F0.set Oil 1
  let F2 :=
    if self.active Water then
      let a := F1.set Water fw
      a.set Oil (rd a Oil - rd a Water)
    else F1
  let F3 :=
    if self.active Gas then
      let a := F2.set Gas fg
      a.set Oil (rd a Oil - rd a Gas)
    else F2
  let F4 :=
    if self.active Water then
      if rd F3 Water < 0 then
        let a := if self.active Gas then F3.set Gas (rd F3 Gas / (1 - rd F3 Water)) else F3
        let b := a.set Oil (rd a Oil / (1 - rd a Water))
        b.set Water 0
      else F3
    else F3
  let F5 :=
    if self.active Gas then
      if rd F4 Gas < 0 then
        let a := if self.active Water then F4.set Water (rd F4 Water / (1 - rd F4 Gas)) else F4
        let b := a.set Oil (rd a Oil / (1 - rd a Gas))
        b.set Gas 0
      else F4
    else F4
  if rd F5 Oil < 0 then
    let a := if self.active Water then F5.set Water (rd F5 Water / (1 - rd F5 Oil)) else F5
    let b := if self.active Gas then a.set Gas (rd a Gas / (1 - rd a Oil)) else a
    b.set Oil 0
  else F5

/-- The scaling of `F` of lines 668-678: by the control's distribution for a RESERVOIR_RATE
control and by `g = {1, 1, 0.01}` otherwise.  A division by a zero entry is Lean's division by
zero; results about the scaled values assume non-zero divisors. -/
def scaledFractions (self : StandardWellsDense) (wc : WellControls) (current : Int)
    (F : List ℚ) : List ℚ :=
  let g : List ℚ := [1, 1, 1 / 100]
  if well_controls_iget_type wc current = WellControlType.RESERVOIR_RATE then
    let distr := well_controls_iget_distr wc current
    forRange self.np (fun p (f : List ℚ) => f.set p (rd f p / rd distr p)) F
  else
    forRange self.np (fun p (f : List ℚ) => f.set p (rd f p / rd g p)) F

/-- The body of the loop over wells of `updateWellState` for well `w`. -/
def updateWellStateWell (E : External) (self : StandardWellsDense) (dwells : List ℚ)
    (xvar_well_old : List ℚ) (w : Nat) (well_state : WellState) : WellState :=
  let np := self.np
  let nw := self.nw
  let dFLimit := self.param_.dwell_fraction_max_
  let dBHPLimit := self.param_.dbhp_max_rel_
  let ws1 : WellState :=
    if self.active Water then
      let dx2_limited := limitedStep (blockEntry dwells w (E.flowPhaseToEbosCompIdx WFrac)) dFLimit
      { well_state with wellSolutions :=
          well_state.wellSolutions.set (WFrac * nw + w) (rd xvar_well_old (WFrac * nw + w) - dx2_limited) }
    else well_state
  let ws2 : WellState :=
    if self.active Gas then
      let dx3_limited := limitedStep (blockEntry dwells w (E.flowPhaseToEbosCompIdx GFrac)) dFLimit
      { ws1 with wellSolutions :=
          ws1.wellSolutions.set (GFrac * nw + w) (rd xvar_well_old (GFrac * nw + w) - dx3_limited) }
    else ws1
  let Fn := normalizedFractions self (rd ws2.wellSolutions (WFrac * nw + w))
    (rd ws2.wellSolutions (GFrac * nw + w))
  let ws3 : WellState :=
    if self.active Water then
      { ws2 with wellSolutions := ws2.wellSolutions.set (WFrac * nw + w) (rd Fn Water) }
    else ws2
  let ws4 : WellState :=
    if self.active Gas then
      { ws3 with wellSolutions := ws3.wellSolutions.set (GFrac * nw + w) (rd Fn Gas) }
    else ws3
  let wc := self.wellCtrls w
  let current : Int := ws4.currentControls.getD w 0
  let target_rate := well_controls_iget_target wc current
  let F := scaledFractions self wc current Fn
  match well_controls_iget_type wc current with
  | WellControlType.THP | WellControlType.BHP =>
    let x := rd xvar_well_old (nw * XvarWell + w)
      - blockEntry dwells w (E.flowPhaseToEbosCompIdx XvarWell)
    let ws5 : WellState :=
      { ws4 with wellSolutions := ws4.wellSolutions.set (nw * XvarWell + w) x }
    let ws6 : WellState :=
      match self.wellType w with
      | WellType.INJECTOR =>
        forRange np (fun p (st : WellState) =>
          let comp_frac := rd self.wells_.comp_frac (np * w + p)
          { st with wellRates :=
              st.wellRates.set (w * np + p) (comp_frac * rd st.wellSolutions (nw * XvarWell + w)) })
          ws5
      | WellType.PRODUCER =>
        forRange np (fun p (st : WellState) =>
          { st with wellRates :=
              st.wellRates.set (w * np + p) (rd st.wellSolutions (nw * XvarWell + w) * rd F p) })
          ws5
    if well_controls_iget_type wc current = WellControlType.THP then
      { ws6 with bhp := ws6.bhp.set w (bhpFromThp E self wc current w ws6.wellRates) }
    else ws6
  | WellControlType.SURFACE_RATE | WellControlType.RESERVOIR_RATE =>
    let dx1_limited := limitedStep (blockEntry dwells w (E.flowPhaseToEbosCompIdx XvarWell))
      (|rd xvar_well_old (nw * XvarWell + w)| * dBHPLimit)
    let x := max (rd xvar_well_old (nw * XvarWell + w) - dx1_limited) 100000
    let ws5 : WellState :=
      { ws4 with wellSolutions := ws4.wellSolutions.set (nw * XvarWell + w) x }
    let ws6 : WellState := { ws5 with bhp := ws5.bhp.set w (rd ws5.wellSolutions (nw * XvarWell + w)) }
    if well_controls_iget_type wc current = WellControlType.SURFACE_RATE then
      if self.wellType w = WellType.PRODUCER then
        let distr := well_controls_iget_distr wc current
        let F_target := forRange np (fun p (t : ℚ) => t + rd distr p * rd F p) 0
        forRange np (fun p (st : WellState) =>
          { st with wellRates := st.wellRates.set (np * w + p) (rd F p * target_rate / F_target) })
          ws6
      else
        forRange np (fun p (st : WellState) =>
          { st with wellRates :=
              st.wellRates.set (w * np + p) (rd self.wells_.comp_frac (np * w + p) * target_rate) })
          ws6
    else
      forRange np (fun p (st : WellState) =>
        { st with wellRates := st.wellRates.set (np * w + p) (rd F p * target_rate) }) ws6

/-- Model of `updateWellState(dwells, well_state)`. -/
def updateWellState (E : External) (self : StandardWellsDense) (dwells : List ℚ)
    (well_state : WellState) : WellState :=
  if self.localWellsActive then
    let xvar_well_old := well_state.wellSolutions
    forRange self.nw (updateWellStateWell E self dwells xvar_well_old) well_state
  else well_state

/-! ## `computeWellFlux` (lines 180-307) -/

/-- The intensive quantities of the perforated cell that `computeWellFlux` reads: pressure,
temperature, inverse formation volume factor and mobility by phase index of the fluid system,
the dissolved-gas and vaporized-oil ratios and the PVT region. -/
structure IntensiveQuantities where
  pressure : Nat → ℚ
  temperature : Nat → ℚ
  Rs : ℚ
  Rv : ℚ
  invB : Nat → ℚ
  mobility : Nat → ℚ
  pvtRegionIndex : Nat

/-- Model of `flowPhaseToEbosPhaseIdx` (lines 882-886). -/
def flowPhaseToEbosPhaseIdx (E : External) (phaseIdx : Nat) : Nat :=
  [E.waterPhaseIdx, E.oilPhaseIdx, E.gasPhaseIdx].getD phaseIdx 0

/-- Model of `wellVolumeFraction(wellIdx, phaseIdx)` (lines 1411-1431). -/
def wellVolumeFraction (self : StandardWellsDense) (wellIdx phaseIdx : Nat) : ℚ :=
  let nw := self.nw
  if phaseIdx = Water then rd self.wellVariables_ (WFrac * nw + wellIdx)
  else if phaseIdx = Gas then rd self.wellVariables_ (GFrac * nw + wellIdx)
  else
    let f1 : ℚ := if self.active Water then 1 - rd self.wellVariables_ (WFrac * nw + wellIdx) else 1
    if self.active Gas then f1 - rd self.wellVariables_ (GFrac * nw + wellIdx) else f1

/-- A division whose divisor the source does not guard: no value when the divisor is zero.
The C++ quotient is then an infinity or NaN, and the source goes on computing with it; the
values it reaches, which can be finite again, are those of `Dbl.div` and
`computeWellFluxDbl`. -/
def sdiv (a b : ℚ) : Option ℚ := if b = 0 then none else some (a / b)

/-- The vector `cmix_s` of lines 186-190. -/
def cmixOf (self : StandardWellsDense) (w : Nat) : List ℚ :=
  (List.range self.np).map (fun phase => wellVolumeFraction self w phase)

/-- The vector `b_perfcells_dense` of lines 195-201. -/
def bPerfcells (E : External) (self : StandardWellsDense) (intQuants : IntensiveQuantities) :
    List ℚ :=
  (List.range self.np).map (fun phase => intQuants.invB (flowPhaseToEbosPhaseIdx E phase))

/-- The vector `mob_perfcells_dense` of lines 195-201. -/
def mobPerfcells (E : External) (self : StandardWellsDense) (intQuants : IntensiveQuantities) :
    List ℚ :=
  (List.range self.np).map (fun phase => intQuants.mobility (flowPhaseToEbosPhaseIdx E phase))

/-- The drawdown of lines 204-205: cell pressure minus `bhp + cdp`. -/
def drawdownOf (E : External) (intQuants : IntensiveQuantities) (bhp cdp : ℚ) : ℚ :=
  intQuants.pressure E.oilPhaseIdx - (bhp + cdp)

/-- The rates `cq_ps` of the branch `drawdown > 0` (lines 214-227): the base rates
`b * (-Tw * (mob * drawdown))`, then the dissolved-gas and vaporized-oil corrections from the
base oil and gas rates when oil and gas are both active. -/
def cqPs (self : StandardWellsDense) (Tw : ℚ) (rs rv : ℚ) (b mob : List ℚ) (drawdown : ℚ) :
    List ℚ :=
  let cq_ps : List ℚ :=
    (List.range self.np).map (fun phase => rd b phase * (-Tw * (rd mob phase * drawdown)))
  if self.active Oil && self.active Gas then
    let oilpos := self.phasePos Oil
    let gaspos := self.phasePos Gas
    let cq_psOil := rd cq_ps oilpos
    let cq_psGas := rd cq_ps gaspos
    let a := cq_ps.set gaspos (rd cq_ps gaspos + rs * cq_psOil)
    a.set oilpos (rd a oilpos + rv * cq_psGas)
  else cq_ps

/-- The total mobility of lines 240-243. -/
def totalMob (self : StandardWellsDense) (mob : List ℚ) : ℚ :=
  (List.range (self.np - 1)).foldl (fun t k => t + rd mob (k + 1)) (rd mob 0)

/-- The volume ratio of lines 247-299; no value when one of its unguarded divisions has a zero
divisor (the double that the source computes then is `volumeRatioDbl`). -/
def volumeRatioOf (E : External) (self : StandardWellsDense) (intQuants : IntensiveQuantities)
    (well_pressure : ℚ) (cmix_s b : List ℚ) : Option ℚ := do
  let v1 : ℚ ←
    if self.active Water then do
      let q ← sdiv (rd cmix_s (self.phasePos Water)) (rd b (self.phasePos Water))
      pure (0 + q)
    else pure 0
  if self.active Oil && self.active Gas then do
    let well_temperature := intQuants.temperature E.oilPhaseIdx
    let rsSatEval :=
      E.saturatedGasDissolutionFactor intQuants.pvtRegionIndex well_temperature well_pressure
    let rvSatEval :=
      E.saturatedOilVaporizationFactor intQuants.pvtRegionIndex well_temperature well_pressure
    let oilpos := self.phasePos Oil
    let gaspos := self.phasePos Gas
    let rvPerf0 : ℚ := if rd cmix_s gaspos > 0 then rd cmix_s oilpos / rd cmix_s gaspos else 0
    let rvPerf : ℚ := if rvPerf0 > rvSatEval then rvSatEval else rvPerf0
    let rsPerf0 : ℚ := if rd cmix_s oilpos > 0 then rd cmix_s gaspos / rd cmix_s oilpos else 0
    let rsPerf : ℚ := if rsPerf0 > rsSatEval then rsSatEval else rsPerf0
    let d : ℚ := 1 - rvPerf * rsPerf
    let tmp_oil ← sdiv (rd cmix_s oilpos - rvPerf * rd cmix_s gaspos) d
    let q1 ← sdiv tmp_oil (rd b oilpos)
    let tmp_gas ← sdiv (rd cmix_s gaspos - rsPerf * rd cmix_s oilpos) d
    let q2 ← sdiv tmp_gas (rd b gaspos)
    pure (v1 + q1 + q2)
  else do
    let v2 : ℚ ←
      if self.active Oil then do
        let q ← sdiv (rd cmix_s (self.phasePos Oil)) (rd b (self.phasePos Oil))
        pure (v1 + q)
      else pure v1
    if self.active Gas then do
      let q ← sdiv (rd cmix_s (self.phasePos Gas)) (rd b (self.phasePos Gas))
      pure (v2 + q)
    else pure v2

/-- The final loop `cq_s[phase] = values[phase]` over the `np` phases. -/
def writeRates (np : Nat) (values cq_s : List ℚ) : List ℚ :=
  forRange np (fun phase (c : List ℚ) => c.set phase (rd values phase)) cq_s

/-- Model of `computeWellFlux(w, Tw, intQuants, bhp, cdp, allow_cf, cq_s)`: the result is the
vector `cq_s` on return, or no value when an unguarded division has a zero divisor; the doubles
that the source returns in that case are those of `computeWellFluxDbl`.  When flow is
suppressed the function returns without writing, so `cq_s` is what was passed in. -/
def computeWellFlux (E : External) (self : StandardWellsDense) (w : Nat) (Tw : ℚ)
    (intQuants : IntensiveQuantities) (bhp cdp : ℚ) (allow_cf : Bool) (cq_s : List ℚ) :
    Option (List ℚ) :=
  let np := self.np
  let cmix_s := cmixOf self w
  let rs := intQuants.Rs
  let rv := intQuants.Rv
  let b_perfcells_dense := bPerfcells E self intQuants
  let mob_perfcells_dense := mobPerfcells E self intQuants
  let well_pressure := bhp + cdp
  let drawdown := drawdownOf E intQuants bhp cdp
  if drawdown > 0 then
    if !allow_cf && decide (self.wellType w = WellType.INJECTOR) then some cq_s
    else
      some (writeRates np (cqPs self Tw rs rv b_perfcells_dense mob_perfcells_dense drawdown) cq_s)
  else
    if !allow_cf && decide (self.wellType w = WellType.PRODUCER) then some cq_s
    else do
      let total_mob_dense := totalMob self mob_perfcells_dense
      let cqt_i : ℚ := -Tw * (total_mob_dense * drawdown)
      let volumeRatio ← volumeRatioOf E self intQuants well_pressure cmix_s b_perfcells_dense
      let cqt_is ← sdiv cqt_i volumeRatio
      pure (writeRates np (cmix_s.map (fun c => c * cqt_is)) cq_s)

/-! ## `getWellConvergence` (lines 381-464) -/

/-- The vector `well_flux_residual` of line 424: `B_avg[idx] * maxNormWell[idx]` for each of the
`np` phases. -/
def wellFluxResidual (np : Nat) (B_avg maxNormWell : List Dbl) : List Dbl :=
  (List.range np).map (fun idx =>
    Dbl.mul (B_avg.getD idx (Dbl.fin 0)) (maxNormWell.getD idx (Dbl.fin 0)))

/-- The loop of lines 429-438 over the phases from `phaseIdx` on: the first NaN residual or
residual above `maxResidualAllowed` raises `Opm::NumericalProblem`. -/
def checkResiduals (maxResidualAllowed : Dbl) : List Dbl → Except String Unit
  | [] => Except.ok ()
  | r :: rest =>
    if r.isnan then Except.error "NaN residual"
    else if Dbl.gt r maxResidualAllowed then Except.error "Too large residual"
    else checkResiduals maxResidualAllowed rest

/-- The part of `getWellConvergence` after the reduction (lines 418-463): the flag is the
conjunction of `well_flux_residual[idx] < tol_wells`, and it is returned unless a residual is
NaN or above `maxResidualAllowed`.  Terminal output is not modelled. -/
def wellConvergenceFrom (np : Nat) (tol_wells maxResidualAllowed : Dbl)
    (B_avg maxNormWell : List Dbl) : Except String Bool :=
  let well_flux_residual := wellFluxResidual np B_avg maxNormWell
  let converged_Well := well_flux_residual.foldl (fun c r => c && Dbl.lt r tol_wells) true
  match checkResiduals maxResidualAllowed well_flux_residual with
  | Except.error e => Except.error e
  | Except.ok _ => Except.ok converged_Well

/-- Model of `getWellConvergence(ebosSimulator, iteration)`. -/
def getWellConvergence (E : External) (self : StandardWellsDense) : Except String Bool :=
  let red := E.convergenceReduction self
  wellConvergenceFrom self.np (Dbl.fin self.param_.tolerance_wells_)
    (Dbl.fin self.param_.max_residual_allowed_) red.1 red.2

/-! ## `solveWellEq` (lines 309-352) -/

/-- The fields of `SimulatorReport` that `solveWellEq` sets. -/
structure SimulatorReport where
  converged : Bool
  total_well_iterations : Nat
  deriving DecidableEq, Repr

/-- Model of `M.mv(x, y)`: the product of a dense matrix, kept as a list of rows, with a
vector. -/
def mv (M : List (List ℚ)) (x : List ℚ) : List ℚ :=
  M.map (fun row => forRange row.length (fun j (t : ℚ) => t + rd row j * rd x j) 0)

/-- The update `dx_well = invDuneD_ * resWell_` of lines 335-336. -/
def StandardWellsDense.dxWell (self : StandardWellsDense) : List ℚ :=
  mv self.invDuneD_ self.resWell_

/-- The state of the `do ... while` loop of `solveWellEq`, with three counters that the source
does not keep: the convergence checks made, the well-state updates made, and the passes in
which the update was skipped because `localWellsActive()` was false. -/
structure SolveLoop where
  swd : StandardWellsDense
  well_state : WellState
  it : Nat
  converged : Bool
  checks : Nat
  updates : Nat
  skipped : Nat
  deriving DecidableEq, Repr

/-- The ways the loop can end other than by leaving it: the exception of `getWellConvergence`,
carrying the loop state at the throw, or the model running out of fuel. -/
inductive SolveStop where
  | numericalProblem (msg : String) (at_throw : SolveLoop)
  | outOfFuel
  deriving DecidableEq, Repr

/-- How one pass through the body of the `do ... while` loop ends: `getWellConvergence` throws,
the loop is left (by `break` or because `it < 15` fails), or the body is entered again. -/
inductive PassOutcome where
  | thrown (msg : String) (at_throw : SolveLoop)
  | finished (s : SolveLoop)
  | again (s : SolveLoop)
  deriving DecidableEq, Repr

/-- The flag `converged` of lines 321-326 for the member data and well state left by
`assembleWellEq`: the result of `getWellConvergence`, and also `groupTargetConverged` of the
well rates when group control is active. -/
def convergedFlag (E : External) (swd : StandardWellsDense) (well_state : WellState)
    (c0 : Bool) : Bool :=
  if swd.well_collection_.groupControlActive then
    c0 && E.groupTargetConverged swd.well_collection_ well_state.wellRates
  else c0

/-- One pass through the body of the loop of lines 319-342, with the test `it < 15`. -/
def solvePass (E : External) (dt : ℚ) (s : SolveLoop) : PassOutcome :=
  let a := E.assembleWellEq s.swd dt s.well_state true
  match getWellConvergence E a.1 with
  | Except.error msg =>
    PassOutcome.thrown msg { s with swd := a.1, well_state := a.2, checks := s.checks + 1 }
  | Except.ok c0 =>
    if convergedFlag E a.1 a.2 c0 then
      PassOutcome.finished
        { s with swd := a.1, well_state := a.2, converged := true, checks := s.checks + 1 }
    else
      let it := s.it + 1
      let next : SolveLoop :=
        if a.1.localWellsActive then
          let dx_well := a.1.dxWell
          let ws1 := updateWellState E a.1 dx_well a.2
          let c := updateWellControls E a.1 ws1
          { swd := E.setWellVariables c.1 c.2, well_state := c.2, it := it, converged := false,
            checks := s.checks + 1, updates := s.updates + 1, skipped := s.skipped }
        else
          { swd := a.1, well_state := a.2, it := it, converged := false,
            checks := s.checks + 1, updates := s.updates, skipped := s.skipped + 1 }
      if it < 15 then PassOutcome.again next else PassOutcome.finished next

/-- The `do ... while (it < 15)` loop of lines 319-342; `fuel` bounds the number of passes. -/
def solveWellEqLoop (E : External) (dt : ℚ) : Nat → SolveLoop → Except SolveStop SolveLoop
  | 0, _ => Except.error SolveStop.outOfFuel
  | fuel + 1, s =>
    match solvePass E dt s with
    | PassOutcome.thrown msg t => Except.error (SolveStop.numericalProblem msg t)
    | PassOutcome.finished r => Except.ok r
    | PassOutcome.again next => solveWellEqLoop E dt fuel next

/-- What `solveWellEq` leaves on a normal return: the report, the member data, the well state
and the three counters of the loop. -/
structure SolveResult where
  report : SimulatorReport
  swd : StandardWellsDense
  well_state : WellState
  checks : Nat
  updates : Nat
  skipped : Nat
  deriving DecidableEq, Repr

/-- Model of `solveWellEq(ebosSimulator, dt, well_state)`: the copy `well_state0`, the loop,
the roll-back `well_state = well_state0` when not converged, and the report. -/
def solveWellEq (E : External) (self : StandardWellsDense) (dt : ℚ) (well_state : WellState) :
    Except SolveStop SolveResult :=
  let well_state0 := well_state
  match solveWellEqLoop E dt 15
      { swd := self, well_state := well_state, it := 0, converged := false, checks := 0,
        updates := 0, skipped := 0 } with
  | Except.error e => Except.error e
  | Except.ok s =>
    let ws := if !s.converged then well_state0 else s.well_state
    Except.ok
      { report := { converged := s.converged, total_well_iterations := s.it }
        swd := s.swd, well_state := ws, checks := s.checks, updates := s.updates,
        skipped := s.skipped }

/-! ## `recoverVariable` (declared on line 133) -/

/-- Model of `M.mmv(x, y)` (`y -= M x`) on a copy of `y`: the entries of `y` minus those of
`M x`. -/
def mmv (M : List (List ℚ)) (x y : List ℚ) : List ℚ :=
  (List.range y.length).map (fun i => rd y i - rd (mv M x) i)

/-- Modelled from the spec: `recoverVariable(x, xw)` is declared in the header under the comment
"xw = inv(D)*(rw - C*x)" and its body is in the implementation file.  The spec says that it
"computes the well unknown update as D^-1 (residual - C globalCorrection)" with the same stored
inverse that the elimination used: the residual `resWell_` minus `duneC_ x`, multiplied by
`invDuneD_`. -/
def recoverVariable (self : StandardWellsDense) (x : List ℚ) : List ℚ :=
  mv self.invDuneD_ (mmv self.duneC_ x self.resWell_)

/-! ## `computeWellPotentials` (lines 1022-1115) -/

/-- The bhp that `computeWellPotentials` determines for well `w` (lines 1034-1099): it starts
at 0, a BHP control assigns its target, and a THP control replaces it by the bhp computed from
the VFP table when that is smaller (injector) or larger (producer). -/
def potentialBhp (E : External) (self : StandardWellsDense) (well_state : WellState) (w : Nat) :
    ℚ :=
  let well_control := self.wellCtrls w
  let nwc := well_controls_get_num well_control
  forRange nwc (fun ctrl_index (bhp : ℚ) =>
    let bhp1 : ℚ :=
      if well_controls_iget_type well_control ctrl_index = WellControlType.BHP then
        well_controls_iget_target well_control ctrl_index
      else bhp
    if well_controls_iget_type well_control ctrl_index = WellControlType.THP then
      let bhp_calculated := bhpFromThp E self well_control ctrl_index w well_state.wellRates
      match self.wellType w with
      | WellType.INJECTOR => if bhp_calculated < bhp1 then bhp_calculated else bhp1
      | WellType.PRODUCER => if bhp_calculated > bhp1 then bhp_calculated else bhp1
    else bhp1) 0

/-- The body of the loop over the connections of well `w` (lines 1105-1113) for the connection
`perf`: a fresh zero vector `well_potentials` is passed to `computeWellFlux` and its entries
are stored.  `cell` gives the cached intensive quantities of a cell. -/
def computeWellPotentialsPerf (E : External) (self : StandardWellsDense)
    (cell : Nat → IntensiveQuantities) (bhp : ℚ) (allow_cf : Bool) (w perf : Nat)
    (well_state : WellState) : Option WellState := do
  let np := self.np
  let cell_index := self.wells_.well_cells.getD perf 0
  let intQuants := cell cell_index
  let well_potentials ← computeWellFlux E self w (rd self.wells_.WI perf) intQuants bhp
    (rd self.well_perforation_pressure_diffs_ perf) allow_cf (List.replicate np 0)
  pure (forRange np (fun p (st : WellState) =>
    { st with wellPotentials := st.wellPotentials.set (perf * np + p) (rd well_potentials p) })
    well_state)

/-- Model of `computeWellPotentials(ebosSimulator, well_state)`; no value when a flux
computation divides by zero.  The assertion `bhp != 0.0` of line 1101 is not part of the
value. -/
def computeWellPotentials (E : External) (self : StandardWellsDense)
    (cell : Nat → IntensiveQuantities) (well_state : WellState) : Option WellState :=
  (List.range self.nw).foldlM (fun (st : WellState) w =>
    let bhp := potentialBhp E self st w
    let allow_cf := E.allow_cross_flow self w
    let first := self.wells_.well_connpos.getD w 0
    let last := self.wells_.well_connpos.getD (w + 1) 0
    (List.range' first (last - first)).foldlM (fun (st2 : WellState) perf =>
      computeWellPotentialsPerf E self cell bhp allow_cf w perf st2) st) well_state

/-- The value `(rvPerf, rsPerf)` of lines 261-277: the ratios of the wellbore fractions, capped
by the saturated values at well-bore pressure. -/
def perfRatios (E : External) (self : StandardWellsDense) (intQuants : IntensiveQuantities)
    (well_pressure : ℚ) (cmix_s : List ℚ) : ℚ × ℚ :=
  let well_temperature := intQuants.temperature E.oilPhaseIdx
  let rsSatEval :=
    E.saturatedGasDissolutionFactor intQuants.pvtRegionIndex well_temperature well_pressure
  let rvSatEval :=
    E.saturatedOilVaporizationFactor intQuants.pvtRegionIndex well_temperature well_pressure
  let oilpos := self.phasePos Oil
  let gaspos := self.phasePos Gas
  let rvPerf0 : ℚ := if rd cmix_s gaspos > 0 then rd cmix_s oilpos / rd cmix_s gaspos else 0
  let rvPerf : ℚ := if rvPerf0 > rvSatEval then rvSatEval else rvPerf0
  let rsPerf0 : ℚ := if rd cmix_s oilpos > 0 then rd cmix_s gaspos / rd cmix_s oilpos else 0
  let rsPerf : ℚ := if rsPerf0 > rsSatEval then rsSatEval else rsPerf0
  (rvPerf, rsPerf)

/-- The miscibility denominator `d = 1 - rvPerf * rsPerf` of line 280. -/
def miscibilityDenominator (E : External) (self : StandardWellsDense)
    (intQuants : IntensiveQuantities) (well_pressure : ℚ) (cmix_s : List ℚ) : ℚ :=
  1 - (perfRatios E self intQuants well_pressure cmix_s).1
    * (perfRatios E self intQuants well_pressure cmix_s).2

/-! ## `computeWellFlux` with the values of its unguarded divisions

`computeWellFlux` above has no value as soon as a division meets a zero divisor.  The source
goes on computing with the quotient, an infinity or NaN, and what it returns may be finite
again (`x / inf` is 0).  The definitions below keep these values.  Finite arithmetic is exact,
and a zero divisor stands for `+0.0`: the zeros among the inputs are `+0.0`, the miscibility
denominator is a difference `1.0 - x` and the volume ratio a sum started from `0.0`, and
neither of these is `-0.0` when it vanishes. -/

/-- The sum of two doubles: NaN is absorbing and infinities of opposite sign add up to NaN. -/
def Dbl.add : Dbl → Dbl → Dbl
  | Dbl.nan, _ => Dbl.nan
  | _, Dbl.nan => Dbl.nan
  | Dbl.fin a, Dbl.fin b => Dbl.fin (a + b)
  | Dbl.fin _, Dbl.pinf => Dbl.pinf
  | Dbl.fin _, Dbl.ninf => Dbl.ninf
  | Dbl.pinf, Dbl.fin _ => Dbl.pinf
  | Dbl.ninf, Dbl.fin _ => Dbl.ninf
  | Dbl.pinf, Dbl.pinf => Dbl.pinf
  | Dbl.ninf, Dbl.ninf => Dbl.ninf
  | Dbl.pinf, Dbl.ninf => Dbl.nan
  | Dbl.ninf, Dbl.pinf => Dbl.nan

/-- The quotient of two doubles: NaN is absorbing, `0 / 0` and `inf / inf` are NaN, a non-zero
value over zero is the infinity with the sign of the dividend, and a finite value over an
infinity is 0. -/
def Dbl.div : Dbl → Dbl → Dbl
  | Dbl.nan, _ => Dbl.nan
  | _, Dbl.nan => Dbl.nan
  | Dbl.fin a, Dbl.fin b =>
    if b = 0 then (if a = 0 then Dbl.nan else if 0 < a then Dbl.pinf else Dbl.ninf)
    else Dbl.fin (a / b)
  | Dbl.fin _, Dbl.pinf => Dbl.fin 0
  | Dbl.fin _, Dbl.ninf => Dbl.fin 0
  | Dbl.pinf, Dbl.fin b => if 0 ≤ b then Dbl.pinf else Dbl.ninf
  | Dbl.ninf, Dbl.fin b => if 0 ≤ b then Dbl.ninf else Dbl.pinf
  | Dbl.pinf, Dbl.pinf => Dbl.nan
  | Dbl.pinf, Dbl.ninf => Dbl.nan
  | Dbl.ninf, Dbl.pinf => Dbl.nan
  | Dbl.ninf, Dbl.ninf => Dbl.nan

/-- The volume ratio of lines 247-299 as the double that the source computes. -/
def volumeRatioDbl (E : External) (swd : StandardWellsDense) (intQuants : IntensiveQuantities)
    (well_pressure : ℚ) (cmix_s b : List ℚ) : Dbl :=
  let v1 : Dbl :=
    if swd.active Water then
      Dbl.add (Dbl.fin 0)
        (Dbl.div (Dbl.fin (rd cmix_s (swd.phasePos Water))) (Dbl.fin (rd b (swd.phasePos Water))))
    else Dbl.fin 0
  if swd.active Oil && swd.active Gas then
    let oilpos := swd.phasePos Oil
    let gaspos := swd.phasePos Gas
    let rvPerf := (perfRatios E swd intQuants well_pressure cmix_s).1
    let rsPerf := (perfRatios E swd intQuants well_pressure cmix_s).2
    let d : ℚ := 1 - rvPerf * rsPerf
    let tmp_oil := Dbl.div (Dbl.fin (rd cmix_s oilpos - rvPerf * rd cmix_s gaspos)) (Dbl.fin d)
    let v2 := Dbl.add v1 (Dbl.div tmp_oil (Dbl.fin (rd b oilpos)))
    let tmp_gas := Dbl.div (Dbl.fin (rd cmix_s gaspos - rsPerf * rd cmix_s oilpos)) (Dbl.fin d)
    Dbl.add v2 (Dbl.div tmp_gas (Dbl.fin (rd b gaspos)))
  else
    let v2 : Dbl :=
      if swd.active Oil then
        Dbl.add v1
          (Dbl.div (Dbl.fin (rd cmix_s (swd.phasePos Oil))) (Dbl.fin (rd b (swd.phasePos Oil))))
      else v1
    if swd.active Gas then
      Dbl.add v2
        (Dbl.div (Dbl.fin (rd cmix_s (swd.phasePos Gas))) (Dbl.fin (rd b (swd.phasePos Gas))))
    else v2

/-- The final loop `cq_s[phase] = values[phase]` over the `np` phases, on doubles. -/
def writeRatesDbl (np : Nat) (values cq_s : List Dbl) : List Dbl :=
  forRange np (fun phase (c : List Dbl) => c.set phase (values.getD phase (Dbl.fin 0))) cq_s

/-- Model of `computeWellFlux(w, Tw, intQuants, bhp, cdp, allow_cf, cq_s)` that returns the
doubles in `cq_s` on return, whatever the divisors of the branch `drawdown <= 0` are. -/
def computeWellFluxDbl (E : External) (swd : StandardWellsDense) (w : Nat) (Tw : ℚ)
    (intQuants : IntensiveQuantities) (bhp cdp : ℚ) (allow_cf : Bool) (cq_s : List Dbl) :
    List Dbl :=
  let np := swd.np
  let cmix_s := cmixOf swd w
  let rs := intQuants.Rs
  let rv := intQuants.Rv
  let b_perfcells_dense := bPerfcells E swd intQuants
  let mob_perfcells_dense := mobPerfcells E swd intQuants
  let well_pressure := bhp + cdp
  let drawdown := drawdownOf E intQuants bhp cdp
  if drawdown > 0 then
    if !allow_cf && decide (swd.wellType w = WellType.INJECTOR) then cq_s
    else
      writeRatesDbl np
        ((cqPs swd Tw rs rv b_perfcells_dense mob_perfcells_dense drawdown).map Dbl.fin) cq_s
  else
    if !allow_cf && decide (swd.wellType w = WellType.PRODUCER) then cq_s
    else
      let total_mob_dense := totalMob swd mob_perfcells_dense
      let cqt_i : ℚ := -Tw * (total_mob_dense * drawdown)
      let volumeRatio := volumeRatioDbl E swd intQuants well_pressure cmix_s b_perfcells_dense
      let cqt_is := Dbl.div (Dbl.fin cqt_i) volumeRatio
      writeRatesDbl np (cmix_s.map (fun c => Dbl.mul (Dbl.fin c) cqt_is)) cq_s

/-! ## Economic limits: `updateListEconLimited` (lines 889-990) and its checks (lines 1445-1632) -/

/-- What the header reads from the external `WellEconProductionLimits`, each accessor with the
value it returns. The accessors that only select a log message (`quantityLimit`, `endRun`,
`validFollowonWell`, `onMinReservoirFluidRate`, `onMaxGasOilRatio`, `onMaxWaterGasRatio`,
`onMaxGasLiquidRatio`) are left out. -/
structure WellEconProductionLimits where
  onAnyEffectiveLimit : Bool
  onAnyRateLimit : Bool
  onAnyRatioLimit : Bool
  onMinOilRate : Bool
  minOilRate : ℚ
  onMinGasRate : Bool
  minGasRate : ℚ
  onMinLiquidRate : Bool
  minLiquidRate : ℚ
  onMaxWaterCut : Bool
  maxWaterCut : ℚ
  deriving DecidableEq, Repr

/-- What the header reads from a `Well` of the schedule: its economic production limits at a
report step and its automatic shut-in flag. -/
structure Well where
  getEconProductionLimits : Nat → WellEconProductionLimits
  getAutomaticShutIn : Bool

/-- What the header reads from the external `Schedule`: the well of a given name. -/
structure Schedule where
  getWell : String → Well

/-- The external `DynamicListEconLimited` as the three collections it keeps, each in the order
of the additions: the wells shut, the wells stopped, and the closed connections as pairs of a
well name and a reservoir cell. -/
structure DynamicListEconLimited where
  shut_wells : List String
  stopped_wells : List String
  cells_closed_connections : List (String × Nat)
  deriving DecidableEq, Repr

/-- Member `addShutWell`. -/
def DynamicListEconLimited.addShutWell (l : DynamicListEconLimited) (well_name : String) :
    DynamicListEconLimited :=
  { l with shut_wells := l.shut_wells ++ [well_name] }

/-- Member `addStoppedWell`. -/
def DynamicListEconLimited.addStoppedWell (l : DynamicListEconLimited) (well_name : String) :
    DynamicListEconLimited :=
  { l with stopped_wells := l.stopped_wells ++ [well_name] }

/-- Member `addClosedConnectionsForWell`. -/
def DynamicListEconLimited.addClosedConnectionsForWell (l : DynamicListEconLimited)
    (well_name : String) (cell_closed_connection : Nat) : DynamicListEconLimited :=
  { l with cells_closed_connections :=
      l.cells_closed_connections ++ [(well_name, cell_closed_connection)] }

/-- An entry of `WellState::wellMap()`: `map_entry[0]`, `map_entry[1]`, `map_entry[2]`. -/
structure WellMapEntryType where
  well_number : Nat
  perf_start : Nat
  perf_number : Nat
  deriving DecidableEq, Repr

/-- The map `well_state.wellMap()` through `find`: the entry of a well name, if there is one. -/
structure WellMapType where
  find : String → Option WellMapEntryType

/-- The header's `checkRateEconLimits` (lines 1445-1488); the assertions that the phases are
active are not part of the value. -/
def checkRateEconLimits (swd : StandardWellsDense) (econ_production_limits : WellEconProductionLimits)
    (well_state : WellState) (well_number : Nat) : Bool :=
  let np := swd.np
  let oil_rate := rd well_state.wellRates (well_number * np + swd.phasePos Oil)
  let gas_rate := rd well_state.wellRates (well_number * np + swd.phasePos Gas)
  let water_rate := rd well_state.wellRates (well_number * np + swd.phasePos Water)
  if econ_production_limits.onMinOilRate = true ∧ |oil_rate| < econ_production_limits.minOilRate then
    true
  else if econ_production_limits.onMinGasRate = true
      ∧ |gas_rate| < econ_production_limits.minGasRate then
    true
  else if econ_production_limits.onMinLiquidRate = true
      ∧ |oil_rate + water_rate| < econ_production_limits.minLiquidRate then
    true
  else false

/-- The header's `RatioCheckTuple`: violated, last connection, index of the worst-offending
connection, extent of the violation. -/
abbrev RatioCheckTuple : Type := Bool × Bool × Int × ℚ

/-- The enumerator `INVALIDCONNECTION`. -/
def INVALIDCONNECTION : Int := -10000

/-- The water cut as lines 1580-1585 and 1603-1608 compute it from an oil and a water rate. -/
def waterCut (oil_rate water_rate : ℚ) : ℚ :=
  let liquid_rate := oil_rate + water_rate
  if |liquid_rate| ≠ 0 then water_rate / liquid_rate else 0

/-- The vector `water_cut_perf` of lines 1597-1609. -/
def waterCutPerf (swd : StandardWellsDense) (well_state : WellState)
    (map_entry : WellMapEntryType) : List ℚ :=
  let np := swd.np
  (List.range map_entry.perf_number).map (fun perf =>
    let i_perf := map_entry.perf_start + perf
    waterCut (rd well_state.perfPhaseRates (i_perf * np + swd.phasePos Oil))
      (rd well_state.perfPhaseRates (i_perf * np + swd.phasePos Water)))

/-- The search of lines 1618-1624: the running pair of `worst_offending_connection` and
`max_water_cut_perf`, started at `INVALIDCONNECTION` and `0.`. -/
def worstWaterCut (water_cut_perf : List ℚ) (perf_number : Nat) : Int × ℚ :=
  forRange perf_number (fun perf (acc : Int × ℚ) =>
    if rd water_cut_perf perf > acc.2 then ((perf : Int), rd water_cut_perf perf) else acc)
    (INVALIDCONNECTION, 0)

/-- The header's `checkMaxWaterCutLimit` (lines 1560-1632), with the value it returns when the
assertions of lines 1625-1626 are compiled out. -/
def checkMaxWaterCutLimit (swd : StandardWellsDense)
    (econ_production_limits : WellEconProductionLimits) (well_state : WellState)
    (map_entry : WellMapEntryType) : RatioCheckTuple :=
  let np := swd.np
  let well_number := map_entry.well_number
  let oil_rate := rd well_state.wellRates (well_number * np + swd.phasePos Oil)
  let water_rate := rd well_state.wellRates (well_number * np + swd.phasePos Water)
  let water_cut := waterCut oil_rate water_rate
  let max_water_cut_limit := econ_production_limits.maxWaterCut
  if water_cut > max_water_cut_limit then
    let perf_number := map_entry.perf_number
    let water_cut_perf := waterCutPerf swd well_state map_entry
    if perf_number = 1 then
      (true, true, 0, rd water_cut_perf 0 / max_water_cut_limit)
    else
      let found := worstWaterCut water_cut_perf perf_number
      (true, false, found.1, found.2 / max_water_cut_limit)
  else (false, false, INVALIDCONNECTION, -1)

/-- The assertions of lines 1625-1626 on the result of the search. -/
def worstWaterCutAsserts (water_cut_perf : List ℚ) (perf_number : Nat) : Bool :=
  decide ((worstWaterCut water_cut_perf perf_number).2 ≠ 0
    ∧ 0 ≤ (worstWaterCut water_cut_perf perf_number).1
    ∧ (worstWaterCut water_cut_perf perf_number).1 < (perf_number : Int))

/-- The header's `checkRatioEconLimits` (lines 1508-1558): only the water-cut limit is
implemented, the other ratio limits log a warning. The assertions of lines 1552-1553 are not
part of the value. -/
def checkRatioEconLimits (swd : StandardWellsDense)
    (econ_production_limits : WellEconProductionLimits) (well_state : WellState)
    (map_entry : WellMapEntryType) : RatioCheckTuple :=
  if econ_production_limits.onMaxWaterCut then
    let water_cut_return := checkMaxWaterCutLimit swd econ_production_limits well_state map_entry
    if water_cut_return.1 then
      if water_cut_return.2.2.2 > -1 then
        (true, water_cut_return.2.1, water_cut_return.2.2.1, water_cut_return.2.2.2)
      else (true, false, INVALIDCONNECTION, -1)
    else (false, false, INVALIDCONNECTION, -1)
  else (false, false, INVALIDCONNECTION, -1)

/-- The loop body of `updateListEconLimited` (lines 900-988) for well `w`. The result is `none`
when the assertion of line 926 fails (the well name is not in the well map) or the one of
line 974 fails (the connection index is not one of the well: the read of `well_cells` on
line 976 is then out of the well's range). -/
def updateListEconLimitedWell (swd : StandardWellsDense) (schedule : Schedule)
    (current_step : Nat) (wells_struct : Wells) (well_map : WellMapType)
    (well_state : WellState) (w : Nat) (list_econ_limited : DynamicListEconLimited) :
    Option DynamicListEconLimited :=
  let well_name := wells_struct.name.getD w ""
  let well_ecl := schedule.getWell well_name
  let econ_production_limits := well_ecl.getEconProductionLimits current_step
  if wells_struct.type.getD w WellType.PRODUCER ≠ WellType.PRODUCER then some list_econ_limited
  else if econ_production_limits.onAnyEffectiveLimit = false then some list_econ_limited
  else
    match well_map.find well_name with
    | none => none
    | some map_entry =>
      let well_number := map_entry.well_number
      let rate_limit_violated :=
        if econ_production_limits.onAnyRateLimit then
          checkRateEconLimits swd econ_production_limits well_state well_number
        else false
      if rate_limit_violated then
        if well_ecl.getAutomaticShutIn then some (list_econ_limited.addShutWell well_name)
        else some (list_econ_limited.addStoppedWell well_name)
      else
        let ratio_check_return : RatioCheckTuple :=
          if econ_production_limits.onAnyRatioLimit then
            checkRatioEconLimits swd econ_production_limits well_state map_entry
          else (false, false, 0, 0)
        let ratio_limits_violated := ratio_check_return.1
        if ratio_limits_violated then
          let last_connection := ratio_check_return.2.1
          let worst_offending_connection := ratio_check_return.2.2.1
          let perf_start := map_entry.perf_start
          if 0 ≤ worst_offending_connection
              ∧ worst_offending_connection < (map_entry.perf_number : Int) then
            let cell_worst_offending_connection :=
              wells_struct.well_cells.getD (perf_start + worst_offending_connection.toNat) 0
            let closed :=
              list_econ_limited.addClosedConnectionsForWell well_name cell_worst_offending_connection
            if last_connection then some (closed.addShutWell well_name) else some closed
          else none
        else some list_econ_limited

/-- The header's `updateListEconLimited` (lines 889-990): `wells_struct` is `none` for the null
pointer of a process without wells. -/
def updateListEconLimited (swd : StandardWellsDense) (schedule : Schedule) (current_step : Nat)
    (wells_struct : Option Wells) (well_map : WellMapType) (well_state : WellState)
    (list_econ_limited : DynamicListEconLimited) : Option DynamicListEconLimited :=
  match wells_struct with
  | none => some list_econ_limited
  | some wells =>
    (List.range wells.number_of_wells).foldlM
      (fun l w =>
        updateListEconLimitedWell swd schedule current_step wells well_map well_state w l)
      list_econ_limited

/-! ## Deferred exceptions across ranks (`DeferredLoggingErrorHelpers.hpp`, lines 52-58, and
`DeferredLoggingErrorMacros.hpp`, lines 48-54) -/

/-- The collective `cc.max(value)` of the Dune communication as rank `rank` receives it: the
maximum of its own value and the values of all ranks; `values` holds the value that each rank
passes in. -/
def ccMax (values : List Int) (rank : Nat) : Int :=
  values.foldl max (values.getD rank 0)

/-- The function `check_for_exceptions_and_throw(exception_thrown, message)` on rank `rank`,
where `exception_thrown` holds the flag of each rank; `Except.error message` stands for the
`std::logic_error(message)` thrown. -/
def check_for_exceptions_and_throw (exception_thrown : List Int) (rank : Nat)
    (message : String) : Except String Unit :=
  if ccMax exception_thrown rank = 1 then Except.error message else Except.ok ()

/-- The expansion of `OPM_CHECK_FOR_EXCEPTIONS_AND_THROW(exception_thrown, message)` on rank
`rank`. -/
def OPM_CHECK_FOR_EXCEPTIONS_AND_THROW (exception_thrown : List Int) (rank : Nat)
    (message : String) : Except String Unit :=
  if ccMax exception_thrown rank = 1 then Except.error message else Except.ok ()

/-! ## Rounding to `double` -/

/-- The power `2 ^ e` for an integer exponent. -/
def pow2 (e : Int) : ℚ :=
  if 0 ≤ e then ((2 ^ e.toNat : Nat) : ℚ) else 1 / ((2 ^ (-e).toNat : Nat) : ℚ)

/-- The number of halvings that take `n` below 2, at most `fuel` of them. -/
def halvings : Nat → Nat → Nat
  | 0, _ => 0
  | fuel + 1, n => if n < 2 then 0 else halvings fuel (n / 2) + 1

/-- The binary logarithm of a positive natural number, rounded down: `n` halvings always
suffice. -/
def log2Floor (n : Nat) : Nat := halvings n n

/-- The exponent `e` with `2 ^ e <= |q| < 2 ^ (e + 1)` of a non-zero rational `q`: the
difference of the binary logarithms of numerator and denominator, or one less. -/
def binade (q : ℚ) : Int :=
  let e0 : Int := (log2Floor q.num.natAbs : Int) - (log2Floor q.den : Int)
  if |q| < pow2 e0 then e0 - 1 else e0

/-- The integer nearest to a non-negative rational `m`, the even one of the two when `m` lies
half way. -/
def roundHalfEven (m : ℚ) : Int :=
  let f : Int := m.floor
  let r : ℚ := m - f
  if r < 1 / 2 then f
  else if r > 1 / 2 then f + 1
  else if f % 2 = 0 then f else f + 1

/-- The `double` (IEEE 754 binary64) nearest to `q`, ties to even: `q` is rounded to a multiple
of `2 ^ (e - 52)` where `e` is its binary exponent, at least -1022.  This is the result that
an operation on doubles stores when its exact result is `q`.  Overflow to an infinity, which
needs a magnitude of `2 ^ 1024`, is outside the model. -/
def roundDouble (q : ℚ) : ℚ :=
  if q = 0 then 0
  else
    let e : Int := max (binade q) (-1022)
    let ulp : ℚ := pow2 (e - 52)
    let k : Int := roundHalfEven (|q| / ulp)
    if 0 < q then (k : ℚ) * ulp else -((k : ℚ) * ulp)

/-! ## `updateWellState` and `updateWellStateWithTarget` with rounded operations

The same statements as in the definitions above, with the rounding `fl` applied to the result
of every addition, subtraction, multiplication and division of doubles.  With `fl` the identity
these are the definitions above; with `fl = roundDouble` every operation stores the double
nearest to its exact result, as the operations of the source do.  Comparisons, `std::abs`,
`std::min` and `std::max` are exact. -/

/-- The value `bhpFromThp` with the subtraction of `dp` rounded. -/
def bhpFromThpRounded (fl : ℚ → ℚ) (E : External) (swd : StandardWellsDense)
    (wc : WellControls) (current : Int) (well_index : Nat) (rates : List ℚ) : ℚ :=
  let np := swd.np
  let aqua := if swd.active Water then rd rates (well_index * np + swd.phasePos Water) else 0
  let liquid := if swd.active Oil then rd rates (well_index * np + swd.phasePos Oil) else 0
  let vapour := if swd.active Gas then rd rates (well_index * np + swd.phasePos Gas) else 0
  let vfp := well_controls_iget_vfp wc current
  let thp := well_controls_iget_target wc current
  let alq := well_controls_iget_alq wc current
  let perf := swd.wells_.well_connpos.getD well_index 0
  let rho := rd swd.well_perforation_densities_ perf
  match swd.wellType well_index with
  | WellType.INJECTOR =>
    let dp := E.computeHydrostaticCorrection swd.wells_ well_index (E.vfpInjDatumDepth vfp) rho
      swd.gravity_
    fl (E.vfpInjBhp vfp aqua liquid vapour thp - dp)
  | WellType.PRODUCER =>
    let dp := E.computeHydrostaticCorrection swd.wells_ well_index (E.vfpProdDatumDepth vfp) rho
      swd.gravity_
    fl (E.vfpProdBhp vfp aqua liquid vapour thp alq - dp)

/-- The first `switch` of `updateWellStateWithTarget` (lines 1660-1741) with rounded
products. -/
def seedFromTargetRounded (fl : ℚ → ℚ) (E : External) (swd : StandardWellsDense)
    (wc : WellControls) (current : Int) (well_index : Nat) (xw : WellState) : WellState :=
  let np := swd.np
  let target := well_controls_iget_target wc current
  let distr := well_controls_iget_distr wc current
  match well_controls_iget_type wc current with
  | WellControlType.BHP => { xw with bhp := xw.bhp.set well_index target }
  | WellControlType.THP =>
    { xw with bhp :=
        xw.bhp.set well_index (bhpFromThpRounded fl E swd wc current well_index xw.wellRates) }
  | WellControlType.RESERVOIR_RATE => xw
  | WellControlType.SURFACE_RATE =>
    match swd.wellType well_index with
    | WellType.INJECTOR =>
      forRange np (fun phase (st : WellState) =>
        let compi := rd swd.wells_.comp_frac (np * well_index + phase)
        { st with wellRates := st.wellRates.set (np * well_index + phase) (fl (target * compi)) })
        xw
    | WellType.PRODUCER =>
      let numPhasesWithTargetsUnderThisControl :=
        forRange np (fun phase (n : Nat) => if rd distr phase > 0 then n + 1 else n) 0
      forRange np (fun phase (st : WellState) =>
        if rd distr phase > 0 ∧ numPhasesWithTargetsUnderThisControl < 2 then
          { st with wellRates :=
              st.wellRates.set (np * well_index + phase) (fl (target * rd distr phase)) }
        else st) xw

/-- The scaling vector `g` of lines 1745-1750, whose literal `0.01` is the double nearest to
1/100. -/
def targetScalingRounded (fl : ℚ → ℚ) (swd : StandardWellsDense) (wc : WellControls)
    (current : Int) : List ℚ :=
  let distr := well_controls_iget_distr wc current
  let g0 : List ℚ := [1, 1, fl (1 / 100)]
  if well_controls_iget_type wc current = WellControlType.RESERVOIR_RATE then
    forRange swd.np (fun phase (gg : List ℚ) => gg.set phase (rd distr phase)) g0
  else g0

/-- The second `switch` of `updateWellStateWithTarget` (lines 1755-1775) with rounded sums and
products. -/
def seedXvarWellRounded (fl : ℚ → ℚ) (swd : StandardWellsDense) (wc : WellControls)
    (current : Int) (well_index : Nat) (g : List ℚ) (xw1 : WellState) : WellState :=
  let np := swd.np
  let nw := swd.nw
  match well_controls_iget_type wc current with
  | WellControlType.THP | WellControlType.BHP =>
    let z : WellState :=
      { xw1 with wellSolutions := xw1.wellSolutions.set (nw * XvarWell + well_index) 0 }
    match swd.wellType well_index with
    | WellType.INJECTOR =>
      forRange np (fun p (st : WellState) =>
        let acc : ℚ := fl (rd st.wellSolutions (nw * XvarWell + well_index)
          + fl (rd st.wellRates (np * well_index + p)
              * rd swd.wells_.comp_frac (np * well_index + p)))
        { st with wellSolutions := st.wellSolutions.set (nw * XvarWell + well_index) acc }) z
    | WellType.PRODUCER =>
      forRange np (fun p (st : WellState) =>
        let acc : ℚ := fl (rd st.wellSolutions (nw * XvarWell + well_index)
          + fl (rd g p * rd st.wellRates (np * well_index + p)))
        { st with wellSolutions := st.wellSolutions.set (nw * XvarWell + well_index) acc }) z
  | WellControlType.RESERVOIR_RATE | WellControlType.SURFACE_RATE =>
    { xw1 with wellSolutions :=
        xw1.wellSolutions.set (nw * XvarWell + well_index) (rd xw1.bhp well_index) }

/-- The end of `updateWellStateWithTarget` (lines 1777-1796) with rounded sums, products and
quotients. -/
def seedFractionsRounded (fl : ℚ → ℚ) (swd : StandardWellsDense) (well_index : Nat)
    (g : List ℚ) (xw2 : WellState) : WellState :=
  let np := swd.np
  let nw := swd.nw
  let tot_well_rate : ℚ :=
    forRange np (fun p (t : ℚ) => fl (t + fl (rd g p * rd xw2.wellRates (np * well_index + p))))
      0
  let fw : ℚ :=
    if |tot_well_rate| > 0 then
      fl (fl (rd g Water * rd xw2.wellRates (np * well_index + Water)) / tot_well_rate)
    else rd swd.wells_.comp_frac (np * well_index + Water)
  let fg : ℚ :=
    if |tot_well_rate| > 0 then
      fl (fl (rd g Gas * rd xw2.wellRates (np * well_index + Gas)) / tot_well_rate)
    else rd swd.wells_.comp_frac (np * well_index + Gas)
  let xw3 : WellState :=
    if swd.active Water then
      { xw2 with wellSolutions := xw2.wellSolutions.set (WFrac * nw + well_index) fw }
    else xw2
  if swd.active Gas then
    { xw3 with wellSolutions := xw3.wellSolutions.set (GFrac * nw + well_index) fg }
  else xw3

/-- Model of `updateWellStateWithTarget(wc, current, well_index, xw)` with rounded
operations. -/
def updateWellStateWithTargetRounded (fl : ℚ → ℚ) (E : External) (swd : StandardWellsDense)
    (wc : WellControls) (current : Int) (well_index : Nat) (xw : WellState) : WellState :=
  let xw1 := seedFromTargetRounded fl E swd wc current well_index xw
  let g := targetScalingRounded fl swd wc current
  let xw2 := seedXvarWellRounded fl swd wc current well_index g xw1
  seedFractionsRounded fl swd well_index g xw2

/-- The limited increment `sign * std::min(std::abs(dx), limit)` with the product rounded. -/
def limitedStepRounded (fl : ℚ → ℚ) (dx limit : ℚ) : ℚ :=
  fl ((if dx > 0 then 1 else -1) * min |dx| limit)

/-- The fractions `F` of lines 612-650 with rounded differences and quotients. -/
def normalizedFractionsRounded (fl : ℚ → ℚ) (swd : StandardWellsDense) (fw fg : ℚ) : List ℚ :=
  let F0 : List ℚ := List.replicate swd.np 0
  let F1 := F0.set Oil 1
  let F2 :=
    if swd.active Water then
      let a := F1.set Water fw
      a.set Oil (fl (rd a Oil - rd a Water))
    else F1
  let F3 :=
    if swd.active Gas then
      let a := F2.set Gas fg
      a.set Oil (fl (rd a Oil - rd a Gas))
    else F2
  let F4 :=
    if swd.active Water then
      if rd F3 Water < 0 then
        let a :=
          if swd.active Gas then F3.set Gas (fl (rd F3 Gas / fl (1 - rd F3 Water))) else F3
        let b := a.set Oil (fl (rd a Oil / fl (1 - rd a Water)))
        b.set Water 0
      else F3
    else F3
  let F5 :=
    if swd.active Gas then
      if rd F4 Gas < 0 then
        let a :=
          if swd.active Water then F4.set Water (fl (rd F4 Water / fl (1 - rd F4 Gas))) else F4
        let b := a.set Oil (fl (rd a Oil / fl (1 - rd a Gas)))
        b.set Gas 0
      else F4
    else F4
  if rd F5 Oil < 0 then
    let a :=
      if swd.active Water then F5.set Water (fl (rd F5 Water / fl (1 - rd F5 Oil))) else F5
    let b := if swd.active Gas then a.set Gas (fl (rd a Gas / fl (1 - rd a Oil))) else a
    b.set Oil 0
  else F5

/-- The scaling of `F` of lines 668-678 with rounded quotients; the literal `0.01` is the
double nearest to 1/100. -/
def scaledFractionsRounded (fl : ℚ → ℚ) (swd : StandardWellsDense) (wc : WellControls)
    (current : Int) (F : List ℚ) : List ℚ :=
  let g : List ℚ := [1, 1, fl (1 / 100)]
  if well_controls_iget_type wc current = WellControlType.RESERVOIR_RATE then
    let distr := well_controls_iget_distr wc current
    forRange swd.np (fun p (f : List ℚ) => f.set p (fl (rd f p / rd distr p))) F
  else
    forRange swd.np (fun p (f : List ℚ) => f.set p (fl (rd f p / rd g p))) F

/-- The body of the loop over wells of `updateWellState` (lines 596-784) for well `w`, with
rounded operations. -/
def updateWellStateWellRounded (fl : ℚ → ℚ) (E : External) (swd : StandardWellsDense)
    (dwells : List ℚ) (xvar_well_old : List ℚ) (w : Nat) (well_state : WellState) : WellState :=
  let np := swd.np
  let nw := swd.nw
  let dFLimit := swd.param_.dwell_fraction_max_
  let dBHPLimit := swd.param_.dbhp_max_rel_
  let ws1 : WellState :=
    if swd.active Water then
      let dx2_limited :=
        limitedStepRounded fl (blockEntry dwells w (E.flowPhaseToEbosCompIdx WFrac)) dFLimit
      let x2 : ℚ := fl (rd xvar_well_old (WFrac * nw + w) - dx2_limited)
      { well_state with wellSolutions := well_state.wellSolutions.set (WFrac * nw + w) x2 }
    else well_state
  let ws2 : WellState :=
    if swd.active Gas then
      let dx3_limited :=
        limitedStepRounded fl (blockEntry dwells w (E.flowPhaseToEbosCompIdx GFrac)) dFLimit
      let x3 : ℚ := fl (rd xvar_well_old (GFrac * nw + w) - dx3_limited)
      { ws1 with wellSolutions := ws1.wellSolutions.set (GFrac * nw + w) x3 }
    else ws1
  let Fn := normalizedFractionsRounded fl swd (rd ws2.wellSolutions (WFrac * nw + w))
    (rd ws2.wellSolutions (GFrac * nw + w))
  let ws3 : WellState :=
    if swd.active Water then
      { ws2 with wellSolutions := ws2.wellSolutions.set (WFrac * nw + w) (rd Fn Water) }
    else ws2
  let ws4 : WellState :=
    if swd.active Gas then
      { ws3 with wellSolutions := ws3.wellSolutions.set (GFrac * nw + w) (rd Fn Gas) }
    else ws3
  let wc := swd.wellCtrls w
  let current : Int := ws4.currentControls.getD w 0
  let target_rate := well_controls_iget_target wc current
  let F := scaledFractionsRounded fl swd wc current Fn
  match well_controls_iget_type wc current with
  | WellControlType.THP | WellControlType.BHP =>
    let x := fl (rd xvar_well_old (nw * XvarWell + w)
      - blockEntry dwells w (E.flowPhaseToEbosCompIdx XvarWell))
    let ws5 : WellState :=
      { ws4 with wellSolutions := ws4.wellSolutions.set (nw * XvarWell + w) x }
    let ws6 : WellState :=
      match swd.wellType w with
      | WellType.INJECTOR =>
        forRange np (fun p (st : WellState) =>
          let comp_frac := rd swd.wells_.comp_frac (np * w + p)
          let rate : ℚ := fl (comp_frac * rd st.wellSolutions (nw * XvarWell + w))
          { st with wellRates := st.wellRates.set (w * np + p) rate })
          ws5
      | WellType.PRODUCER =>
        forRange np (fun p (st : WellState) =>
          let rate : ℚ := fl (rd st.wellSolutions (nw * XvarWell + w) * rd F p)
          { st with wellRates := st.wellRates.set (w * np + p) rate })
          ws5
    if well_controls_iget_type wc current = WellControlType.THP then
      { ws6 with bhp := ws6.bhp.set w (bhpFromThpRounded fl E swd wc current w ws6.wellRates) }
    else ws6
  | WellControlType.SURFACE_RATE | WellControlType.RESERVOIR_RATE =>
    let dx1_limited :=
      limitedStepRounded fl (blockEntry dwells w (E.flowPhaseToEbosCompIdx XvarWell))
        (fl (|rd xvar_well_old (nw * XvarWell + w)| * dBHPLimit))
    let x := max (fl (rd xvar_well_old (nw * XvarWell + w) - dx1_limited)) 100000
    let ws5 : WellState :=
      { ws4 with wellSolutions := ws4.wellSolutions.set (nw * XvarWell + w) x }
    let ws6 : WellState :=
      { ws5 with bhp := ws5.bhp.set w (rd ws5.wellSolutions (nw * XvarWell + w)) }
    if well_controls_iget_type wc current = WellControlType.SURFACE_RATE then
      if swd.wellType w = WellType.PRODUCER then
        let distr := well_controls_iget_distr wc current
        let F_target := forRange np (fun p (t : ℚ) => fl (t + fl (rd distr p * rd F p))) 0
        forRange np (fun p (st : WellState) =>
          let rate : ℚ := fl (fl (rd F p * target_rate) / F_target)
          { st with wellRates := st.wellRates.set (np * w + p) rate })
          ws6
      else
        forRange np (fun p (st : WellState) =>
          let rate : ℚ := fl (rd swd.wells_.comp_frac (np * w + p) * target_rate)
          { st with wellRates := st.wellRates.set (w * np + p) rate })
          ws6
    else
      forRange np (fun p (st : WellState) =>
        { st with wellRates := st.wellRates.set (np * w + p) (fl (rd F p * target_rate)) }) ws6

/-- Model of `updateWellState(dwells, well_state)` with rounded operations. -/
def updateWellStateRounded (fl : ℚ → ℚ) (E : External) (swd : StandardWellsDense)
    (dwells : List ℚ) (well_state : WellState) : WellState :=
  if swd.localWellsActive then
    let xvar_well_old := well_state.wellSolutions
    forRange swd.nw (updateWellStateWellRounded fl E swd dwells xvar_well_old) well_state
  else well_state

/-! ## Sample data: stand-ins for the external functions and concrete wells, cells and states -/

/-- The rate that a rate constraint is compared with: the phase rates of the well weighted by
the control's distribution. -/
def rateToCompare (rates : List ℚ) (well np : Nat) (distr : List ℚ) : ℚ :=
  forRange np (fun phase (t : ℚ) => t + rd rates (well * np + phase) * rd distr phase) 0

/-- Modelled from the spec: `wellhelpers::constraintBroken` (its header is not among the
sources).  The spec describes a violation as "rate/pressure exceeding the constraint's target in
the direction that control type implies": an injector breaks an upper bound on pressure or rate,
a producer, whose rates are negative in this code (line 531), breaks a lower bound. -/
def constraintBroken (bhp thp rates : List ℚ) (well np : Nat) (well_type : WellType)
    (wc : WellControls) (ctrl_index : Nat) : Bool :=
  let target := well_controls_iget_target wc ctrl_index
  let distr := well_controls_iget_distr wc ctrl_index
  match well_type, well_controls_iget_type wc ctrl_index with
  | WellType.INJECTOR, WellControlType.BHP => decide (rd bhp well > target)
  | WellType.INJECTOR, WellControlType.THP => decide (rd thp well > target)
  | WellType.INJECTOR, _ => decide (rateToCompare rates well np distr > target)
  | WellType.PRODUCER, WellControlType.BHP => decide (rd bhp well < target)
  | WellType.PRODUCER, WellControlType.THP => decide (rd thp well < target)
  | WellType.PRODUCER, _ => decide (rateToCompare rates well np distr < target)

/-- External functions for concrete evaluations: the modelled `constraintBroken`, VFP tables
that return the tubing-head pressure itself, no hydrostatic correction, unit conversion
coefficients and a group tree that is left alone. -/
def sampleExternal : External :=
  { constraintBroken := constraintBroken
    vfpInjBhp := fun _ _ _ _ thp => thp
    vfpProdBhp := fun _ _ _ _ thp _ => thp
    vfpInjDatumDepth := fun _ => 0
    vfpProdDatumDepth := fun _ => 0
    computeHydrostaticCorrection := fun _ _ _ _ _ => 0
    calcCoeff := fun _ _ coeff => coeff
    applyVREPGroupControls := fun coll _ _ => coll
    updateWellTargets := fun coll wells _ => (coll, wells)
    groupTargetConverged := fun _ _ => true
    flowPhaseToEbosCompIdx := fun phaseIdx => phaseIdx
    waterPhaseIdx := 0
    oilPhaseIdx := 1
    gasPhaseIdx := 2
    saturatedGasDissolutionFactor := fun _ _ _ => 100
    saturatedOilVaporizationFactor := fun _ _ _ => 1 / 10000
    allow_cross_flow := fun _ _ => false
    assembleWellEq := fun swd _ well_state _ => (swd, well_state)
    setWellVariables := fun swd xw => { swd with wellVariables_ := xw.wellSolutions }
    convergenceReduction := fun swd =>
      (List.replicate swd.wells_.number_of_phases (Dbl.fin 1),
       List.replicate swd.wells_.number_of_phases (Dbl.fin 1)) }

/-- A producer with three declared constraints: BHP 50 (index 0), oil rate -100 (index 1) and
water rate -50 (index 2); production rates are negative. -/
def sampleProducerControls (current : Int) : WellControls :=
  { ctrls :=
      [ { type := WellControlType.BHP, target := 50, distr := [0, 0, 0], vfp := 0, alq := 0 },
        { type := WellControlType.SURFACE_RATE, target := -100, distr := [0, 1, 0], vfp := 0,
          alq := 0 },
        { type := WellControlType.SURFACE_RATE, target := -50, distr := [1, 0, 0], vfp := 0,
          alq := 0 } ]
    current := current }

/-- A model with the single three-phase producer `P1` under BHP control, no group control. -/
def sampleProducerModel : StandardWellsDense :=
  { wells_ :=
      { number_of_wells := 1, number_of_phases := 3, type := [WellType.PRODUCER],
        ctrls := [sampleProducerControls 0], comp_frac := [0, 1, 0], well_connpos := [0, 1],
        well_cells := [0], WI := [1], name := ["P1"] }
    well_collection_ := { groupControlActive := false, havingVREPGroups := false, leafNodes := [] }
    param_ := { tolerance_wells_ := 1 / 10000, max_residual_allowed_ := 10000000,
                dbhp_max_rel_ := 1, dwell_fraction_max_ := 1 / 5 }
    phase_usage_ := { num_phases := 3, phase_used := [true, true, true], phase_pos := [0, 1, 2] }
    active_ := [true, true, true]
    gravity_ := 0
    well_perforation_densities_ := [0]
    well_perforation_pressure_diffs_ := [0]
    wellVariables_ := [0, 0, 0]
    invDuneD_ := []
    duneC_ := []
    resWell_ := [] }

/-- A state of `P1` under BHP control (index 0, bhp at its target 50) whose oil rate -150 and
water rate -200 both exceed their limits (-100 and -50), the water rate by the larger margin. -/
def sampleProducerState : WellState :=
  { bhp := [50], thp := [0], wellRates := [-200, -150, 0], wellSolutions := [-350, 4 / 7, 0],
    currentControls := [0], perfPhaseRates := [-200, -150, 0], perfPress := [50],
    wellPotentials := [0, 0, 0] }

/-- A state of `P1` under BHP control whose oil rate -150 exceeds its limit -100 while the
water rate -20 respects its limit -50. -/
def sampleProducerStateOil : WellState :=
  { bhp := [50], thp := [0], wellRates := [-20, -150, 0], wellSolutions := [-170, 2 / 17, 0],
    currentControls := [0], perfPhaseRates := [-20, -150, 0], perfPress := [50],
    wellPotentials := [0, 0, 0] }

/-- A process without wells: no entries at all, and a well tolerance of zero. -/
def emptyModel : StandardWellsDense :=
  { wells_ :=
      { number_of_wells := 0, number_of_phases := 3, type := [], ctrls := [], comp_frac := [],
        well_connpos := [0], well_cells := [], WI := [], name := [] }
    well_collection_ := { groupControlActive := false, havingVREPGroups := false, leafNodes := [] }
    param_ := { tolerance_wells_ := 0, max_residual_allowed_ := 10000000,
                dbhp_max_rel_ := 1, dwell_fraction_max_ := 1 / 5 }
    phase_usage_ := { num_phases := 3, phase_used := [true, true, true], phase_pos := [0, 1, 2] }
    active_ := [true, true, true]
    gravity_ := 0
    well_perforation_densities_ := []
    well_perforation_pressure_diffs_ := []
    wellVariables_ := []
    invDuneD_ := []
    duneC_ := []
    resWell_ := [] }

/-- The well state of a process without wells. -/
def emptyState : WellState :=
  { bhp := [], thp := [], wellRates := [], wellSolutions := [], currentControls := [],
    perfPhaseRates := [], perfPress := [], wellPotentials := [] }

/-- External functions for a process without wells: as `sampleExternal`, with a reduction that
returns the largest well residual 0 of an empty set of wells. -/
def idleExternal : External :=
  { sampleExternal with
    convergenceReduction := fun swd =>
      (List.replicate swd.wells_.number_of_phases (Dbl.fin 1),
       List.replicate swd.wells_.number_of_phases (Dbl.fin 0)) }

/-- A model with one well whose blocks are 1 x 1: stored inverse 1/2 (of `D = 2`), coupling
`C = 3` and well residual 5. -/
def sampleBlockModel : StandardWellsDense :=
  { sampleProducerModel with invDuneD_ := [[1 / 2]], duneC_ := [[3]], resWell_ := [5] }

/-- A perforated cell at pressure 250 with mobilities 1, 2, 3 and inverse formation volume
factors 1, 1/2, 100 for water, oil, gas, `Rs = 10` and `Rv = 1/1000`. -/
def sampleCell : IntensiveQuantities :=
  { pressure := fun _ => 250
    temperature := fun _ => 300
    Rs := 10
    Rv := 1 / 1000
    invB := fun i => [1, 1 / 2, 100].getD i 0
    mobility := fun i => [1, 2, 3].getD i 0
    pvtRegionIndex := 0 }

/-- A model with the single three-phase water injector `I1`: injection composition and wellbore
fractions are all water. -/
def sampleInjectorModel : StandardWellsDense :=
  { sampleProducerModel with
    wells_ :=
      { number_of_wells := 1, number_of_phases := 3, type := [WellType.INJECTOR],
        ctrls := [{ ctrls := [{ type := WellControlType.BHP, target := 20000000,
                                distr := [0, 0, 0], vfp := 0, alq := 0 }], current := 0 }],
        comp_frac := [1, 0, 0], well_connpos := [0, 1], well_cells := [0], WI := [1],
        name := ["I1"] }
    wellVariables_ := [0, 1, 0] }

/-- A model with one active phase, water, and the single water injector `I1` whose wellbore
fraction is 1. -/
def sampleWaterInjector : StandardWellsDense :=
  { sampleInjectorModel with
    wells_ :=
      { number_of_wells := 1, number_of_phases := 1, type := [WellType.INJECTOR],
        ctrls := [{ ctrls := [{ type := WellControlType.BHP, target := 20000000,
                                distr := [0], vfp := 0, alq := 0 }], current := 0 }],
        comp_frac := [1], well_connpos := [0, 1], well_cells := [0], WI := [1],
        name := ["I1"] }
    phase_usage_ := { num_phases := 1, phase_used := [true, false, false], phase_pos := [0, 0, 0] }
    active_ := [true, false, false]
    wellVariables_ := [0, 1] }

/-- A cell at pressure 200e5 Pa with water mobility 1 and inverse formation volume factor 1. -/
def sampleCell200 : IntensiveQuantities :=
  { sampleCell with pressure := fun _ => 20000000 }

/-- Two wells for the economic limits: the producer `P1` with three connections in the cells
5, 7 and 9, and the injector `I1` with one connection in cell 11. -/
def sampleEconWells : Wells :=
  { number_of_wells := 2, number_of_phases := 3,
    type := [WellType.PRODUCER, WellType.INJECTOR],
    ctrls := [sampleProducerControls 0, sampleProducerControls 0],
    comp_frac := [0, 1, 0, 1, 0, 0], well_connpos := [0, 3, 4],
    well_cells := [5, 7, 9, 11], WI := [1, 1, 1, 1], name := ["P1", "I1"] }

/-- The three-phase model of `sampleProducerModel` over the wells `sampleEconWells`. -/
def sampleEconModel : StandardWellsDense :=
  { sampleProducerModel with wells_ := sampleEconWells }

/-- The well map of `sampleEconWells`. -/
def sampleWellMap : WellMapType :=
  { find := fun well_name =>
      if well_name = "P1" then some { well_number := 0, perf_start := 0, perf_number := 3 }
      else if well_name = "I1" then some { well_number := 1, perf_start := 3, perf_number := 1 }
      else none }

/-- Economic limits with a minimum oil rate and a maximum water cut of 0.8, both on. -/
def sampleEconLimits (min_oil_rate : ℚ) : WellEconProductionLimits :=
  { onAnyEffectiveLimit := true, onAnyRateLimit := true, onAnyRatioLimit := true,
    onMinOilRate := true, minOilRate := min_oil_rate,
    onMinGasRate := false, minGasRate := 0,
    onMinLiquidRate := false, minLiquidRate := 0,
    onMaxWaterCut := true, maxWaterCut := 4 / 5 }

/-- A schedule in which every well has the limits `sampleEconLimits min_oil_rate` at every step
and the automatic shut-in flag `shut_in`. -/
def sampleSchedule (min_oil_rate : ℚ) (shut_in : Bool) : Schedule :=
  { getWell := fun _ =>
      { getEconProductionLimits := fun _ => sampleEconLimits min_oil_rate
        getAutomaticShutIn := shut_in } }

/-- A well state of `sampleEconWells` with the given well rates and connection rates. -/
def sampleEconState (well_rates perf_rates : List ℚ) : WellState :=
  { bhp := [50, 300], thp := [0, 0], wellRates := well_rates,
    wellSolutions := [0, 0, 0, 0, 0, 0], currentControls := [0, 0],
    perfPhaseRates := perf_rates, perfPress := [50, 50, 50, 300],
    wellPotentials := [] }

/-- The producer `P1` produces 127 of water and 3 of oil through connections with the water
cuts 0.9, 0.95 and 0.99; the injector `I1` injects 100 of water. -/
def sampleWateredOutState : WellState :=
  sampleEconState [-127, -3, 0, 100, 0, 0] [-9, -1, 0, -19, -1, 0, -99, -1, 0, 100, 0, 0]

/-- The producer `P1` produces 9 of water and 1 of oil (water cut 0.9) through two connections
with cross flow: the first takes in 11 of oil and gives 10 of water, the second takes in 1 of
water and gives 12 of oil; the third connection does not flow. The connection rates sum to the
well rates. -/
def sampleCrossFlowState : WellState :=
  sampleEconState [-9, -1, 0, 100, 0, 0] [-10, 11, 0, 1, -12, 0, 0, 0, 0, 100, 0, 0]

/-- The producer `P1` produces 9 of water and 1 of oil (water cut 0.9) through three
connections with cross flow: the first takes in 11 of oil and gives 10 of water, the second
and the third each take in 1/2 of water and give 6 of oil, so that they share the water cut
-1/11, the largest of the three. The connection rates sum to the well rates. -/
def sampleCrossFlowTieState : WellState :=
  sampleEconState [-9, -1, 0, 100, 0, 0] [-10, 11, 0, 1 / 2, -6, 0, 1 / 2, -6, 0, 100, 0, 0]

/-- The producer `P1` produces 207 of water and 3 of oil through three connections of which
the second and the third share the largest water cut 0.99. -/
def sampleTieState : WellState :=
  sampleEconState [-207, -3, 0, 100, 0, 0] [-9, -1, 0, -99, -1, 0, -99, -1, 0, 100, 0, 0]

/-- The empty economic-limit list. -/
def emptyEconList : DynamicListEconLimited :=
  { shut_wells := [], stopped_wells := [], cells_closed_connections := [] }

/-- The wells of `sampleEconWells` in a group tree with a voidage-replacement group: the
producer `P1` (group control index 1) and the injector `I1`, not under individual control,
with the group control index 2. -/
def sampleVREPModel : StandardWellsDense :=
  { sampleEconModel with
    well_collection_ :=
      { groupControlActive := true, havingVREPGroups := true,
        leafNodes :=
          [ { name := "P1", selfIndex := 0, isInjector := false, individualControl := false,
              groupControlIndex := 1 },
            { name := "I1", selfIndex := 1, isInjector := true, individualControl := false,
              groupControlIndex := 2 } ] } }

/-- The producer `P1` of `sampleProducerModel` with group control active: its leaf node is
under group control with the group control index 0, the index of its BHP control. -/
def sampleGroupProducerModel : StandardWellsDense :=
  { sampleProducerModel with
    well_collection_ :=
      { groupControlActive := true, havingVREPGroups := false,
        leafNodes :=
          [ { name := "P1", selfIndex := 0, isInjector := false, individualControl := false,
              groupControlIndex := 0 } ] } }

/-- Controls of a producer: BHP 50 (index 0) and a liquid rate of -100 (index 1), a surface
rate control with two phases, water and oil, under the limit. -/
def sampleLiquidRateControls (current : Int) : WellControls :=
  { ctrls :=
      [ { type := WellControlType.BHP, target := 50, distr := [0, 0, 0], vfp := 0, alq := 0 },
        { type := WellControlType.SURFACE_RATE, target := -100, distr := [1, 1, 0], vfp := 0,
          alq := 0 } ]
    current := current }

/-- Controls of an injector: BHP 400 (index 0) and a water rate of 100 (index 1). -/
def sampleWaterRateControls (current : Int) : WellControls :=
  { ctrls :=
      [ { type := WellControlType.BHP, target := 400, distr := [0, 0, 0], vfp := 0, alq := 0 },
        { type := WellControlType.SURFACE_RATE, target := 100, distr := [1, 0, 0], vfp := 0,
          alq := 0 } ]
    current := current }

/-- A model with the single three-phase injector `I1` whose declared injection composition is
`comp_frac`. -/
def sampleRateInjectorModel (comp_frac : List ℚ) : StandardWellsDense :=
  { sampleProducerModel with
    wells_ :=
      { number_of_wells := 1, number_of_phases := 3, type := [WellType.INJECTOR],
        ctrls := [sampleWaterRateControls 1], comp_frac := comp_frac, well_connpos := [0, 1],
        well_cells := [0], WI := [1], name := ["I1"] } }

/-- A state of the injector `I1` under its rate control, injecting nothing yet. -/
def sampleInjectorState : WellState :=
  { bhp := [300], thp := [0], wellRates := [0, 0, 0], wellSolutions := [300, 1, 0],
    currentControls := [1], perfPhaseRates := [0, 0, 0], perfPress := [300],
    wellPotentials := [0, 0, 0] }

/-- A control of the given type and target that names VFP table 1. -/
def samplePressureControl (type : WellControlType) (target : ℚ) : Control :=
  { type := type, target := target, distr := [0, 0, 0], vfp := 1, alq := 0 }

/-- The model `sampleProducerModel` with its single well replaced by a well of type `t` that
declares the controls `cs`, the first of them current. -/
def samplePotentialModel (t : WellType) (cs : List Control) : StandardWellsDense :=
  { sampleProducerModel with
    wells_ :=
      { number_of_wells := 1, number_of_phases := 3, type := [t],
        ctrls := [{ ctrls := cs, current := 0 }], comp_frac := [0, 1, 0], well_connpos := [0, 1],
        well_cells := [0], WI := [1], name := ["W1"] } }

/-- The external functions of `sampleExternal` with a well residual that is 1 while the first
well is under its control 0 and 0 once the well has switched to another control. -/
def sampleSwitchExternal : External :=
  { sampleExternal with
    convergenceReduction := fun swd =>
      (List.replicate swd.wells_.number_of_phases (Dbl.fin 1),
       List.replicate swd.wells_.number_of_phases
         (Dbl.fin (if (swd.wellCtrls 0).current = 0 then 1 else 0))) }

/-- A state of `P1` under BHP control (index 0) in which every value is a binary fraction that
stays one under the operations of `updateWellState` and `updateWellStateWithTarget`: total rate
-256 with water fraction 7/64, that is water -28 and oil -228.  The oil rate exceeds its limit
-100, the water rate respects its limit -50. -/
def sampleBinaryState : WellState :=
  { bhp := [50], thp := [0], wellRates := [-28, -228, 0], wellSolutions := [-256, 7 / 64, 0],
    currentControls := [0], perfPhaseRates := [-28, -228, 0], perfPress := [50],
    wellPotentials := [0, 0, 0] }

/-- A state of `P1` under its water rate control (index 2, target -50) with the bhp 2e5 Pa as
first well variable and, as water fraction, the double nearest to 1/3. -/
def sampleThirdWaterState : WellState :=
  { bhp := [200000], thp := [0], wellRates := [-50, -100, 0],
    wellSolutions := [200000, roundDouble (1 / 3), 0], currentControls := [2],
    perfPhaseRates := [-50, -100, 0], perfPress := [200000], wellPotentials := [0, 0, 0] }

/-- Controls of a producer: BHP 50 (index 0) and a reservoir rate of -100 (index 1) with the
distribution 1, 3, 1. -/
def sampleReservoirRateControls (current : Int) : WellControls :=
  { ctrls :=
      [ { type := WellControlType.BHP, target := 50, distr := [0, 0, 0], vfp := 0, alq := 0 },
        { type := WellControlType.RESERVOIR_RATE, target := -100, distr := [1, 3, 1], vfp := 0,
          alq := 0 } ]
    current := current }

/-- The model `sampleProducerModel` with the producer under the reservoir rate control of
`sampleReservoirRateControls`. -/
def sampleReservoirRateModel : StandardWellsDense :=
  { sampleProducerModel with
    wells_ :=
      { number_of_wells := 1, number_of_phases := 3, type := [WellType.PRODUCER],
        ctrls := [sampleReservoirRateControls 1], comp_frac := [0, 1, 0], well_connpos := [0, 1],
        well_cells := [0], WI := [1], name := ["P1"] } }

/-- A state of the producer under its reservoir rate control (index 1) that produces oil only:
water and gas fraction 0. -/
def sampleOilOnlyState : WellState :=
  { bhp := [200000], thp := [0], wellRates := [0, -30, 0], wellSolutions := [200000, 0, 0],
    currentControls := [1], perfPhaseRates := [0, -30, 0], perfPress := [200000],
    wellPotentials := [0, 0, 0] }

/-- A state of `P1` under BHP control (index 0) with the rate -1 for each phase. -/
def sampleUnitRatesState : WellState :=
  { bhp := [50], thp := [0], wellRates := [-1, -1, -1], wellSolutions := [0, 0, 0],
    currentControls := [0], perfPhaseRates := [-1, -1, -1], perfPress := [50],
    wellPotentials := [0, 0, 0] }

/-- A state of the producer `P1` under its oil rate control (index 1, target -100) with the
bhp 2e5 Pa as first well variable and the water fraction 7/32, a binary fraction. -/
def sampleBinaryRateState : WellState :=
  { bhp := [200000], thp := [0], wellRates := [-28, -100, 0],
    wellSolutions := [200000, 7 / 32, 0], currentControls := [1],
    perfPhaseRates := [-28, -100, 0], perfPress := [200000], wellPotentials := [0, 0, 0] }

/-- The cell `sampleCell` with an inverse formation volume factor of 0 for water. -/
def sampleCellZeroInvB : IntensiveQuantities :=
  { sampleCell with invB := fun i => [0, 1 / 2, 100].getD i 0 }

/-! ## Specification helpers -/

/-- The first convergence check of `solveWellEq` succeeds: the flag of lines 321-326 is true
for what the first `assembleWellEq` leaves. -/
def firstCheckSucceeds (E : External) (swd : StandardWellsDense) (dt : ℚ)
    (well_state : WellState) : Prop :=
  ∃ c0, getWellConvergence E (E.assembleWellEq swd dt well_state true).1 = Except.ok c0 ∧
    convergedFlag E (E.assembleWellEq swd dt well_state true).1
      (E.assembleWellEq swd dt well_state true).2 c0 = true

/-- The normalized well residual of phase `idx`: `B_avg[idx] * maxNormWell[idx]`. -/
def normalizedResidual (B_avg maxNormWell : List Dbl) (idx : Nat) : Dbl :=
  Dbl.mul (B_avg.getD idx (Dbl.fin 0)) (maxNormWell.getD idx (Dbl.fin 0))

/-- A double that is its own magnitude: a non-negative finite value or `+inf`. -/
def Dbl.nonneg : Dbl → Bool
  | Dbl.fin q => decide (0 ≤ q)
  | Dbl.pinf => true
  | _ => false

/-- A well model with a single active phase: one phase in the rate vectors, exactly one of
water, oil and gas active, at position 0. -/
def SingleActivePhase (swd : StandardWellsDense) : Prop :=
  swd.np = 1 ∧
  ((swd.active Water = true ∧ swd.active Oil = false ∧ swd.active Gas = false ∧
      swd.phasePos Water = 0) ∨
   (swd.active Water = false ∧ swd.active Oil = true ∧ swd.active Gas = false ∧
      swd.phasePos Oil = 0) ∨
   (swd.active Water = false ∧ swd.active Oil = false ∧ swd.active Gas = true ∧
      swd.phasePos Gas = 0))

/-- The base rate of phase `p` named in the flux claims:
`-Tw * mobility_p * drawdown * invB_p`. -/
def baseRate (E : External) (Tw : ℚ) (intQuants : IntensiveQuantities) (drawdown : ℚ)
    (p : Nat) : ℚ :=
  -Tw * intQuants.mobility (flowPhaseToEbosPhaseIdx E p) * drawdown
    * intQuants.invB (flowPhaseToEbosPhaseIdx E p)

/-- The control index that the scan gives well `w`: the index at which the scan stops, or the
index the well already had when the scan runs through all `nwc` controls. -/
def scannedControl (E : External) (self : StandardWellsDense) (xw : WellState) (w : Nat) : Int :=
  if scanResult E self xw w ≠ well_controls_get_num (self.wellCtrls w) then
    (scanResult E self xw w : Int)
  else xw.currentControls.getD w 0

/-- What the loop over wells has established after `k` wells: pressures, rates, the static
well data and the group flag are untouched, wells `k` and above still have their control slots,
and wells below `k` hold the scanned control. -/
structure ScanInv (E : External) (swd : StandardWellsDense) (xw : WellState) (k : Nat)
    (s : StandardWellsDense × WellState) : Prop where
  bhp : s.2.bhp = xw.bhp
  thp : s.2.thp = xw.thp
  wellRates : s.2.wellRates = xw.wellRates
  wellSolutions : s.2.wellSolutions = xw.wellSolutions
  number_of_wells : s.1.wells_.number_of_wells = swd.wells_.number_of_wells
  number_of_phases : s.1.wells_.number_of_phases = swd.wells_.number_of_phases
  type : s.1.wells_.type = swd.wells_.type
  name : s.1.wells_.name = swd.wells_.name
  groupControlActive :
    s.1.well_collection_.groupControlActive = swd.well_collection_.groupControlActive
  length : s.2.currentControls.length = xw.currentControls.length
  ctrlsAbove : ∀ j, k ≤ j →
    s.1.wells_.ctrls.getD j WellControls.empty = swd.wells_.ctrls.getD j WellControls.empty
  currentAbove : ∀ j, k ≤ j → s.2.currentControls.getD j 0 = xw.currentControls.getD j 0
  currentBelow : ∀ j, j < k → j < xw.currentControls.length →
    s.2.currentControls.getD j 0 = scannedControl E swd xw j
  ctrlsBelow : ∀ j, j < k →
    (s.1.wells_.ctrls.getD j WellControls.empty).ctrls
      = (swd.wells_.ctrls.getD j WellControls.empty).ctrls

/-- The water step of lines 624-632 on the triple (water, oil, gas): a negative water fraction
is set to zero after oil and gas are divided by one minus it. -/
def renormWater (t : ℚ × ℚ × ℚ) : ℚ × ℚ × ℚ :=
  if t.1 < 0 then (0, t.2.1 / (1 - t.1), t.2.2 / (1 - t.1)) else t

/-- The gas step of lines 633-641 on the triple (water, oil, gas). -/
def renormGas (t : ℚ × ℚ × ℚ) : ℚ × ℚ × ℚ :=
  if t.2.2 < 0 then (t.1 / (1 - t.2.2), t.2.1 / (1 - t.2.2), 0) else t

/-- The oil step of lines 642-650 on the triple (water, oil, gas). -/
def renormOil (t : ℚ × ℚ × ℚ) : ℚ × ℚ × ℚ :=
  if t.2.1 < 0 then (t.1 / (1 - t.2.1), 0, t.2.2 / (1 - t.2.1)) else t

/-- The well state after the fraction part of the loop body of `updateWellState` (lines
598-657) for well `w`: the limited increments are applied to the water and gas fractions, and
the normalized fractions are stored. -/
def fractionUpdate (E : External) (swd : StandardWellsDense) (dwells : List ℚ)
    (xvar_well_old : List ℚ) (w : Nat) (well_state : WellState) : WellState :=
  let nw := swd.nw
  let dFLimit := swd.param_.dwell_fraction_max_
  let ws1 : WellState :=
    if swd.active Water then
      let dx2_limited := limitedStep (blockEntry dwells w (E.flowPhaseToEbosCompIdx WFrac)) dFLimit
      { well_state with wellSolutions :=
          well_state.wellSolutions.set (WFrac * nw + w) (rd xvar_well_old (WFrac * nw + w) - dx2_limited) }
    else well_state
  let ws2 : WellState :=
    if swd.active Gas then
      let dx3_limited := limitedStep (blockEntry dwells w (E.flowPhaseToEbosCompIdx GFrac)) dFLimit
      { ws1 with wellSolutions :=
          ws1.wellSolutions.set (GFrac * nw + w) (rd xvar_well_old (GFrac * nw + w) - dx3_limited) }
    else ws1
  let Fn := normalizedFractions swd (rd ws2.wellSolutions (WFrac * nw + w))
    (rd ws2.wellSolutions (GFrac * nw + w))
  let ws3 : WellState :=
    if swd.active Water then
      { ws2 with wellSolutions := ws2.wellSolutions.set (WFrac * nw + w) (rd Fn Water) }
    else ws2
  if swd.active Gas then
    { ws3 with wellSolutions := ws3.wellSolutions.set (GFrac * nw + w) (rd Fn Gas) }
  else ws3

/-- The well variables after `setWellVariables` as far as values go: the well solutions of the
well state. -/
def withWellVariables (swd : StandardWellsDense) (well_state : WellState) : StandardWellsDense :=
  { swd with wellVariables_ := well_state.wellSolutions }

/-- The normalized fractions `F` that the loop body of `updateWellState` computes for well `w`
(lines 598-650), before they are scaled. -/
def fractionsOf (E : External) (swd : StandardWellsDense) (dwells : List ℚ)
    (xvar_well_old : List ℚ) (w : Nat) (well_state : WellState) : List ℚ :=
  let nw := swd.nw
  let dFLimit := swd.param_.dwell_fraction_max_
  let ws1 : WellState :=
    if swd.active Water then
      let dx2_limited := limitedStep (blockEntry dwells w (E.flowPhaseToEbosCompIdx WFrac)) dFLimit
      { well_state with wellSolutions :=
          well_state.wellSolutions.set (WFrac * nw + w) (rd xvar_well_old (WFrac * nw + w) - dx2_limited) }
    else well_state
  let ws2 : WellState :=
    if swd.active Gas then
      let dx3_limited := limitedStep (blockEntry dwells w (E.flowPhaseToEbosCompIdx GFrac)) dFLimit
      { ws1 with wellSolutions :=
          ws1.wellSolutions.set (GFrac * nw + w) (rd xvar_well_old (GFrac * nw + w) - dx3_limited) }
    else ws1
  normalizedFractions swd (rd ws2.wellSolutions (WFrac * nw + w))
    (rd ws2.wellSolutions (GFrac * nw + w))

/-- The control part of the loop body of `updateWellState` (lines 659-783) for well `w`, from
the normalized fractions `Fn` and the well state `ws4` in which they are stored. -/
def controlUpdate (E : External) (swd : StandardWellsDense) (dwells : List ℚ)
    (xvar_well_old : List ℚ) (w : Nat) (Fn : List ℚ) (ws4 : WellState) : WellState :=
  let np := swd.np
  let nw := swd.nw
  let dBHPLimit := swd.param_.dbhp_max_rel_
  let wc := swd.wellCtrls w
  let current : Int := ws4.currentControls.getD w 0
  let target_rate := well_controls_iget_target wc current
  let F := scaledFractions swd wc current Fn
  match well_controls_iget_type wc current with
  | WellControlType.THP | WellControlType.BHP =>
    let x := rd xvar_well_old (nw * XvarWell + w)
      - blockEntry dwells w (E.flowPhaseToEbosCompIdx XvarWell)
    let ws5 : WellState :=
      { ws4 with wellSolutions := ws4.wellSolutions.set (nw * XvarWell + w) x }
    let ws6 : WellState :=
      match swd.wellType w with
      | WellType.INJECTOR =>
        forRange np (fun p (st : WellState) =>
          let comp_frac := rd swd.wells_.comp_frac (np * w + p)
          { st with wellRates :=
              st.wellRates.set (w * np + p) (comp_frac * rd st.wellSolutions (nw * XvarWell + w)) })
          ws5
      | WellType.PRODUCER =>
        forRange np (fun p (st : WellState) =>
          { st with wellRates :=
              st.wellRates.set (w * np + p) (rd st.wellSolutions (nw * XvarWell + w) * rd F p) })
          ws5
    if well_controls_iget_type wc current = WellControlType.THP then
      { ws6 with bhp := ws6.bhp.set w (bhpFromThp E swd wc current w ws6.wellRates) }
    else ws6
  | WellControlType.SURFACE_RATE | WellControlType.RESERVOIR_RATE =>
    let dx1_limited := limitedStep (blockEntry dwells w (E.flowPhaseToEbosCompIdx XvarWell))
      (|rd xvar_well_old (nw * XvarWell + w)| * dBHPLimit)
    let x := max (rd xvar_well_old (nw * XvarWell + w) - dx1_limited) 100000
    let ws5 : WellState :=
      { ws4 with wellSolutions := ws4.wellSolutions.set (nw * XvarWell + w) x }
    let ws6 : WellState := { ws5 with bhp := ws5.bhp.set w (rd ws5.wellSolutions (nw * XvarWell + w)) }
    if well_controls_iget_type wc current = WellControlType.SURFACE_RATE then
      if swd.wellType w = WellType.PRODUCER then
        let distr := well_controls_iget_distr wc current
        let F_target := forRange np (fun p (t : ℚ) => t + rd distr p * rd F p) 0
        forRange np (fun p (st : WellState) =>
          { st with wellRates := st.wellRates.set (np * w + p) (rd F p * target_rate / F_target) })
          ws6
      else
        forRange np (fun p (st : WellState) =>
          { st with wellRates :=
              st.wellRates.set (w * np + p) (rd swd.wells_.comp_frac (np * w + p) * target_rate) })
          ws6
    else
      forRange np (fun p (st : WellState) =>
        { st with wellRates := st.wellRates.set (np * w + p) (rd F p * target_rate) }) ws6

/-- The fractions of well `w` stored in the well solutions `sol` are valid: the water and the
gas fraction are non-negative and leave a non-negative oil fraction `1 - WFrac - GFrac`. -/
def fractionsValid (nw : Nat) (sol : List ℚ) (w : Nat) : Prop :=
  0 ≤ rd sol (WFrac * nw + w) ∧ 0 ≤ rd sol (GFrac * nw + w) ∧
  0 ≤ 1 - rd sol (WFrac * nw + w) - rd sol (GFrac * nw + w)

/-- The part of an economic-limit list that concerns the well `well_name`: whether it is shut,
whether it is stopped, and its closed connections. -/
def DynamicListEconLimited.forWell (l : DynamicListEconLimited) (well_name : String) :
    DynamicListEconLimited :=
  { shut_wells := l.shut_wells.filter (fun n => decide (n = well_name))
    stopped_wells := l.stopped_wells.filter (fun n => decide (n = well_name))
    cells_closed_connections :=
      l.cells_closed_connections.filter (fun c => decide (c.1 = well_name)) }

/-- A minimum-rate limit of `checkRateEconLimits` is on and violated: `|oil rate| < minOilRate`,
`|gas rate| < minGasRate` or `|oil rate + water rate| < minLiquidRate`. -/
def rateLimitViolated (swd : StandardWellsDense) (econ : WellEconProductionLimits)
    (well_state : WellState) (well_number : Nat) : Prop :=
  (econ.onMinOilRate = true
    ∧ |rd well_state.wellRates (well_number * swd.np + swd.phasePos Oil)| < econ.minOilRate)
  ∨ (econ.onMinGasRate = true
    ∧ |rd well_state.wellRates (well_number * swd.np + swd.phasePos Gas)| < econ.minGasRate)
  ∨ (econ.onMinLiquidRate = true
    ∧ |rd well_state.wellRates (well_number * swd.np + swd.phasePos Oil)
        + rd well_state.wellRates (well_number * swd.np + swd.phasePos Water)|
      < econ.minLiquidRate)

/-- The distribution-weighted sum of the phase rates of well `well_index`: the sum over the
phases `p` of `distr[p] * rates[np * well_index + p]`. -/
def weightedRate (np : Nat) (distr rates : List ℚ) (well_index : Nat) : ℚ :=
  Finset.sum (Finset.range np) (fun p => rd distr p * rd rates (np * well_index + p))

/-- What a step on well `w` keeps of the well state `ws4`: the current controls, the length of
the bhp vector and the bhp of the other wells, the length of the rate vector and the rates
outside the `np` rates of well `w`. -/
def controlFrame (np w : Nat) (ws4 t : WellState) : Prop :=
  t.currentControls = ws4.currentControls ∧ t.bhp.length = ws4.bhp.length ∧
  (∀ j, j ≠ w → rd t.bhp j = rd ws4.bhp j) ∧
  t.wellRates.length = ws4.wellRates.length ∧
  (∀ j, (∀ p, p < np → j ≠ w * np + p) → rd t.wellRates j = rd ws4.wellRates j)

/-- The fraction of well `w` in slot `c` (`WFrac` or `GFrac`) after the limited increment of
lines 598-609: the previous value less the increment limited to `dwell_fraction_max`. -/
def limitedFraction (E : External) (swd : StandardWellsDense) (dwells xvar_well_old : List ℚ)
    (w c : Nat) : ℚ :=
  rd xvar_well_old (c * swd.nw + w)
    - limitedStep (blockEntry dwells w (E.flowPhaseToEbosCompIdx c))
        swd.param_.dwell_fraction_max_

/-- The distribution-weighted sum of the fractions `F`: the sum over the phases `p` of
`distr[p] * F[p]`, the value `F_target` of lines 763-766. -/
def weightedFractions (np : Nat) (distr F : List ℚ) : ℚ :=
  Finset.sum (Finset.range np) (fun p => rd distr p * rd F p)

/-- The scaled fractions `F` that the loop body of `updateWellState` uses for the rates of
well `w` (lines 612-678): the normalized limited fractions divided by the control's
distribution for a RESERVOIR_RATE control and by `g = {1, 1, 0.01}` otherwise. -/
def scaledLimitedFractions (E : External) (swd : StandardWellsDense) (dwells : List ℚ)
    (well_state : WellState) (w : Nat) : List ℚ :=
  scaledFractions swd (swd.wellCtrls w) (well_state.currentControls.getD w 0)
    (normalizedFractions swd (limitedFraction E swd dwells well_state.wellSolutions w WFrac)
      (limitedFraction E swd dwells well_state.wellSolutions w GFrac))

/-- The scaled total rate of well `w` with three phases: the sum of `g[p] * rates[np * w + p]`
with `g = {1, 1, 0.01}`, the value that `updateWellStateWithTarget` gives the first well
variable of a producer under BHP control. -/
def scaledTotalRate (np w : Nat) (rates : List ℚ) : ℚ :=
  rd rates (np * w + 0) + rd rates (np * w + 1) + 1 / 100 * rd rates (np * w + 2)

/-- The invariant on the control indices: for every well `w` the entry `currentControls[w]` of
the well state exists, is an index in `[0, nwc)` of the well's controls, and is the index that
`well_controls_get_current` returns for the well's `WellControls`. -/
def controlsInSync (swd : StandardWellsDense) (xw : WellState) : Prop :=
  ∀ w, w < swd.nw →
    w < xw.currentControls.length ∧
    0 ≤ xw.currentControls.getD w 0 ∧
    xw.currentControls.getD w 0 < (well_controls_get_num (swd.wellCtrls w) : Int) ∧
    (swd.wellCtrls w).current = xw.currentControls.getD w 0

instance (swd : StandardWellsDense) (xw : WellState) : Decidable (controlsInSync swd xw) := by
  unfold controlsInSync
  infer_instance

/-! # Theorems -/

/-! ## Lists and counted loops -/

theorem forRange_zero {σ : Type} (body : Nat → σ → σ) (s : σ) : forRange 0 body s = s := rfl

theorem forRange_succ {σ : Type} (n : Nat) (body : Nat → σ → σ) (s : σ) :
    forRange (n + 1) body s = body n (forRange n body s) := by
  simp [forRange, List.range_succ, List.foldl_append]

theorem getD_set_self {α : Type} (l : List α) (i : Nat) (a d : α) (h : i < l.length) :
    (l.set i a).getD i d = a := by
  simp [List.getD_eq_getElem?_getD, List.getElem?_set, h]

theorem getD_set_other {α : Type} (l : List α) (i j : Nat) (a d : α) (h : i ≠ j) :
    (l.set i a).getD j d = l.getD j d := by
  simp [List.getD_eq_getElem?_getD, List.getElem?_set, h]

/-! ## The constraint scan -/

/-- What the scan returns when started at `start` with enough fuel to reach `nwc`. -/
theorem scanControls_spec (broken : Nat → Bool) (current : Int) (nwc : Nat) :
    ∀ (fuel start : Nat), start + fuel = nwc →
      start ≤ scanControls broken current nwc fuel start ∧
      scanControls broken current nwc fuel start ≤ nwc ∧
      (∀ j, start ≤ j → j < scanControls broken current nwc fuel start →
        (j : Int) = current ∨ broken j = false) ∧
      (scanControls broken current nwc fuel start < nwc →
        ((scanControls broken current nwc fuel start : Nat) : Int) ≠ current ∧
        broken (scanControls broken current nwc fuel start) = true) := by
  intro fuel
  induction fuel with
  | zero =>
    intro start h
    simp only [scanControls]
    refine ⟨le_refl _, by omega, ?_, ?_⟩
    · intro j h1 h2; omega
    · intro h2; omega
  | succ fuel ih =>
    intro start h
    have hlt : start < nwc := by omega
    obtain ⟨i1, i2, i3, i4⟩ := ih (start + 1) (by omega)
    have step : scanControls broken current nwc (fuel + 1) start =
        if (start : Int) = current then scanControls broken current nwc fuel (start + 1)
        else if broken start then start
        else scanControls broken current nwc fuel (start + 1) := by
      rw [scanControls, if_pos hlt]
    rw [step]
    by_cases hc : (start : Int) = current
    · rw [if_pos hc]
      refine ⟨by omega, i2, ?_, i4⟩
      intro j h1 h2
      rcases Nat.eq_or_lt_of_le h1 with h3 | h3
      · left; rw [← h3]; exact hc
      · exact i3 j h3 h2
    · rw [if_neg hc]
      by_cases hb : broken start = true
      · rw [if_pos hb]
        refine ⟨le_refl _, by omega, ?_, ?_⟩
        · intro j h1 h2; omega
        · intro _; exact ⟨hc, hb⟩
      · rw [if_neg hb]
        refine ⟨by omega, i2, ?_, i4⟩
        intro j h1 h2
        rcases Nat.eq_or_lt_of_le h1 with h3 | h3
        · right; rw [← h3]; simpa using hb
        · exact i3 j h3 h2

theorem scanResult_congr (E : External) (self self1 : StandardWellsDense) (xw xw1 : WellState)
    (w : Nat) (h1 : xw1.bhp = xw.bhp) (h2 : xw1.thp = xw.thp) (h3 : xw1.wellRates = xw.wellRates)
    (h4 : self1.wells_.number_of_phases = self.wells_.number_of_phases)
    (h5 : self1.wells_.type = self.wells_.type)
    (h6 : self1.wells_.ctrls.getD w WellControls.empty = self.wells_.ctrls.getD w WellControls.empty)
    (h7 : xw1.currentControls.getD w 0 = xw.currentControls.getD w 0) :
    scanResult E self1 xw1 w = scanResult E self xw w := by
  have hb : brokenAt E self1 xw1 w = brokenAt E self xw w := by
    funext i
    simp only [brokenAt, StandardWellsDense.np, StandardWellsDense.wellType,
      StandardWellsDense.wellCtrls, h1, h2, h3, h4, h5, h6]
  simp only [scanResult, hb, h7, StandardWellsDense.wellCtrls, h6]

theorem getD_set_ctrls (l : List WellControls) (i j : Nat) (wc : WellControls)
    (h : wc.ctrls = (l.getD i WellControls.empty).ctrls) :
    ((l.set i wc).getD j WellControls.empty).ctrls = (l.getD j WellControls.empty).ctrls := by
  by_cases hij : i = j
  · subst hij
    by_cases hlt : i < l.length
    · rw [getD_set_self _ _ _ _ hlt, h]
    · rw [List.set_eq_of_length_le (by omega)]
  · rw [getD_set_other _ _ _ _ _ hij]

theorem scanWells_inv (E : External) (self : StandardWellsDense) (xw : WellState) :
    ∀ k, ScanInv E self xw k (forRange k (scanWell E) (self, xw)) := by
  intro k
  induction k with
  | zero =>
    rw [forRange_zero]
    exact ⟨rfl, rfl, rfl, rfl, rfl, rfl, rfl, rfl, rfl, rfl, fun _ _ => rfl, fun _ _ => rfl,
      fun j hj => absurd hj (Nat.not_lt_zero j), fun j hj => absurd hj (Nat.not_lt_zero j)⟩
  | succ k ih =>
    rw [forRange_succ]
    generalize forRange k (scanWell E) (self, xw) = s at ih
    have hres : scanResult E s.1 s.2 k = scanResult E self xw k :=
      scanResult_congr E self s.1 xw s.2 k ih.bhp ih.thp ih.wellRates ih.number_of_phases ih.type
        (ih.ctrlsAbove k (le_refl k)) (ih.currentAbove k (le_refl k))
    have hnum : well_controls_get_num (s.1.wellCtrls k)
        = well_controls_get_num (self.wellCtrls k) := by
      simp only [StandardWellsDense.wellCtrls, ih.ctrlsAbove k (le_refl k)]
    constructor
    · simp only [scanWell]; split_ifs <;> simpa using ih.bhp
    · simp only [scanWell]; split_ifs <;> simpa using ih.thp
    · simp only [scanWell]; split_ifs <;> simpa using ih.wellRates
    · simp only [scanWell]; split_ifs <;> simpa using ih.wellSolutions
    · simp only [scanWell]; split_ifs <;> simpa using ih.number_of_wells
    · simp only [scanWell]; split_ifs <;> simpa using ih.number_of_phases
    · simp only [scanWell]; split_ifs <;> simpa using ih.type
    · simp only [scanWell]; split_ifs <;> simpa using ih.name
    · simp only [scanWell, setIndividualControlOf]; split_ifs <;> simpa using ih.groupControlActive
    · simp only [scanWell]; split_ifs <;> simpa using ih.length
    · intro j hj
      have hne : k ≠ j := by omega
      simp only [scanWell]
      split_ifs
      · rw [getD_set_other _ _ _ _ _ hne]; exact ih.ctrlsAbove j (by omega)
      · exact ih.ctrlsAbove j (by omega)
    · intro j hj
      have hne : k ≠ j := by omega
      simp only [scanWell]
      split_ifs
      · rw [getD_set_other _ _ _ _ _ hne]; exact ih.currentAbove j (by omega)
      · exact ih.currentAbove j (by omega)
    · intro j hj hlen
      simp only [scanWell]
      rcases Nat.eq_or_lt_of_le (Nat.le_of_lt_succ hj) with h | h
      · subst h
        by_cases hsw : scanResult E self xw j = well_controls_get_num (self.wellCtrls j)
        · simp only [scannedControl, hres, hnum, hsw, ne_eq, not_true_eq_false, decide_False,
            Bool.false_eq_true, if_false]
          exact ih.currentAbove j (le_refl j)
        · simp only [scannedControl, hres, hnum, hsw, ne_eq, not_false_eq_true, decide_True,
            if_true]
          rw [getD_set_self _ _ _ _ (by have := ih.length; omega)]
      · have hne : k ≠ j := by omega
        split_ifs
        · rw [getD_set_other _ _ _ _ _ hne]; exact ih.currentBelow j h hlen
        · exact ih.currentBelow j h hlen
    · intro j hj
      simp only [scanWell]
      split_ifs
      · rw [getD_set_ctrls _ _ _ _ (by simp [well_controls_set_current, StandardWellsDense.wellCtrls])]
        rcases Nat.eq_or_lt_of_le (Nat.le_of_lt_succ hj) with h | h
        · subst h; rw [ih.ctrlsAbove j (le_refl j)]
        · exact ih.ctrlsBelow j h
      · rcases Nat.eq_or_lt_of_le (Nat.le_of_lt_succ hj) with h | h
        · subst h; rw [ih.ctrlsAbove j (le_refl j)]
        · exact ih.ctrlsBelow j h

theorem scanControls_congr (b1 b2 : Nat → Bool) (current : Int) (nwc : Nat)
    (h : ∀ i, i < nwc → b1 i = b2 i) :
    ∀ (fuel start : Nat),
      scanControls b1 current nwc fuel start = scanControls b2 current nwc fuel start := by
  intro fuel
  induction fuel with
  | zero => intro start; rfl
  | succ fuel ih =>
    intro start
    simp only [scanControls]
    by_cases hlt : start < nwc
    · rw [if_pos hlt, if_pos hlt, ih (start + 1), h start hlt]
    · rw [if_neg hlt, if_neg hlt]

/-- After the loop over all wells, well `w` holds the scanned control. -/
theorem scanWells_currentControls (E : External) (self : StandardWellsDense) (xw : WellState)
    (w : Nat) (hw : w < self.nw) (hlen : w < xw.currentControls.length) :
    (scanWells E self xw).2.currentControls.getD w 0 = scannedControl E self xw w :=
  (scanWells_inv E self xw self.nw).currentBelow w hw hlen

/-- C1. For every well `w` and every well state, after the constraint scan of
`updateWellControls` the well's current control is the lowest control index `k`, different from
the index it had, for which `constraintBroken` holds, whenever such an index exists, whatever
holds for later controls; and the control chosen is the same for any two situations with the
same number of controls, the same current index and the same violation pattern. -/
theorem C1_scan_selects_first_broken (E : External) (self : StandardWellsDense) (xw : WellState)
    (w : Nat) (hw : w < self.nw) (hlen : w < xw.currentControls.length) :
    ((∃ i, i < well_controls_get_num (self.wellCtrls w) ∧
          (i : Int) ≠ xw.currentControls.getD w 0 ∧ brokenAt E self xw w i = true) →
      ∃ k : Nat, (scanWells E self xw).2.currentControls.getD w 0 = (k : Int) ∧
        k < well_controls_get_num (self.wellCtrls w) ∧
        (k : Int) ≠ xw.currentControls.getD w 0 ∧ brokenAt E self xw w k = true ∧
        ∀ j, j < k → (j : Int) ≠ xw.currentControls.getD w 0 → brokenAt E self xw w j = false) ∧
    (∀ (E2 : External) (self2 : StandardWellsDense) (xw2 : WellState),
      w < self2.nw → w < xw2.currentControls.length →
      well_controls_get_num (self2.wellCtrls w) = well_controls_get_num (self.wellCtrls w) →
      xw2.currentControls.getD w 0 = xw.currentControls.getD w 0 →
      (∀ i, i < well_controls_get_num (self.wellCtrls w) →
        brokenAt E2 self2 xw2 w i = brokenAt E self xw w i) →
      (scanWells E2 self2 xw2).2.currentControls.getD w 0
        = (scanWells E self xw).2.currentControls.getD w 0) := by
  constructor
  · rintro ⟨i, hi, hne, hbr⟩
    obtain ⟨-, s2, s3, s4⟩ := scanControls_spec (brokenAt E self xw w)
      (xw.currentControls.getD w 0) (well_controls_get_num (self.wellCtrls w))
      (well_controls_get_num (self.wellCtrls w)) 0 (by omega)
    have hle : scanResult E self xw w ≤ i := by
      by_contra hcon
      rcases s3 i (Nat.zero_le i) (by simpa [scanResult] using hcon) with h | h
      · exact hne h
      · rw [hbr] at h; exact Bool.noConfusion h
    have hlt : scanResult E self xw w < well_controls_get_num (self.wellCtrls w) := by omega
    refine ⟨scanResult E self xw w, ?_, hlt, ?_, ?_, ?_⟩
    · rw [scanWells_currentControls E self xw w hw hlen, scannedControl, if_pos (by omega)]
    · exact (s4 hlt).1
    · exact (s4 hlt).2
    · intro j hj hjc
      rcases s3 j (Nat.zero_le j) hj with h | h
      · exact absurd h hjc
      · exact h
  · intro E2 self2 xw2 hw2 hlen2 hnum hcur hpat
    rw [scanWells_currentControls E self xw w hw hlen,
      scanWells_currentControls E2 self2 xw2 w hw2 hlen2]
    have hres : scanResult E2 self2 xw2 w = scanResult E self xw w := by
      simp only [scanResult, hnum, hcur]
      exact scanControls_congr _ _ _ _ (fun i hi => hpat i hi) _ _
    simp only [scannedControl, hres, hnum, hcur]

/-- C1 at the sample producer: oil (index 1) and water (index 2) limits are both broken, the
water limit by the larger margin, and the scan selects index 1. -/
theorem C1_scan_selects_first_broken_witness :
    0 < sampleProducerModel.nw ∧ 0 < sampleProducerState.currentControls.length ∧
    brokenAt sampleExternal sampleProducerModel sampleProducerState 0 2 = true ∧
    ∃ k : Nat, (scanWells sampleExternal sampleProducerModel sampleProducerState).2.currentControls.getD 0 0
        = (k : Int) ∧
      k < well_controls_get_num (sampleProducerModel.wellCtrls 0) ∧
      (k : Int) ≠ sampleProducerState.currentControls.getD 0 0 ∧
      brokenAt sampleExternal sampleProducerModel sampleProducerState 0 k = true ∧
      ∀ j, j < k → (j : Int) ≠ sampleProducerState.currentControls.getD 0 0 →
        brokenAt sampleExternal sampleProducerModel sampleProducerState 0 j = false :=
  ⟨by decide, by decide, by decide!,
    (C1_scan_selects_first_broken sampleExternal sampleProducerModel sampleProducerState 0
      (by decide) (by decide)).1 ⟨1, by decide, by decide, by decide!⟩⟩

/-! ## `updateWellControls` without group control -/

theorem forRange_preserves {σ : Type} (P : σ → Prop) (n : Nat) (body : Nat → σ → σ) (s : σ)
    (h0 : P s) (hstep : ∀ i t, P t → P (body i t)) : P (forRange n body s) := by
  induction n with
  | zero => exact h0
  | succ n ih => rw [forRange_succ]; exact hstep n _ ih

theorem seedFromTarget_currentControls (E : External) (self : StandardWellsDense)
    (wc : WellControls) (current : Int) (well_index : Nat) (xw : WellState) :
    (seedFromTarget E self wc current well_index xw).currentControls = xw.currentControls := by
  unfold seedFromTarget
  simp only []
  split
  · rfl
  · rfl
  · rfl
  · split
    · exact forRange_preserves (fun (st : WellState) => st.currentControls = xw.currentControls) _ _ _ rfl
        (fun i t ht => ht)
    · refine forRange_preserves (fun (st : WellState) => st.currentControls = xw.currentControls) _ _ _ rfl ?_
      intro i t ht
      split_ifs
      · exact ht
      · exact ht

theorem seedXvarWell_currentControls (self : StandardWellsDense)
    (wc : WellControls) (current : Int) (well_index : Nat) (g : List ℚ) (xw : WellState) :
    (seedXvarWell self wc current well_index g xw).currentControls = xw.currentControls := by
  unfold seedXvarWell
  simp only []
  split
  · split
    · exact forRange_preserves (fun (st : WellState) => st.currentControls = xw.currentControls)
        _ _ _ rfl (fun i t ht => ht)
    · exact forRange_preserves (fun (st : WellState) => st.currentControls = xw.currentControls)
        _ _ _ rfl (fun i t ht => ht)
  · split
    · exact forRange_preserves (fun (st : WellState) => st.currentControls = xw.currentControls)
        _ _ _ rfl (fun i t ht => ht)
    · exact forRange_preserves (fun (st : WellState) => st.currentControls = xw.currentControls)
        _ _ _ rfl (fun i t ht => ht)
  · rfl
  · rfl

theorem seedFractions_currentControls (self : StandardWellsDense)
    (well_index : Nat) (g : List ℚ) (xw : WellState) :
    (seedFractions self well_index g xw).currentControls = xw.currentControls := by
  unfold seedFractions
  simp only []
  split_ifs <;> rfl

theorem updateWellStateWithTarget_currentControls (E : External) (self : StandardWellsDense)
    (wc : WellControls) (current : Int) (well_index : Nat) (xw : WellState) :
    (updateWellStateWithTarget E self wc current well_index xw).currentControls
      = xw.currentControls := by
  unfold updateWellStateWithTarget
  simp only []
  rw [seedFractions_currentControls, seedXvarWell_currentControls,
    seedFromTarget_currentControls]

/-- With group control inactive the model part returned by `updateWellControls` is the one left
by the scan and the control indices are those set by the scan. -/
theorem updateWellControls_scan (E : External) (self : StandardWellsDense) (xw : WellState)
    (hg : self.well_collection_.groupControlActive = false) :
    (updateWellControls E self xw).1 = (scanWells E self xw).1 ∧
    (updateWellControls E self xw).2.currentControls
      = (scanWells E self xw).2.currentControls := by
  have hinv := scanWells_inv E self xw self.nw
  have hg1 : (scanWells E self xw).1.well_collection_.groupControlActive = false := by
    rw [← hg]; exact hinv.groupControlActive
  unfold updateWellControls
  by_cases hl : self.localWellsActive = true
  · simp only [hl, Bool.not_true, Bool.false_eq_true, if_false, hg1]
    refine ⟨trivial, ?_⟩
    refine forRange_preserves
      (fun (st : WellState) => st.currentControls = (scanWells E self xw).2.currentControls)
      _ _ _ rfl ?_
    intro i t ht
    split_ifs
    · rw [updateWellStateWithTarget_currentControls]; exact ht
    · exact ht
  · have hnw : self.nw = 0 := by
      simp only [StandardWellsDense.localWellsActive, decide_eq_true_eq, not_lt,
        Nat.le_zero] at hl
      exact hl
    simp only [hl, Bool.not_false, if_true, scanWells, hnw, forRange_zero, and_self]

theorem updateWellControls_currentControls (E : External) (self : StandardWellsDense)
    (xw : WellState) (hg : self.well_collection_.groupControlActive = false)
    (w : Nat) (hw : w < self.nw) (hlen : w < xw.currentControls.length) :
    (updateWellControls E self xw).2.currentControls.getD w 0 = scannedControl E self xw w := by
  rw [(updateWellControls_scan E self xw hg).2]
  exact scanWells_currentControls E self xw w hw hlen

/-- The scanned control is the previous one exactly when no other constraint is broken. -/
theorem scannedControl_eq_iff (E : External) (self : StandardWellsDense) (xw : WellState)
    (w : Nat) :
    scannedControl E self xw w = xw.currentControls.getD w 0 ↔
      ∀ i, i < well_controls_get_num (self.wellCtrls w) →
        (i : Int) ≠ xw.currentControls.getD w 0 → brokenAt E self xw w i = false := by
  obtain ⟨-, s2, s3, s4⟩ := scanControls_spec (brokenAt E self xw w)
    (xw.currentControls.getD w 0) (well_controls_get_num (self.wellCtrls w))
    (well_controls_get_num (self.wellCtrls w)) 0 (by omega)
  have hdef : scanResult E self xw w = scanControls (brokenAt E self xw w)
    (xw.currentControls.getD w 0) (well_controls_get_num (self.wellCtrls w))
    (well_controls_get_num (self.wellCtrls w)) 0 := rfl
  rw [← hdef] at s2 s3 s4
  constructor
  · intro h i hi hne
    have hr : scanResult E self xw w = well_controls_get_num (self.wellCtrls w) := by
      by_contra hcon
      rw [scannedControl, if_pos hcon] at h
      exact (s4 (by omega)).1 h
    rcases s3 i (Nat.zero_le i) (by omega) with h1 | h1
    · exact absurd h1 hne
    · exact h1
  · intro h
    have hr : scanResult E self xw w = well_controls_get_num (self.wellCtrls w) := by
      by_contra hcon
      have hlt : scanResult E self xw w < well_controls_get_num (self.wellCtrls w) := by omega
      have := h _ hlt (s4 hlt).1
      rw [(s4 hlt).2] at this
      exact Bool.noConfusion this
    rw [scannedControl, if_neg (by simpa using hr)]

theorem list_eq_of_getD {l1 l2 : List Int} (hlen : l1.length = l2.length)
    (h : ∀ j, j < l1.length → l1.getD j 0 = l2.getD j 0) : l1 = l2 := by
  apply List.ext_getElem hlen
  intro n h1 h2
  have := h n h1
  simpa [List.getD_eq_getElem?_getD, List.getElem?_eq_getElem h1, List.getElem?_eq_getElem h2]
    using this

/-- C2 (amended). With group control inactive, a second call of `updateWellControls` directly
after a first one leaves the vector of current controls as the first call left it if and only
if, in the well state left by the first call (after its re-seeding), no well has a broken
constraint other than its current one. -/
theorem C2_second_call_keeps_controls_iff (E : External) (self : StandardWellsDense)
    (xw : WellState) (hg : self.well_collection_.groupControlActive = false) :
    (updateWellControls E (updateWellControls E self xw).1
        (updateWellControls E self xw).2).2.currentControls
      = (updateWellControls E self xw).2.currentControls ↔
    ∀ w, w < self.nw → w < xw.currentControls.length →
      ∀ i, i < well_controls_get_num ((updateWellControls E self xw).1.wellCtrls w) →
        (i : Int) ≠ (updateWellControls E self xw).2.currentControls.getD w 0 →
        brokenAt E (updateWellControls E self xw).1 (updateWellControls E self xw).2 w i
          = false := by
  have hinv := scanWells_inv E self xw self.nw
  obtain ⟨h1, h2⟩ := updateWellControls_scan E self xw hg
  have hnw : (updateWellControls E self xw).1.nw = self.nw := by
    rw [h1]; exact hinv.number_of_wells
  have hlen1 : (updateWellControls E self xw).2.currentControls.length
      = xw.currentControls.length := by
    rw [h2]; exact hinv.length
  have hg1 : (updateWellControls E self xw).1.well_collection_.groupControlActive = false := by
    rw [h1, ← hg]; exact hinv.groupControlActive
  generalize updateWellControls E self xw = r at hnw hlen1 hg1
  have hinv2 := scanWells_inv E r.1 r.2 r.1.nw
  obtain ⟨-, k2⟩ := updateWellControls_scan E r.1 r.2 hg1
  constructor
  · intro heq w hw hl
    have hc := updateWellControls_currentControls E r.1 r.2 hg1 w (by omega) (by omega)
    rw [heq] at hc
    exact (scannedControl_eq_iff E r.1 r.2 w).mp hc.symm
  · intro hall
    apply list_eq_of_getD
    · rw [k2]; exact hinv2.length
    · intro j hj
      have hjl : j < r.2.currentControls.length := by
        rw [k2] at hj
        have hl2 : (scanWells E r.1 r.2).2.currentControls.length = r.2.currentControls.length :=
          hinv2.length
        omega
      by_cases hjn : j < r.1.nw
      · rw [updateWellControls_currentControls E r.1 r.2 hg1 j hjn hjl]
        exact (scannedControl_eq_iff E r.1 r.2 j).mpr (hall j (by omega) (by omega))
      · rw [k2]
        exact hinv2.currentAbove j (by simpa [scanWells] using Nat.le_of_not_lt hjn)

/-- C2 (amended) at a producer whose oil limit alone is broken: the first call switches to the
oil rate control and the second call switches nothing. -/
theorem C2_second_call_keeps_controls_iff_witness :
    sampleProducerModel.well_collection_.groupControlActive = false ∧
    (updateWellControls sampleExternal sampleProducerModel sampleProducerStateOil).2.currentControls
      = [1] ∧
    (updateWellControls sampleExternal
        (updateWellControls sampleExternal sampleProducerModel sampleProducerStateOil).1
        (updateWellControls sampleExternal sampleProducerModel sampleProducerStateOil).2).2.currentControls
      = (updateWellControls sampleExternal sampleProducerModel sampleProducerStateOil).2.currentControls :=
  ⟨by decide, by decide!,
    (C2_second_call_keeps_controls_iff sampleExternal sampleProducerModel sampleProducerStateOil
      (by decide)).mpr (by decide!)⟩

/-- C2 fails as stated: for the producer whose oil and water limits are both broken the first
call switches from BHP (index 0) to the oil rate limit (index 1) and re-seeds the oil rate; the
water limit is still broken, so the second call switches again, to index 2. -/
theorem C2_counterexample :
    (updateWellControls sampleExternal sampleProducerModel sampleProducerState).2.currentControls
      = [1] ∧
    (updateWellControls sampleExternal
        (updateWellControls sampleExternal sampleProducerModel sampleProducerState).1
        (updateWellControls sampleExternal sampleProducerModel sampleProducerState).2).2.currentControls
      = [2] := by
  decide!

/-! ## The local well solver -/

/-- What one pass does to the counters of a loop state whose flag is still false. -/
theorem solvePass_spec (E : External) (dt : ℚ) (s : SolveLoop) :
    (∀ msg t, solvePass E dt s = PassOutcome.thrown msg t →
      t.it = s.it ∧ t.checks = s.checks + 1 ∧ t.updates = s.updates ∧ t.skipped = s.skipped) ∧
    (∀ r, solvePass E dt s = PassOutcome.finished r →
      r.checks = s.checks + 1 ∧
      ((r.converged = true ∧ r.it = s.it ∧ r.updates = s.updates ∧ r.skipped = s.skipped) ∨
       (r.converged = false ∧ r.it = s.it + 1 ∧ ¬ s.it + 1 < 15 ∧
         r.updates + r.skipped = s.updates + s.skipped + 1))) ∧
    (∀ n, solvePass E dt s = PassOutcome.again n →
      n.converged = false ∧ n.it = s.it + 1 ∧ s.it + 1 < 15 ∧ n.checks = s.checks + 1 ∧
      n.updates + n.skipped = s.updates + s.skipped + 1) := by
  unfold solvePass
  dsimp only
  cases getWellConvergence E (E.assembleWellEq s.swd dt s.well_state true).1 with
  | error msg =>
    dsimp only
    refine ⟨?_, ?_, ?_⟩
    · intro msg2 t h
      cases h
      exact ⟨rfl, rfl, rfl, rfl⟩
    · intro r h; cases h
    · intro n h; cases h
  | ok c0 =>
    dsimp only
    by_cases hc : convergedFlag E (E.assembleWellEq s.swd dt s.well_state true).1
        (E.assembleWellEq s.swd dt s.well_state true).2 c0 = true
    · rw [if_pos hc]
      refine ⟨?_, ?_, ?_⟩
      · intro msg t h; cases h
      · intro r h
        cases h
        exact ⟨rfl, Or.inl ⟨rfl, rfl, rfl, rfl⟩⟩
      · intro n h; cases h
    · rw [if_neg hc]
      by_cases hlt : s.it + 1 < 15
      · rw [if_pos hlt]
        refine ⟨?_, ?_, ?_⟩
        · intro msg t h; cases h
        · intro r h; cases h
        · intro n h
          cases h
          split_ifs
          · exact ⟨rfl, rfl, hlt, rfl, by simp only []; omega⟩
          · exact ⟨rfl, rfl, hlt, rfl, by simp only []; omega⟩
      · rw [if_neg hlt]
        refine ⟨?_, ?_, ?_⟩
        · intro msg t h; cases h
        · intro r h
          cases h
          split_ifs
          · exact ⟨rfl, Or.inr ⟨rfl, rfl, hlt, by simp only []; omega⟩⟩
          · exact ⟨rfl, Or.inr ⟨rfl, rfl, hlt, by simp only []; omega⟩⟩
        · intro n h; cases h

theorem solveWellEqLoop_thrown (E : External) (dt : ℚ) (fuel : Nat) (s : SolveLoop)
    (msg : String) (t : SolveLoop) (h : solvePass E dt s = PassOutcome.thrown msg t) :
    solveWellEqLoop E dt (fuel + 1) s = Except.error (SolveStop.numericalProblem msg t) := by
  rw [solveWellEqLoop, h]

theorem solveWellEqLoop_finished (E : External) (dt : ℚ) (fuel : Nat) (s r : SolveLoop)
    (h : solvePass E dt s = PassOutcome.finished r) :
    solveWellEqLoop E dt (fuel + 1) s = Except.ok r := by
  rw [solveWellEqLoop, h]

theorem solveWellEqLoop_again (E : External) (dt : ℚ) (fuel : Nat) (s n : SolveLoop)
    (h : solvePass E dt s = PassOutcome.again n) :
    solveWellEqLoop E dt (fuel + 1) s = solveWellEqLoop E dt fuel n := by
  rw [solveWellEqLoop, h]

/-- The state in which the loop of `solveWellEq` ends, for a start with `fuel` passes left. -/
theorem solveWellEqLoop_spec (E : External) (dt : ℚ) :
    ∀ (fuel : Nat) (s : SolveLoop), s.it + fuel = 15 → 0 < fuel → s.checks = s.it →
      s.updates + s.skipped = s.it →
      (∀ r, solveWellEqLoop E dt fuel s = Except.ok r →
        r.it ≤ 15 ∧ r.checks ≤ 15 ∧ r.updates + r.skipped = r.it ∧
        (r.converged = true → r.it < 15 ∧ r.checks = r.it + 1) ∧
        (r.converged = false → r.it = 15 ∧ r.checks = 15)) ∧
      (∀ msg t, solveWellEqLoop E dt fuel s = Except.error (SolveStop.numericalProblem msg t) →
        t.it < 15 ∧ t.checks = t.it + 1 ∧ t.updates + t.skipped = t.it) ∧
      solveWellEqLoop E dt fuel s ≠ Except.error SolveStop.outOfFuel := by
  intro fuel
  induction fuel with
  | zero => intro s _ h; omega
  | succ fuel ih =>
    intro s hfuel _ hchecks hupd
    obtain ⟨p1, p2, p3⟩ := solvePass_spec E dt s
    cases hp : solvePass E dt s with
    | thrown msg t =>
      rw [solveWellEqLoop_thrown E dt fuel s msg t hp]
      obtain ⟨t1, t2, t3, t4⟩ := p1 msg t hp
      refine ⟨?_, ?_, ?_⟩
      · intro r h; cases h
      · intro msg2 u h
        cases h
        exact ⟨by omega, by omega, by omega⟩
      · intro h; cases h
    | finished r =>
      rw [solveWellEqLoop_finished E dt fuel s r hp]
      obtain ⟨r1, r2⟩ := p2 r hp
      refine ⟨?_, ?_, ?_⟩
      · intro r0 h
        cases h
        rcases r2 with ⟨c1, c2, c3, c4⟩ | ⟨c1, c2, c3, c4⟩
        · refine ⟨by omega, by omega, by omega, fun _ => ⟨by omega, by omega⟩, ?_⟩
          intro hf; rw [c1] at hf; cases hf
        · refine ⟨by omega, by omega, by omega, ?_, fun _ => ⟨by omega, by omega⟩⟩
          intro hf; rw [c1] at hf; cases hf
      · intro msg u h; cases h
      · intro h; cases h
    | again n =>
      rw [solveWellEqLoop_again E dt fuel s n hp]
      obtain ⟨n1, n2, n3, n4, n5⟩ := p3 n hp
      exact ih n (by omega) (by omega) (by omega) (by omega)


/-- The loop of `solveWellEq` as started by the function: every way it can end. -/
theorem solveWellEq_loop_start (E : External) (self : StandardWellsDense) (dt : ℚ)
    (well_state : WellState) :
    (∀ r, solveWellEqLoop E dt 15
        { swd := self, well_state := well_state, it := 0, converged := false, checks := 0,
          updates := 0, skipped := 0 } = Except.ok r →
      r.it ≤ 15 ∧ r.checks ≤ 15 ∧ r.updates + r.skipped = r.it ∧
      (r.converged = true → r.it < 15 ∧ r.checks = r.it + 1) ∧
      (r.converged = false → r.it = 15 ∧ r.checks = 15)) ∧
    (∀ msg t, solveWellEqLoop E dt 15
        { swd := self, well_state := well_state, it := 0, converged := false, checks := 0,
          updates := 0, skipped := 0 } = Except.error (SolveStop.numericalProblem msg t) →
      t.it < 15 ∧ t.checks = t.it + 1 ∧ t.updates + t.skipped = t.it) ∧
    solveWellEqLoop E dt 15
        { swd := self, well_state := well_state, it := 0, converged := false, checks := 0,
          updates := 0, skipped := 0 } ≠ Except.error SolveStop.outOfFuel :=
  solveWellEqLoop_spec E dt 15 _ rfl (by decide) rfl rfl

/-- C3. Whenever `solveWellEq` returns with a report that is not converged, all 15 of its
convergence checks have failed and the well state it leaves is the well state it was given. -/
theorem C3_failed_solve_restores_well_state (E : External) (self : StandardWellsDense) (dt : ℚ)
    (well_state : WellState) (r : SolveResult)
    (h : solveWellEq E self dt well_state = Except.ok r)
    (hc : r.report.converged = false) :
    r.well_state = well_state ∧ r.checks = 15 := by
  obtain ⟨p1, -, -⟩ := solveWellEq_loop_start E self dt well_state
  unfold solveWellEq at h
  dsimp only at h
  cases hl : solveWellEqLoop E dt 15
      { swd := self, well_state := well_state, it := 0, converged := false, checks := 0,
        updates := 0, skipped := 0 } with
  | error e => rw [hl] at h; cases h
  | ok s =>
    rw [hl] at h
    cases h
    have hs : s.converged = false := hc
    refine ⟨?_, ((p1 s hl).2.2.2.2 hs).2⟩
    simp only [hs, Bool.not_false, if_true]

/-- C3 at the sample producer, whose residual 1 stays above the tolerance: the solve returns
not converged and the well state is the one passed in. -/
theorem C3_failed_solve_restores_well_state_witness :
    ∃ r, solveWellEq sampleExternal sampleProducerModel 1 sampleProducerState = Except.ok r ∧
      r.report.converged = false ∧ r.well_state = sampleProducerState ∧ r.checks = 15 := by
  have hfact : (solveWellEq sampleExternal sampleProducerModel 1 sampleProducerState).toOption.map
      (fun r => r.report.converged) = some false := by decide!
  cases h : solveWellEq sampleExternal sampleProducerModel 1 sampleProducerState with
  | error e => rw [h] at hfact; cases hfact
  | ok r =>
    rw [h] at hfact
    have hc : r.report.converged = false := by
      simpa [Except.toOption] using hfact
    exact ⟨r, rfl, hc,
      C3_failed_solve_restores_well_state sampleExternal sampleProducerModel 1
        sampleProducerState r h hc⟩

/-- C4 (amended). For every behaviour of the external functions, the loop of `solveWellEq`
ends (the model never runs out of its 15 passes); when `getWellConvergence` throws, at most 15
checks and fewer than 15 updates were made; when the function returns, at most 15 convergence
checks and at most 15 well-state updates were made, `total_well_iterations` is the number of
updates made plus the number of passes whose update was skipped because `localWellsActive()`
was false, it is at most 15, it is 15 exactly when the report is not converged, and it is 0
when the first check succeeds. -/
theorem C4_iteration_count (E : External) (self : StandardWellsDense) (dt : ℚ)
    (well_state : WellState) :
    solveWellEq E self dt well_state ≠ Except.error SolveStop.outOfFuel ∧
    (∀ msg t, solveWellEq E self dt well_state
        = Except.error (SolveStop.numericalProblem msg t) →
      t.checks ≤ 15 ∧ t.updates < 15) ∧
    (∀ r, solveWellEq E self dt well_state = Except.ok r →
      r.checks ≤ 15 ∧ r.updates ≤ 15 ∧
      r.report.total_well_iterations = r.updates + r.skipped ∧
      r.report.total_well_iterations ≤ 15 ∧
      (r.report.total_well_iterations = 15 ↔ r.report.converged = false) ∧
      (firstCheckSucceeds E self dt well_state → r.report.total_well_iterations = 0)) := by
  obtain ⟨p1, p2, p3⟩ := solveWellEq_loop_start E self dt well_state
  unfold solveWellEq
  dsimp only
  cases hl : solveWellEqLoop E dt 15
      { swd := self, well_state := well_state, it := 0, converged := false, checks := 0,
        updates := 0, skipped := 0 } with
  | error e =>
    refine ⟨?_, ?_, ?_⟩
    · intro h
      cases h
      exact p3 hl
    · intro msg t h
      cases h
      obtain ⟨t1, t2, t3⟩ := p2 msg t hl
      exact ⟨by omega, by omega⟩
    · intro r h; cases h
  | ok s =>
    refine ⟨?_, ?_, ?_⟩
    · intro h; cases h
    · intro msg t h; cases h
    · intro r h
      cases h
      obtain ⟨s1, s2, s3, s4, s5⟩ := p1 s hl
      have hu : s.updates ≤ 15 := by omega
      refine ⟨s2, hu, s3.symm, s1, ?_, ?_⟩
      · constructor
        · intro h15
          cases hcv : s.converged with
          | false => rfl
          | true => have := (s4 hcv).1; simp only [] at h15; omega
        · intro hcv
          exact (s5 hcv).1
      · rintro ⟨c0, hg, hf⟩
        have hpass : solvePass E dt
            { swd := self, well_state := well_state, it := 0, converged := false, checks := 0,
              updates := 0, skipped := 0 }
            = PassOutcome.finished
              { swd := (E.assembleWellEq self dt well_state true).1,
                well_state := (E.assembleWellEq self dt well_state true).2,
                it := 0, converged := true, checks := 0 + 1, updates := 0, skipped := 0 } := by
          unfold solvePass
          dsimp only
          rw [hg]
          dsimp only
          rw [if_pos hf]
        rw [solveWellEqLoop_finished E dt 14 _ _ hpass] at hl
        cases hl
        rfl

/-- C4 (amended) at the sample producer: the flag never becomes true, the function returns with
15 iterations, 15 checks, 15 updates and no skipped update. -/
theorem C4_iteration_count_witness :
    ∃ r, solveWellEq sampleExternal sampleProducerModel 1 sampleProducerState = Except.ok r ∧
      r.checks ≤ 15 ∧ r.updates ≤ 15 ∧
      r.report.total_well_iterations = r.updates + r.skipped ∧
      r.report.total_well_iterations ≤ 15 ∧
      (r.report.total_well_iterations = 15 ↔ r.report.converged = false) ∧
      (firstCheckSucceeds sampleExternal sampleProducerModel 1 sampleProducerState →
        r.report.total_well_iterations = 0) := by
  have hfact : (solveWellEq sampleExternal sampleProducerModel 1
      sampleProducerState).toOption.isSome = true := by decide!
  cases h : solveWellEq sampleExternal sampleProducerModel 1 sampleProducerState with
  | error e => rw [h] at hfact; cases hfact
  | ok r =>
    exact ⟨r, rfl,
      (C4_iteration_count sampleExternal sampleProducerModel 1 sampleProducerState).2.2 r h⟩

/-- C4 fails as stated: on a process without wells whose check never succeeds (tolerance 0,
residual 0) the function returns `total_well_iterations = 15` although no update of the well
state was made. -/
theorem C4_counterexample :
    (solveWellEq idleExternal emptyModel 1 emptyState).toOption.map
      (fun r => (r.report.converged, r.report.total_well_iterations, r.updates, r.skipped))
      = some (false, 15, 0, 15) := by
  decide!

/-! ## The convergence check -/

theorem mem_wellFluxResidual (np : Nat) (B_avg maxNormWell : List Dbl) (r : Dbl) :
    r ∈ wellFluxResidual np B_avg maxNormWell ↔
      ∃ idx, idx < np ∧ normalizedResidual B_avg maxNormWell idx = r := by
  simp [wellFluxResidual, normalizedResidual]

theorem foldl_and_eq_true (tol : Dbl) (l : List Dbl) (c : Bool) :
    l.foldl (fun c r => c && Dbl.lt r tol) c = true ↔
      c = true ∧ ∀ r, r ∈ l → Dbl.lt r tol = true := by
  induction l generalizing c with
  | nil => simp
  | cons a l ih =>
    rw [List.foldl_cons, ih]
    simp only [Bool.and_eq_true, List.mem_cons, forall_eq_or_imp]
    tauto

theorem checkResiduals_ok_iff (maxRes : Dbl) (l : List Dbl) :
    checkResiduals maxRes l = Except.ok () ↔
      ∀ r, r ∈ l → r.isnan = false ∧ Dbl.gt r maxRes = false := by
  induction l with
  | nil => simp [checkResiduals]
  | cons a l ih =>
    rw [checkResiduals]
    cases h1 : a.isnan with
    | true => simp [h1]
    | false =>
      cases h2 : Dbl.gt a maxRes with
      | true => simp [h1, h2]
      | false => simp [h1, h2, ih]

theorem checkResiduals_cases (maxRes : Dbl) (l : List Dbl) :
    checkResiduals maxRes l = Except.ok () ∨ ∃ msg, checkResiduals maxRes l = Except.error msg := by
  cases h : checkResiduals maxRes l with
  | ok u => left; rfl
  | error msg => right; exact ⟨msg, rfl⟩

theorem wellConvergenceFrom_ok_iff (np : Nat) (tol maxRes : Dbl) (B_avg maxNormWell : List Dbl)
    (b : Bool) :
    wellConvergenceFrom np tol maxRes B_avg maxNormWell = Except.ok b ↔
      checkResiduals maxRes (wellFluxResidual np B_avg maxNormWell) = Except.ok () ∧
      b = (wellFluxResidual np B_avg maxNormWell).foldl (fun c r => c && Dbl.lt r tol) true := by
  unfold wellConvergenceFrom
  dsimp only
  cases h : checkResiduals maxRes (wellFluxResidual np B_avg maxNormWell) with
  | error e => simp
  | ok u =>
    simp only [Except.ok.injEq, true_and]
    exact eq_comm

theorem Dbl.abs_eq_of_nonneg (r : Dbl) (h : r.nonneg = true) : r.abs = r := by
  cases r with
  | fin q =>
    simp only [Dbl.nonneg, decide_eq_true_eq] at h
    simp only [Dbl.abs, abs_of_nonneg h]
  | pinf => rfl
  | ninf => cases h
  | nan => cases h

/-- C5 (amended). When `getWellConvergence` returns normally, it returns true if and only if
for every phase the normalized well residual `B_avg[p] * maxNormWell[p]` itself, the signed
value, is below the tolerance; when every normalized residual is non-negative this is the same
as its magnitude being below the tolerance. -/
theorem C5_converged_iff_residuals_below_tolerance (np : Nat) (tol maxRes : Dbl)
    (B_avg maxNormWell : List Dbl) (b : Bool)
    (h : wellConvergenceFrom np tol maxRes B_avg maxNormWell = Except.ok b) :
    (b = true ↔ ∀ idx, idx < np → Dbl.lt (normalizedResidual B_avg maxNormWell idx) tol = true) ∧
    ((∀ idx, idx < np → (normalizedResidual B_avg maxNormWell idx).nonneg = true) →
      (b = true ↔
        ∀ idx, idx < np →
          Dbl.lt (normalizedResidual B_avg maxNormWell idx).abs tol = true)) := by
  obtain ⟨-, hb⟩ := (wellConvergenceFrom_ok_iff np tol maxRes B_avg maxNormWell b).mp h
  have key : b = true ↔
      ∀ idx, idx < np → Dbl.lt (normalizedResidual B_avg maxNormWell idx) tol = true := by
    rw [hb, foldl_and_eq_true]
    constructor
    · rintro ⟨-, hall⟩ idx hidx
      exact hall _ ((mem_wellFluxResidual np B_avg maxNormWell _).mpr ⟨idx, hidx, rfl⟩)
    · intro hall
      refine ⟨rfl, ?_⟩
      intro r hr
      obtain ⟨idx, hidx, rfl⟩ := (mem_wellFluxResidual np B_avg maxNormWell r).mp hr
      exact hall idx hidx
  refine ⟨key, ?_⟩
  intro hnn
  rw [key]
  constructor
  · intro hall idx hidx
    rw [Dbl.abs_eq_of_nonneg _ (hnn idx hidx)]
    exact hall idx hidx
  · intro hall idx hidx
    have := hall idx hidx
    rw [Dbl.abs_eq_of_nonneg _ (hnn idx hidx)] at this
    exact this

/-- C5 (amended) at three phases with averages 1, 1, 1 and well norms 0.00001, 0.00002, 0:
every residual is below the tolerance 0.0001 and the flag is true. -/
theorem C5_converged_iff_residuals_below_tolerance_witness :
    wellConvergenceFrom 3 (Dbl.fin (1 / 10000)) (Dbl.fin 10000000)
        [Dbl.fin 1, Dbl.fin 1, Dbl.fin 1]
        [Dbl.fin (1 / 100000), Dbl.fin (2 / 100000), Dbl.fin 0] = Except.ok true ∧
    (true = true ↔ ∀ idx, idx < 3 →
      Dbl.lt (normalizedResidual [Dbl.fin 1, Dbl.fin 1, Dbl.fin 1]
        [Dbl.fin (1 / 100000), Dbl.fin (2 / 100000), Dbl.fin 0] idx) (Dbl.fin (1 / 10000))
        = true) :=
  ⟨by decide!,
    (C5_converged_iff_residuals_below_tolerance 3 (Dbl.fin (1 / 10000)) (Dbl.fin 10000000)
      [Dbl.fin 1, Dbl.fin 1, Dbl.fin 1]
      [Dbl.fin (1 / 100000), Dbl.fin (2 / 100000), Dbl.fin 0] true (by decide!)).1⟩

/-- C5 fails as stated: with `B_avg = -1` and well norm 1 the residual is -1, which is below
the tolerance 0.5, so the check returns true although the magnitude 1 is not below 0.5. -/
theorem C5_counterexample :
    wellConvergenceFrom 1 (Dbl.fin (1 / 2)) (Dbl.fin 10) [Dbl.fin (-1)] [Dbl.fin 1]
      = Except.ok true ∧
    Dbl.lt (normalizedResidual [Dbl.fin (-1)] [Dbl.fin 1] 0).abs (Dbl.fin (1 / 2)) = false := by
  decide!

/-- C6 (amended). `getWellConvergence` raises `NumericalProblem` whenever some phase's
normalized residual is NaN or exceeds `max_residual_allowed`, in particular for a residual
`+inf` when `max_residual_allowed` is finite, and it returns a flag only when every phase's
residual is not NaN and not above `max_residual_allowed`. -/
theorem C6_fatal_residuals (np : Nat) (tol maxRes : Dbl) (B_avg maxNormWell : List Dbl) :
    ((∃ idx, idx < np ∧ ((normalizedResidual B_avg maxNormWell idx).isnan = true ∨
        Dbl.gt (normalizedResidual B_avg maxNormWell idx) maxRes = true)) →
      ∃ msg, wellConvergenceFrom np tol maxRes B_avg maxNormWell = Except.error msg) ∧
    (∀ m idx, maxRes = Dbl.fin m → idx < np →
      normalizedResidual B_avg maxNormWell idx = Dbl.pinf →
      ∃ msg, wellConvergenceFrom np tol maxRes B_avg maxNormWell = Except.error msg) ∧
    (∀ b, wellConvergenceFrom np tol maxRes B_avg maxNormWell = Except.ok b →
      ∀ idx, idx < np → (normalizedResidual B_avg maxNormWell idx).isnan = false ∧
        Dbl.gt (normalizedResidual B_avg maxNormWell idx) maxRes = false) := by
  have hret : ∀ b, wellConvergenceFrom np tol maxRes B_avg maxNormWell = Except.ok b →
      ∀ idx, idx < np → (normalizedResidual B_avg maxNormWell idx).isnan = false ∧
        Dbl.gt (normalizedResidual B_avg maxNormWell idx) maxRes = false := by
    intro b h idx hidx
    obtain ⟨hchk, -⟩ := (wellConvergenceFrom_ok_iff np tol maxRes B_avg maxNormWell b).mp h
    exact (checkResiduals_ok_iff maxRes _).mp hchk _
      ((mem_wellFluxResidual np B_avg maxNormWell _).mpr ⟨idx, hidx, rfl⟩)
  have hraise : (∃ idx, idx < np ∧ ((normalizedResidual B_avg maxNormWell idx).isnan = true ∨
        Dbl.gt (normalizedResidual B_avg maxNormWell idx) maxRes = true)) →
      ∃ msg, wellConvergenceFrom np tol maxRes B_avg maxNormWell = Except.error msg := by
    rintro ⟨idx, hidx, hbad⟩
    cases hres : wellConvergenceFrom np tol maxRes B_avg maxNormWell with
    | error msg => exact ⟨msg, rfl⟩
    | ok b =>
      exfalso
      obtain ⟨h1, h2⟩ := hret b hres idx hidx
      rcases hbad with hbad | hbad
      · rw [h1] at hbad; cases hbad
      · rw [h2] at hbad; cases hbad
  refine ⟨hraise, ?_, hret⟩
  intro m idx hm hidx hinf
  apply hraise
  refine ⟨idx, hidx, Or.inr ?_⟩
  rw [hinf, hm]
  rfl

/-- C6 (amended) at a NaN residual (zero average times an infinite norm): the check raises. -/
theorem C6_fatal_residuals_witness :
    (∃ idx, idx < 1 ∧ ((normalizedResidual [Dbl.fin 0] [Dbl.pinf] idx).isnan = true ∨
        Dbl.gt (normalizedResidual [Dbl.fin 0] [Dbl.pinf] idx) (Dbl.fin 10) = true)) ∧
    ∃ msg, wellConvergenceFrom 1 (Dbl.fin (1 / 2)) (Dbl.fin 10) [Dbl.fin 0] [Dbl.pinf]
      = Except.error msg :=
  ⟨⟨0, by decide, Or.inl (by decide!)⟩,
    (C6_fatal_residuals 1 (Dbl.fin (1 / 2)) (Dbl.fin 10) [Dbl.fin 0] [Dbl.pinf]).1
      ⟨0, by decide, Or.inl (by decide!)⟩⟩

/-- C6 fails as stated: a residual of `-inf` (average `-inf`, well norm 1) is neither NaN nor
above `max_residual_allowed`, so the check returns a flag, and the flag is true; and with
`max_residual_allowed` set to `+inf` a residual of `+inf` is not rejected either. -/
theorem C6_counterexample :
    normalizedResidual [Dbl.ninf] [Dbl.fin 1] 0 = Dbl.ninf ∧
    (normalizedResidual [Dbl.ninf] [Dbl.fin 1] 0).isFinite = false ∧
    wellConvergenceFrom 1 (Dbl.fin (1 / 2)) (Dbl.fin 10) [Dbl.ninf] [Dbl.fin 1]
      = Except.ok true ∧
    normalizedResidual [Dbl.fin 1] [Dbl.pinf] 0 = Dbl.pinf ∧
    wellConvergenceFrom 1 (Dbl.fin (1 / 2)) Dbl.pinf [Dbl.fin 1] [Dbl.pinf]
      = Except.ok false := by
  decide!

/-! ## Recovery of the well unknowns -/

theorem forRange_const {σ : Type} (n : Nat) (body : Nat → σ → σ) (s : σ)
    (h : ∀ i, body i s = s) : forRange n body s = s :=
  forRange_preserves (fun t => t = s) n body s rfl (fun i t ht => by rw [ht]; exact h i)

theorem rd_replicate_zero (n j : Nat) : rd (List.replicate n 0) j = 0 := by
  unfold rd
  by_cases h : j < n
  · simp [List.getD_eq_getElem?_getD, List.getElem?_replicate, h]
  · simp [List.getD_eq_getElem?_getD, List.getElem?_replicate, h]

theorem rd_map_const_zero {α : Type} (l : List α) (j : Nat) :
    rd (l.map (fun _ => (0 : ℚ))) j = 0 := by
  unfold rd
  by_cases h : j < l.length
  · simp [List.getD_eq_getElem?_getD, h]
  · simp [List.getD_eq_getElem?_getD, h]

theorem mv_zero (M : List (List ℚ)) (n : Nat) :
    mv M (List.replicate n 0) = M.map (fun _ => (0 : ℚ)) := by
  unfold mv
  apply List.map_congr_left
  intro row _
  apply forRange_const
  intro i
  rw [rd_replicate_zero]
  ring

theorem range_map_rd (y : List ℚ) : (List.range y.length).map (fun i => rd y i) = y := by
  apply List.ext_getElem
  · simp
  · intro i h1 h2
    simp [rd, List.getD_eq_getElem?_getD, List.getElem?_eq_getElem h2]

theorem mmv_zero (M : List (List ℚ)) (n : Nat) (y : List ℚ) :
    mmv M (List.replicate n 0) y = y := by
  unfold mmv
  rw [mv_zero]
  have h : (fun i => rd y i - rd (M.map (fun _ => (0 : ℚ))) i) = fun i => rd y i := by
    funext i
    rw [rd_map_const_zero]
    ring
  rw [h, range_map_rd]

/-- C7. For every global correction `x`, `recoverVariable(x)` is the stored inverse of `D`
applied to `rw - C x`; for a zero correction it is the stored inverse applied to `rw`, which is
the update `dx_well = invDuneD_ * resWell_` that `solveWellEq` applies; and whenever the stored
matrix undoes a matrix `D` on a vector `xw` that solves `D xw = rw - C x`, the function returns
that `xw`. -/
theorem C7_recoverVariable (self : StandardWellsDense) (x : List ℚ) :
    recoverVariable self x = mv self.invDuneD_ (mmv self.duneC_ x self.resWell_) ∧
    (∀ n, recoverVariable self (List.replicate n 0) = mv self.invDuneD_ self.resWell_) ∧
    (∀ n, recoverVariable self (List.replicate n 0) = self.dxWell) ∧
    (∀ (D : List (List ℚ)) (xw : List ℚ), mv self.invDuneD_ (mv D xw) = xw →
      mv D xw = mmv self.duneC_ x self.resWell_ → recoverVariable self x = xw) := by
  refine ⟨rfl, ?_, ?_, ?_⟩
  · intro n
    rw [recoverVariable, mmv_zero]
  · intro n
    rw [recoverVariable, mmv_zero]
    rfl
  · intro D xw hinv hsolve
    rw [recoverVariable, ← hsolve, hinv]

/-- C7 at 1 x 1 blocks with `D = 2`, `C = 3`, `rw = 5` and `x = 1`: the recovered unknown is
`(5 - 3) / 2 = 1`. -/
theorem C7_recoverVariable_witness :
    mv sampleBlockModel.invDuneD_ (mv [[2]] [1]) = [1] ∧
    mv [[2]] [1] = mmv sampleBlockModel.duneC_ [1] sampleBlockModel.resWell_ ∧
    recoverVariable sampleBlockModel [1] = [1] ∧
    recoverVariable sampleBlockModel [0] = [5 / 2] ∧
    sampleBlockModel.dxWell = [5 / 2] :=
  ⟨by decide!, by decide!,
    (C7_recoverVariable sampleBlockModel [1]).2.2.2 [[2]] [1] (by decide!) (by decide!),
    by decide!, by decide!⟩

/-! ## The well flux -/

theorem rd_set (l : List ℚ) (i j : Nat) (v : ℚ) :
    rd (l.set i v) j = if i = j ∧ i < l.length then v else rd l j := by
  unfold rd
  by_cases hij : i = j
  · subst hij
    by_cases hlt : i < l.length
    · rw [getD_set_self _ _ _ _ hlt, if_pos ⟨rfl, hlt⟩]
    · rw [if_neg (fun h => hlt h.2), List.set_eq_of_length_le (by omega)]
  · rw [getD_set_other _ _ _ _ _ hij, if_neg (fun h => hij h.1)]

theorem rd_map_range (n p : Nat) (f : Nat → ℚ) (h : p < n) :
    rd ((List.range n).map f) p = f p := by
  simp [rd, List.getD_eq_getElem?_getD, h]

theorem writeRates_loop (values cq_s : List ℚ) :
    ∀ k, k ≤ cq_s.length →
      (forRange k (fun phase (c : List ℚ) => c.set phase (rd values phase)) cq_s).length
        = cq_s.length ∧
      (∀ p, p < k →
        rd (forRange k (fun phase (c : List ℚ) => c.set phase (rd values phase)) cq_s) p
          = rd values p) ∧
      (∀ p, k ≤ p →
        rd (forRange k (fun phase (c : List ℚ) => c.set phase (rd values phase)) cq_s) p
          = rd cq_s p) := by
  intro k
  induction k with
  | zero =>
    intro _
    refine ⟨rfl, ?_, fun p _ => rfl⟩
    intro p hp; omega
  | succ k ih =>
    intro hk
    obtain ⟨i1, i2, i3⟩ := ih (by omega)
    rw [forRange_succ]
    refine ⟨by rw [List.length_set, i1], ?_, ?_⟩
    · intro p hp
      rw [rd_set]
      by_cases hpk : k = p
      · rw [if_pos ⟨hpk, by omega⟩, hpk]
      · rw [if_neg (fun h => hpk h.1)]
        exact i2 p (by omega)
    · intro p hp
      rw [rd_set, if_neg (fun h => by omega)]
      exact i3 p (by omega)

theorem writeRates_length (np : Nat) (values cq_s : List ℚ) (h : cq_s.length = np) :
    (writeRates np values cq_s).length = np := by
  rw [writeRates, (writeRates_loop values cq_s np (by omega)).1, h]

theorem writeRates_rd (np : Nat) (values cq_s : List ℚ) (h : cq_s.length = np) (p : Nat)
    (hp : p < np) : rd (writeRates np values cq_s) p = rd values p :=
  (writeRates_loop values cq_s np (by omega)).2.1 p hp

theorem rd_bPerfcells (E : External) (self : StandardWellsDense) (iq : IntensiveQuantities)
    (p : Nat) (hp : p < self.np) :
    rd (bPerfcells E self iq) p = iq.invB (flowPhaseToEbosPhaseIdx E p) :=
  rd_map_range _ _ _ hp

theorem rd_mobPerfcells (E : External) (self : StandardWellsDense) (iq : IntensiveQuantities)
    (p : Nat) (hp : p < self.np) :
    rd (mobPerfcells E self iq) p = iq.mobility (flowPhaseToEbosPhaseIdx E p) :=
  rd_map_range _ _ _ hp

/-- The value of `cq_ps` in the branch `drawdown > 0` for a phase position below `np`. -/
theorem rd_cqPs (E : External) (self : StandardWellsDense) (Tw : ℚ) (iq : IntensiveQuantities)
    (dd : ℚ) (p : Nat) (hp : p < self.np)
    (hpos : self.active Oil = true → self.active Gas = true →
      self.phasePos Oil < self.np ∧ self.phasePos Gas < self.np ∧
      self.phasePos Oil ≠ self.phasePos Gas) :
    rd (cqPs self Tw iq.Rs iq.Rv (bPerfcells E self iq) (mobPerfcells E self iq) dd) p =
      if self.active Oil = true ∧ self.active Gas = true then
        if p = self.phasePos Gas then
          baseRate E Tw iq dd (self.phasePos Gas) + iq.Rs * baseRate E Tw iq dd (self.phasePos Oil)
        else if p = self.phasePos Oil then
          baseRate E Tw iq dd (self.phasePos Oil) + iq.Rv * baseRate E Tw iq dd (self.phasePos Gas)
        else baseRate E Tw iq dd p
      else baseRate E Tw iq dd p := by
  have hbase : ∀ q, q < self.np →
      rd ((List.range self.np).map (fun phase =>
        rd (bPerfcells E self iq) phase * (-Tw * (rd (mobPerfcells E self iq) phase * dd)))) q
        = baseRate E Tw iq dd q := by
    intro q hq
    rw [rd_map_range _ _ _ hq, rd_bPerfcells E self iq q hq, rd_mobPerfcells E self iq q hq]
    unfold baseRate
    ring
  unfold cqPs
  dsimp only
  by_cases ho : self.active Oil = true
  · by_cases hg : self.active Gas = true
    · obtain ⟨h1, h2, h3⟩ := hpos ho hg
      have hcond : (self.active Oil && self.active Gas) = true := by rw [ho, hg]; rfl
      rw [if_pos hcond, if_pos ⟨ho, hg⟩, rd_set, rd_set, rd_set]
      simp only [List.length_set, List.length_map, List.length_range]
      rw [hbase _ h1, hbase _ h2]
      by_cases hpg : p = self.phasePos Gas
      · rw [if_pos hpg, if_neg (fun h => h3 (h.1.trans hpg)), if_pos ⟨hpg.symm, h2⟩]
      · rw [if_neg hpg]
        by_cases hpo : p = self.phasePos Oil
        · rw [if_pos hpo, if_pos ⟨hpo.symm, h1⟩, if_neg (fun h => h3 h.1.symm)]
        · rw [if_neg hpo, if_neg (fun h => hpo h.1.symm), if_neg (fun h => hpg h.1.symm),
            hbase _ hp]
    · have hcond : ¬ (self.active Oil && self.active Gas) = true := by
        intro h
        simp only [Bool.and_eq_true] at h
        exact hg h.2
      rw [if_neg hcond, if_neg (fun h => hg h.2)]
      exact hbase p hp
  · have hcond : ¬ (self.active Oil && self.active Gas) = true := by
      intro h
      simp only [Bool.and_eq_true] at h
      exact ho h.1
    rw [if_neg hcond, if_neg (fun h => ho h.1)]
    exact hbase p hp

/-- What `computeWellFlux` returns in the branch `drawdown > 0` when flow is not suppressed. -/
theorem computeWellFlux_drawdown_pos (E : External) (self : StandardWellsDense) (w : Nat)
    (Tw : ℚ) (iq : IntensiveQuantities) (bhp cdp : ℚ) (allow_cf : Bool) (cq_s : List ℚ)
    (hdd : drawdownOf E iq bhp cdp > 0)
    (hflow : ¬ (allow_cf = false ∧ self.wellType w = WellType.INJECTOR)) :
    computeWellFlux E self w Tw iq bhp cdp allow_cf cq_s =
      some (writeRates self.np (cqPs self Tw iq.Rs iq.Rv (bPerfcells E self iq)
        (mobPerfcells E self iq) (drawdownOf E iq bhp cdp)) cq_s) := by
  unfold computeWellFlux
  dsimp only
  rw [if_pos hdd]
  have hnot : ¬ ((!allow_cf && decide (self.wellType w = WellType.INJECTOR)) = true) := by
    intro h
    simp only [Bool.and_eq_true, Bool.not_eq_true', decide_eq_true_eq] at h
    exact hflow h
  rw [if_neg hnot]

/-- C10. For every connection with `drawdown > 0` where flow is not suppressed,
`computeWellFlux` returns for each phase `p` the base rate `-Tw * mobility_p * drawdown *
invB_p`; when oil and gas are both active the gas rate is the base gas rate plus `Rs` times the
base oil rate, the oil rate is the base oil rate plus `Rv` times the base gas rate, and every
other rate (water) is its base rate. -/
theorem C10_rates_for_positive_drawdown (E : External) (self : StandardWellsDense) (w : Nat)
    (Tw : ℚ) (iq : IntensiveQuantities) (bhp cdp : ℚ) (allow_cf : Bool) (cq_s : List ℚ)
    (hdd : drawdownOf E iq bhp cdp > 0)
    (hflow : ¬ (allow_cf = false ∧ self.wellType w = WellType.INJECTOR))
    (hlen : cq_s.length = self.np)
    (hpos : self.active Oil = true → self.active Gas = true →
      self.phasePos Oil < self.np ∧ self.phasePos Gas < self.np ∧
      self.phasePos Oil ≠ self.phasePos Gas) :
    ∃ r, computeWellFlux E self w Tw iq bhp cdp allow_cf cq_s = some r ∧ r.length = self.np ∧
      ∀ p, p < self.np →
        rd r p =
          if self.active Oil = true ∧ self.active Gas = true then
            if p = self.phasePos Gas then
              baseRate E Tw iq (drawdownOf E iq bhp cdp) (self.phasePos Gas)
                + iq.Rs * baseRate E Tw iq (drawdownOf E iq bhp cdp) (self.phasePos Oil)
            else if p = self.phasePos Oil then
              baseRate E Tw iq (drawdownOf E iq bhp cdp) (self.phasePos Oil)
                + iq.Rv * baseRate E Tw iq (drawdownOf E iq bhp cdp) (self.phasePos Gas)
            else baseRate E Tw iq (drawdownOf E iq bhp cdp) p
          else baseRate E Tw iq (drawdownOf E iq bhp cdp) p := by
  refine ⟨_, computeWellFlux_drawdown_pos E self w Tw iq bhp cdp allow_cf cq_s hdd hflow,
    writeRates_length _ _ _ hlen, ?_⟩
  intro p hp
  rw [writeRates_rd _ _ _ hlen p hp]
  exact rd_cqPs E self Tw iq _ p hp hpos

/-- C10 at the sample producer and cell with `bhp = 200`, `Tw = 2`: the base rates are
-100, -100, -30000 and the function returns water -100, oil -130, gas -31000. -/
theorem C10_rates_for_positive_drawdown_witness :
    drawdownOf sampleExternal sampleCell 200 0 > 0 ∧
    ¬ (false = false ∧ sampleProducerModel.wellType 0 = WellType.INJECTOR) ∧
    computeWellFlux sampleExternal sampleProducerModel 0 2 sampleCell 200 0 false [0, 0, 0]
      = some [-100, -130, -31000] ∧
    ∃ r, computeWellFlux sampleExternal sampleProducerModel 0 2 sampleCell 200 0 false [0, 0, 0]
        = some r ∧ r.length = sampleProducerModel.np ∧
      ∀ p, p < sampleProducerModel.np →
        rd r p =
          if sampleProducerModel.active Oil = true ∧ sampleProducerModel.active Gas = true then
            if p = sampleProducerModel.phasePos Gas then
              baseRate sampleExternal 2 sampleCell (drawdownOf sampleExternal sampleCell 200 0)
                  (sampleProducerModel.phasePos Gas)
                + sampleCell.Rs * baseRate sampleExternal 2 sampleCell
                    (drawdownOf sampleExternal sampleCell 200 0) (sampleProducerModel.phasePos Oil)
            else if p = sampleProducerModel.phasePos Oil then
              baseRate sampleExternal 2 sampleCell (drawdownOf sampleExternal sampleCell 200 0)
                  (sampleProducerModel.phasePos Oil)
                + sampleCell.Rv * baseRate sampleExternal 2 sampleCell
                    (drawdownOf sampleExternal sampleCell 200 0) (sampleProducerModel.phasePos Gas)
            else baseRate sampleExternal 2 sampleCell (drawdownOf sampleExternal sampleCell 200 0) p
          else baseRate sampleExternal 2 sampleCell (drawdownOf sampleExternal sampleCell 200 0) p :=
  ⟨by decide!, by decide, by decide!,
    C10_rates_for_positive_drawdown sampleExternal sampleProducerModel 0 2 sampleCell 200 0 false
      [0, 0, 0] (by decide!) (by decide) (by decide) (fun _ _ => by decide)⟩


theorem baseRate_neg (E : External) (Tw : ℚ) (iq : IntensiveQuantities) (dd : ℚ) (p : Nat)
    (hTw : 0 < Tw) (hdd : 0 < dd) (hmob : 0 < iq.mobility (flowPhaseToEbosPhaseIdx E p))
    (hb : 0 < iq.invB (flowPhaseToEbosPhaseIdx E p)) : baseRate E Tw iq dd p < 0 := by
  unfold baseRate
  have h := mul_pos (mul_pos (mul_pos hTw hmob) hdd) hb
  linarith

theorem foldl_add_pos (f : Nat → ℚ) (l : List Nat) (t : ℚ) (ht : 0 < t)
    (hf : ∀ k, k ∈ l → 0 < f k) : 0 < l.foldl (fun t k => t + f k) t := by
  induction l generalizing t with
  | nil => exact ht
  | cons a l ih =>
    rw [List.foldl_cons]
    apply ih
    · have := hf a (List.mem_cons_self a l)
      linarith
    · intro k hk
      exact hf k (List.mem_cons_of_mem a hk)

theorem totalMob_pos (self : StandardWellsDense) (mob : List ℚ) (hnp : 0 < self.np)
    (hmob : ∀ p, p < self.np → 0 < rd mob p) : 0 < totalMob self mob := by
  unfold totalMob
  apply foldl_add_pos (fun k => rd mob (k + 1))
  · exact hmob 0 hnp
  · intro k hk
    rw [List.mem_range] at hk
    exact hmob (k + 1) (by omega)

/-- What `computeWellFlux` returns in the branch `drawdown <= 0` when flow is not suppressed
and the volume ratio has the non-zero value `v`. -/
theorem computeWellFlux_drawdown_nonpos (E : External) (self : StandardWellsDense) (w : Nat)
    (Tw : ℚ) (iq : IntensiveQuantities) (bhp cdp : ℚ) (allow_cf : Bool) (cq_s : List ℚ) (v : ℚ)
    (hdd : ¬ drawdownOf E iq bhp cdp > 0)
    (hflow : ¬ (allow_cf = false ∧ self.wellType w = WellType.PRODUCER))
    (hv : volumeRatioOf E self iq (bhp + cdp) (cmixOf self w) (bPerfcells E self iq) = some v)
    (hv0 : v ≠ 0) :
    computeWellFlux E self w Tw iq bhp cdp allow_cf cq_s =
      some (writeRates self.np ((cmixOf self w).map (fun c => c *
        (-Tw * (totalMob self (mobPerfcells E self iq) * drawdownOf E iq bhp cdp) / v))) cq_s) := by
  unfold computeWellFlux
  dsimp only
  rw [if_neg hdd]
  have hnot : ¬ ((!allow_cf && decide (self.wellType w = WellType.PRODUCER)) = true) := by
    intro h
    simp only [Bool.and_eq_true, Bool.not_eq_true', decide_eq_true_eq] at h
    exact hflow h
  rw [if_neg hnot, hv]
  simp only [sdiv, hv0, if_false, Option.bind_eq_bind, Option.some_bind, Option.pure_def]

/-- C9 (amended). For every connection with positive transmissibility, positive phase
mobilities and positive inverse formation volume factors for which flow is not suppressed, the
rates computed by `computeWellFlux` are negative when fluid flows from the reservoir into the
wellbore (`drawdown > 0`), given non-negative `Rs` and `Rv`; and when fluid flows from the
wellbore into the reservoir (`drawdown < 0`) and the volume ratio is positive, the rate of
every phase with a positive wellbore fraction is positive. -/
theorem C9_rate_signs (E : External) (self : StandardWellsDense) (w : Nat)
    (Tw : ℚ) (iq : IntensiveQuantities) (bhp cdp : ℚ) (allow_cf : Bool) (cq_s : List ℚ)
    (hTw : 0 < Tw)
    (hmob : ∀ p, p < self.np → 0 < iq.mobility (flowPhaseToEbosPhaseIdx E p))
    (hb : ∀ p, p < self.np → 0 < iq.invB (flowPhaseToEbosPhaseIdx E p))
    (hlen : cq_s.length = self.np)
    (hpos : self.active Oil = true → self.active Gas = true →
      self.phasePos Oil < self.np ∧ self.phasePos Gas < self.np ∧
      self.phasePos Oil ≠ self.phasePos Gas) :
    (drawdownOf E iq bhp cdp > 0 →
      ¬ (allow_cf = false ∧ self.wellType w = WellType.INJECTOR) →
      0 ≤ iq.Rs → 0 ≤ iq.Rv →
      ∃ r, computeWellFlux E self w Tw iq bhp cdp allow_cf cq_s = some r ∧
        ∀ p, p < self.np → rd r p < 0) ∧
    (drawdownOf E iq bhp cdp < 0 →
      ¬ (allow_cf = false ∧ self.wellType w = WellType.PRODUCER) →
      ∀ v, volumeRatioOf E self iq (bhp + cdp) (cmixOf self w) (bPerfcells E self iq) = some v →
      0 < v →
      ∃ r, computeWellFlux E self w Tw iq bhp cdp allow_cf cq_s = some r ∧
        ∀ p, p < self.np → 0 < wellVolumeFraction self w p → 0 < rd r p) := by
  constructor
  · intro hdd hflow hrs hrv
    refine ⟨_, computeWellFlux_drawdown_pos E self w Tw iq bhp cdp allow_cf cq_s hdd hflow, ?_⟩
    intro p hp
    rw [writeRates_rd _ _ _ hlen p hp, rd_cqPs E self Tw iq _ p hp hpos]
    have hneg : ∀ q, q < self.np → baseRate E Tw iq (drawdownOf E iq bhp cdp) q < 0 :=
      fun q hq => baseRate_neg E Tw iq _ q hTw hdd (hmob q hq) (hb q hq)
    by_cases hog : self.active Oil = true ∧ self.active Gas = true
    · obtain ⟨h1, h2, -⟩ := hpos hog.1 hog.2
      have ho := hneg _ h1
      have hg := hneg _ h2
      rw [if_pos hog]
      split_ifs
      · nlinarith [mul_nonneg hrs (le_of_lt (neg_pos.mpr ho))]
      · nlinarith [mul_nonneg hrv (le_of_lt (neg_pos.mpr hg))]
      · exact hneg p hp
    · rw [if_neg hog]
      exact hneg p hp
  · intro hdd hflow v hv hvpos
    have hnp_or : self.np = 0 ∨ 0 < self.np := Nat.eq_zero_or_pos self.np
    refine ⟨_, computeWellFlux_drawdown_nonpos E self w Tw iq bhp cdp allow_cf cq_s v
      (by linarith) hflow hv (ne_of_gt hvpos), ?_⟩
    intro p hp hc
    have hnp : 0 < self.np := by omega
    rw [writeRates_rd _ _ _ hlen p hp]
    have hmobpos : 0 < totalMob self (mobPerfcells E self iq) := by
      apply totalMob_pos self _ hnp
      intro q hq
      rw [rd_mobPerfcells E self iq q hq]
      exact hmob q hq
    have hcq : 0 < -Tw * (totalMob self (mobPerfcells E self iq) * drawdownOf E iq bhp cdp) := by
      have := mul_pos hTw (mul_pos hmobpos (neg_pos.mpr hdd))
      linarith
    have hrd : rd ((cmixOf self w).map (fun c => c *
        (-Tw * (totalMob self (mobPerfcells E self iq) * drawdownOf E iq bhp cdp) / v))) p
        = wellVolumeFraction self w p *
          (-Tw * (totalMob self (mobPerfcells E self iq) * drawdownOf E iq bhp cdp) / v) := by
      unfold cmixOf
      rw [List.map_map]
      exact rd_map_range _ _ _ hp
    rw [hrd]
    exact mul_pos hc (div_pos hcq hvpos)

/-- C9 (amended) at the sample cell: the producer at `bhp = 200` (drawdown 50) has negative
rates in all phases, and the water injector at `bhp = 300` (drawdown -50), whose volume ratio
is 1, has a positive water rate. -/
theorem C9_rate_signs_witness :
    (∃ r, computeWellFlux sampleExternal sampleProducerModel 0 2 sampleCell 200 0 false [0, 0, 0]
        = some r ∧ ∀ p, p < sampleProducerModel.np → rd r p < 0) ∧
    (∃ r, computeWellFlux sampleExternal sampleInjectorModel 0 2 sampleCell 300 0 false [0, 0, 0]
        = some r ∧
      ∀ p, p < sampleInjectorModel.np → 0 < wellVolumeFraction sampleInjectorModel 0 p →
        0 < rd r p) :=
  ⟨(C9_rate_signs sampleExternal sampleProducerModel 0 2 sampleCell 200 0 false [0, 0, 0]
      (by decide!) (by decide!) (by decide!) (by decide)
      (fun _ _ => by decide)).1 (by decide!) (by decide) (by decide!) (by decide!),
   (C9_rate_signs sampleExternal sampleInjectorModel 0 2 sampleCell 300 0 false [0, 0, 0]
      (by decide!) (by decide!) (by decide!) (by decide)
      (fun _ _ => by decide)).2 (by decide!) (by decide) 1 (by decide!) (by decide!)⟩

/-- C9 fails as stated: with positive transmissibility, mobilities and inverse formation volume
factors, cell pressure 250 above the wellbore pressure 200 (flow from the reservoir into the
wellbore) gives the producer the negative rates -100, -130, -31000, and cell pressure 250 below
the wellbore pressure 300 (flow from the wellbore into the reservoir) gives the injector the
positive water rate 600. -/
theorem C9_counterexample :
    drawdownOf sampleExternal sampleCell 200 0 = 50 ∧
    computeWellFlux sampleExternal sampleProducerModel 0 2 sampleCell 200 0 true [0, 0, 0]
      = some [-100, -130, -31000] ∧
    drawdownOf sampleExternal sampleCell 300 0 = -50 ∧
    computeWellFlux sampleExternal sampleInjectorModel 0 2 sampleCell 300 0 true [0, 0, 0]
      = some [600, 0, 0] := by
  decide!


theorem cmixOf_single (self : StandardWellsDense) (w : Nat) (hnp : self.np = 1) :
    cmixOf self w = [wellVolumeFraction self w 0] := by
  rw [cmixOf, hnp]
  rfl

theorem bPerfcells_single (E : External) (self : StandardWellsDense) (iq : IntensiveQuantities)
    (hnp : self.np = 1) : bPerfcells E self iq = [iq.invB (flowPhaseToEbosPhaseIdx E 0)] := by
  rw [bPerfcells, hnp]
  rfl

/-- The volume ratio of a well with a single active phase: the wellbore fraction read at
position 0 over the inverse formation volume factor read at position 0. -/
theorem volumeRatioOf_single (E : External) (self : StandardWellsDense) (w : Nat)
    (iq : IntensiveQuantities) (wp : ℚ) (hs : SingleActivePhase self)
    (hb : iq.invB (flowPhaseToEbosPhaseIdx E 0) ≠ 0) :
    volumeRatioOf E self iq wp (cmixOf self w) (bPerfcells E self iq)
      = some (wellVolumeFraction self w 0 / iq.invB (flowPhaseToEbosPhaseIdx E 0)) := by
  obtain ⟨hnp, hcase⟩ := hs
  rw [cmixOf_single self w hnp, bPerfcells_single E self iq hnp]
  rcases hcase with ⟨h1, h2, h3, h4⟩ | ⟨h1, h2, h3, h4⟩ | ⟨h1, h2, h3, h4⟩
  · simp [volumeRatioOf, h1, h2, h3, h4, sdiv, rd, hb]
  · simp [volumeRatioOf, h1, h2, h3, h4, sdiv, rd, hb]
  · simp [volumeRatioOf, h1, h2, h3, h4, sdiv, rd, hb]

theorem list_single_of_rd (l : List ℚ) (v : ℚ) (hlen : l.length = 1) (h : rd l 0 = v) :
    l = [v] := by
  match l, hlen with
  | [a], _ =>
    simp only [rd, List.getD_cons_zero] at h
    rw [h]

/-- C8 (amended). For every well with a single active phase and every connection whose drawdown
is zero, for any transmissibility, mobility and non-zero inverse formation volume factor:
when flow is suppressed (a producer with cross-flow disallowed) `computeWellFlux` leaves the
rate vector as it was passed in; otherwise it returns the rate 0 when the wellbore fraction of
the phase is non-zero, and it divides zero by a zero volume ratio when that fraction is zero. -/
theorem C8_zero_drawdown_single_phase (E : External) (self : StandardWellsDense) (w : Nat)
    (Tw : ℚ) (iq : IntensiveQuantities) (bhp cdp : ℚ) (allow_cf : Bool) (cq_s : List ℚ)
    (hs : SingleActivePhase self)
    (hdd : drawdownOf E iq bhp cdp = 0)
    (hb : iq.invB (flowPhaseToEbosPhaseIdx E 0) ≠ 0)
    (hlen : cq_s.length = 1) :
    ((allow_cf = false ∧ self.wellType w = WellType.PRODUCER) →
      computeWellFlux E self w Tw iq bhp cdp allow_cf cq_s = some cq_s) ∧
    (¬ (allow_cf = false ∧ self.wellType w = WellType.PRODUCER) →
      wellVolumeFraction self w 0 ≠ 0 →
      computeWellFlux E self w Tw iq bhp cdp allow_cf cq_s = some [0]) ∧
    (¬ (allow_cf = false ∧ self.wellType w = WellType.PRODUCER) →
      wellVolumeFraction self w 0 = 0 →
      computeWellFlux E self w Tw iq bhp cdp allow_cf cq_s = none) := by
  have hnp : self.np = 1 := hs.1
  have hvr := volumeRatioOf_single E self w iq (bhp + cdp) hs hb
  have hnd : ¬ drawdownOf E iq bhp cdp > 0 := by rw [hdd]; exact lt_irrefl 0
  refine ⟨?_, ?_, ?_⟩
  · rintro ⟨h1, h2⟩
    unfold computeWellFlux
    dsimp only
    rw [if_neg hnd]
    simp [h1, h2]
  · intro hflow hf
    have hv0 : wellVolumeFraction self w 0 / iq.invB (flowPhaseToEbosPhaseIdx E 0) ≠ 0 :=
      div_ne_zero hf hb
    rw [computeWellFlux_drawdown_nonpos E self w Tw iq bhp cdp allow_cf cq_s _ hnd hflow hvr hv0]
    congr 1
    apply list_single_of_rd
    · rw [writeRates_length _ _ _ (by rw [hlen, hnp]), hnp]
    · rw [writeRates_rd _ _ _ (by rw [hlen, hnp]) 0 (by omega), cmixOf_single self w hnp, hdd]
      simp [rd]
  · intro hflow hf
    unfold computeWellFlux
    dsimp only
    rw [if_neg hnd]
    have hnot : ¬ ((!allow_cf && decide (self.wellType w = WellType.PRODUCER)) = true) := by
      intro h
      simp only [Bool.and_eq_true, Bool.not_eq_true', decide_eq_true_eq] at h
      exact hflow h
    rw [if_neg hnot, hvr, hf]
    simp [sdiv]

/-- C8 (amended) at the water injector with wellbore fraction 1, `bhp` 200e5 Pa and cell
pressure 200e5 Pa: the water rate is 0. -/
theorem C8_zero_drawdown_single_phase_witness :
    SingleActivePhase sampleWaterInjector ∧
    drawdownOf sampleExternal sampleCell200 20000000 0 = 0 ∧
    computeWellFlux sampleExternal sampleWaterInjector 0 2 sampleCell200 20000000 0 false [0]
      = some [0] :=
  ⟨⟨by decide, Or.inl ⟨by decide, by decide, by decide, by decide⟩⟩, by decide!,
    (C8_zero_drawdown_single_phase sampleExternal sampleWaterInjector 0 2 sampleCell200 20000000 0
      false [0] ⟨by decide, Or.inl ⟨by decide, by decide, by decide, by decide⟩⟩ (by decide!)
      (by decide!) (by decide)).2.1 (by decide) (by decide!)⟩

/-- C8 fails as stated: at zero drawdown a single-phase well whose wellbore fraction is 0 has
volume ratio 0 and the rate is the quotient of zero by zero, not the value 0; and for a
producer with cross-flow disallowed the function returns at once, leaving the entry 5 that the
rate vector held. -/
theorem C8_counterexample :
    SingleActivePhase { sampleWaterInjector with wellVariables_ := [0, 0] } ∧
    drawdownOf sampleExternal sampleCell200 20000000 0 = 0 ∧
    computeWellFlux sampleExternal { sampleWaterInjector with wellVariables_ := [0, 0] } 0 2
      sampleCell200 20000000 0 false [0] = none ∧
    volumeRatioOf sampleExternal { sampleWaterInjector with wellVariables_ := [0, 0] }
      sampleCell200 20000000
      (cmixOf { sampleWaterInjector with wellVariables_ := [0, 0] } 0)
      (bPerfcells sampleExternal { sampleWaterInjector with wellVariables_ := [0, 0] }
        sampleCell200) = some 0 ∧
    computeWellFlux sampleExternal
      { sampleWaterInjector with
        wells_ := { sampleWaterInjector.wells_ with type := [WellType.PRODUCER] } } 0 2
      sampleCell200 20000000 0 false [5] = some [5] :=
  ⟨⟨by decide, Or.inl ⟨by decide, by decide, by decide, by decide⟩⟩, by decide!, by decide!,
    by decide!, by decide!⟩

/-! ## Cross-flow suppression -/

/-- What `computeWellFlux` returns when flow is suppressed: the vector it was given. -/
theorem computeWellFlux_suppressed (E : External) (self : StandardWellsDense) (w : Nat)
    (Tw : ℚ) (iq : IntensiveQuantities) (bhp cdp : ℚ) (cq_s : List ℚ)
    (hsup : (self.wellType w = WellType.INJECTOR ∧ drawdownOf E iq bhp cdp > 0) ∨
      (self.wellType w = WellType.PRODUCER ∧ ¬ drawdownOf E iq bhp cdp > 0)) :
    computeWellFlux E self w Tw iq bhp cdp false cq_s = some cq_s := by
  unfold computeWellFlux
  dsimp only
  rcases hsup with ⟨ht, hd⟩ | ⟨ht, hd⟩
  · rw [if_pos hd]
    simp [ht]
  · rw [if_neg hd]
    simp [ht]

theorem storeLoop_wellPotentials (base : Nat) (v : List ℚ) (ws : WellState) :
    ∀ k, (forRange k (fun p (st : WellState) =>
        { st with wellPotentials := st.wellPotentials.set (base + p) (rd v p) })
        ws).wellPotentials
      = forRange k (fun p (l : List ℚ) => l.set (base + p) (rd v p)) ws.wellPotentials := by
  intro k
  induction k with
  | zero => rfl
  | succ k ih => rw [forRange_succ, forRange_succ, ← ih]

theorem storeLoop_list (base : Nat) (v l : List ℚ) :
    ∀ k, (forRange k (fun p (c : List ℚ) => c.set (base + p) (rd v p)) l).length = l.length ∧
      ∀ p, p < k → base + p < l.length →
        rd (forRange k (fun p (c : List ℚ) => c.set (base + p) (rd v p)) l) (base + p)
          = rd v p := by
  intro k
  induction k with
  | zero =>
    refine ⟨rfl, ?_⟩
    intro p hp; omega
  | succ k ih =>
    obtain ⟨i1, i2⟩ := ih
    rw [forRange_succ]
    refine ⟨by rw [List.length_set, i1], ?_⟩
    intro p hp hlt
    rw [rd_set]
    by_cases hpk : k = p
    · rw [if_pos ⟨by rw [hpk], by rw [i1, hpk]; exact hlt⟩, hpk]
    · rw [if_neg (fun h => hpk (by omega))]
      exact i2 p (by omega) hlt

/-- C11 (amended). For every call of `computeWellFlux` with cross-flow disallowed, if the well
is an INJECTOR and `drawdown > 0`, or a PRODUCER and `drawdown <= 0`, the function returns
without writing: the phase-rate vector on return is the vector on entry.  Its entries are zero
when the caller passes a zero vector, as `computeWellPotentials` does, whose stored potentials
of such a connection are therefore zero. -/
theorem C11_suppressed_flow_leaves_vector (E : External) (self : StandardWellsDense) (w : Nat)
    (Tw : ℚ) (iq : IntensiveQuantities) (bhp cdp : ℚ) (cq_s : List ℚ)
    (hsup : (self.wellType w = WellType.INJECTOR ∧ drawdownOf E iq bhp cdp > 0) ∨
      (self.wellType w = WellType.PRODUCER ∧ ¬ drawdownOf E iq bhp cdp > 0)) :
    computeWellFlux E self w Tw iq bhp cdp false cq_s = some cq_s ∧
    (∀ n p, computeWellFlux E self w Tw iq bhp cdp false (List.replicate n 0)
        = some (List.replicate n 0) ∧ rd (List.replicate n 0) p = 0) ∧
    (∀ (cell : Nat → IntensiveQuantities) (perf : Nat) (well_state : WellState),
      cell (self.wells_.well_cells.getD perf 0) = iq →
      rd self.well_perforation_pressure_diffs_ perf = cdp →
      ∃ ws, computeWellPotentialsPerf E self cell bhp false w perf well_state = some ws ∧
        ∀ p, p < self.np → perf * self.np + p < well_state.wellPotentials.length →
          rd ws.wellPotentials (perf * self.np + p) = 0) := by
  refine ⟨computeWellFlux_suppressed E self w Tw iq bhp cdp cq_s hsup, ?_, ?_⟩
  · intro n p
    exact ⟨computeWellFlux_suppressed E self w Tw iq bhp cdp _ hsup, rd_replicate_zero n p⟩
  · intro cell perf well_state hcell hcdp
    have hflux := computeWellFlux_suppressed E self w (rd self.wells_.WI perf) iq bhp cdp
      (List.replicate self.np 0) hsup
    refine ⟨forRange self.np (fun p (st : WellState) =>
      { st with wellPotentials :=
          st.wellPotentials.set (perf * self.np + p) (rd (List.replicate self.np 0) p) })
      well_state, ?_, ?_⟩
    · unfold computeWellPotentialsPerf
      dsimp only
      rw [hcell, hcdp, hflux]
      rfl
    · intro p hp hlt
      rw [storeLoop_wellPotentials,
        (storeLoop_list (perf * self.np) _ _ self.np).2 p hp hlt, rd_replicate_zero]

/-- C11 (amended) at the sample injector with `bhp = 200` below the cell pressure 250: the
vector `[5, 5, 5]` is returned as passed in, and a zero vector stays zero. -/
theorem C11_suppressed_flow_leaves_vector_witness :
    ((sampleInjectorModel.wellType 0 = WellType.INJECTOR ∧
        drawdownOf sampleExternal sampleCell 200 0 > 0) ∨
      (sampleInjectorModel.wellType 0 = WellType.PRODUCER ∧
        ¬ drawdownOf sampleExternal sampleCell 200 0 > 0)) ∧
    computeWellFlux sampleExternal sampleInjectorModel 0 2 sampleCell 200 0 false [5, 5, 5]
      = some [5, 5, 5] ∧
    computeWellFlux sampleExternal sampleInjectorModel 0 2 sampleCell 200 0 false [0, 0, 0]
      = some [0, 0, 0] :=
  ⟨Or.inl ⟨by decide, by decide!⟩,
    (C11_suppressed_flow_leaves_vector sampleExternal sampleInjectorModel 0 2 sampleCell 200 0
      [5, 5, 5] (Or.inl ⟨by decide, by decide!⟩)).1,
    by decide!⟩

/-- C11 fails as stated: with cross-flow disallowed, an injector at `drawdown = 50 > 0` and a
producer at `drawdown = -50 <= 0` both leave the entries 5 that the rate vector held on
entry. -/
theorem C11_counterexample :
    sampleInjectorModel.wellType 0 = WellType.INJECTOR ∧
    drawdownOf sampleExternal sampleCell 200 0 = 50 ∧
    computeWellFlux sampleExternal sampleInjectorModel 0 2 sampleCell 200 0 false [5, 5, 5]
      = some [5, 5, 5] ∧
    sampleProducerModel.wellType 0 = WellType.PRODUCER ∧
    drawdownOf sampleExternal sampleCell 300 0 = -50 ∧
    computeWellFlux sampleExternal sampleProducerModel 0 2 sampleCell 300 0 false [5, 5, 5]
      = some [5, 5, 5] := by
  decide!

/-! ## The unguarded divisions of the branch `drawdown <= 0` -/

theorem sdiv_zero (a : ℚ) : sdiv a 0 = none := by
  simp [sdiv]

/-- With oil and gas active, a zero miscibility denominator leaves the volume ratio without a
value. -/
theorem volumeRatioOf_none_of_denominator (E : External) (self : StandardWellsDense)
    (iq : IntensiveQuantities) (wp : ℚ) (cmix_s b : List ℚ)
    (ho : self.active Oil = true) (hg : self.active Gas = true)
    (hd : miscibilityDenominator E self iq wp cmix_s = 0) :
    volumeRatioOf E self iq wp cmix_s b = none := by
  unfold miscibilityDenominator perfRatios at hd
  dsimp only at hd
  unfold volumeRatioOf
  simp only [ho, hg, Bool.and_self, if_true]
  by_cases hwa : self.active Water = true
  · simp only [hwa, if_true]
    cases sdiv (rd cmix_s (self.phasePos Water)) (rd b (self.phasePos Water)) with
    | none => rfl
    | some q =>
      simp only [Option.bind_eq_bind, Option.some_bind, Option.pure_def]
      rw [hd, sdiv_zero]
      rfl
  · simp only [hwa, if_false, Bool.false_eq_true]
    simp only [Option.bind_eq_bind, Option.some_bind, Option.pure_def]
    rw [hd, sdiv_zero]
    rfl

/-- With three active phases the fractions of lines 612-650 are the three renormalization
steps applied to (water, 1 - water - gas, gas). -/
theorem normalizedFractions_three (self : StandardWellsDense) (fw fg : ℚ)
    (hnp : self.np = 3) (hw : self.active Water = true) (hg : self.active Gas = true) :
    normalizedFractions self fw fg =
      [(renormOil (renormGas (renormWater (fw, 1 - fw - fg, fg)))).1,
       (renormOil (renormGas (renormWater (fw, 1 - fw - fg, fg)))).2.1,
       (renormOil (renormGas (renormWater (fw, 1 - fw - fg, fg)))).2.2] := by
  have hw0 : self.active 0 = true := hw
  have hg2 : self.active 2 = true := hg
  unfold normalizedFractions
  by_cases h1 : fw < 0
  · simp only [hnp, hw0, hg2, if_true, Water, Oil, Gas, List.replicate, List.set, rd,
      List.getD_cons_zero, List.getD_cons_succ, h1, renormWater]
    by_cases h2 : fg / (1 - fw) < 0
    · simp only [h2, if_true, List.set, List.getD_cons_zero, List.getD_cons_succ, renormGas]
      by_cases h3 : (1 - fw - fg) / (1 - fw) / (1 - fg / (1 - fw)) < 0
      · simp only [h3, if_true, List.set, List.getD_cons_zero, List.getD_cons_succ, renormOil]
      · simp only [h3, if_false, List.set, List.getD_cons_zero, List.getD_cons_succ, renormOil]
    · simp only [h2, if_false, List.set, List.getD_cons_zero, List.getD_cons_succ, renormGas]
      by_cases h3 : (1 - fw - fg) / (1 - fw) < 0
      · simp only [h3, if_true, List.set, List.getD_cons_zero, List.getD_cons_succ, renormOil]
      · simp only [h3, if_false, List.set, List.getD_cons_zero, List.getD_cons_succ, renormOil]
  · simp only [hnp, hw0, hg2, if_true, if_false, Water, Oil, Gas, List.replicate, List.set, rd,
      List.getD_cons_zero, List.getD_cons_succ, h1, renormWater]
    by_cases h2 : fg < 0
    · simp only [h2, if_true, List.set, List.getD_cons_zero, List.getD_cons_succ, renormGas]
      by_cases h3 : (1 - fw - fg) / (1 - fg) < 0
      · simp only [h3, if_true, List.set, List.getD_cons_zero, List.getD_cons_succ, renormOil]
      · simp only [h3, if_false, List.set, List.getD_cons_zero, List.getD_cons_succ, renormOil]
    · simp only [h2, if_false, List.set, List.getD_cons_zero, List.getD_cons_succ, renormGas]
      by_cases h3 : 1 - fw - fg < 0
      · simp only [h3, if_true, List.set, List.getD_cons_zero, List.getD_cons_succ, renormOil]
      · simp only [h3, if_false, List.set, List.getD_cons_zero, List.getD_cons_succ, renormOil]

theorem renormWater_spec (t : ℚ × ℚ × ℚ) (hsum : t.1 + t.2.1 + t.2.2 = 1) :
    (renormWater t).1 + (renormWater t).2.1 + (renormWater t).2.2 = 1 ∧
    0 ≤ (renormWater t).1 := by
  unfold renormWater
  by_cases h : t.1 < 0
  · rw [if_pos h]
    have hd : 1 - t.1 ≠ 0 := by linarith
    refine ⟨?_, le_refl 0⟩
    show 0 + t.2.1 / (1 - t.1) + t.2.2 / (1 - t.1) = 1
    field_simp
    linarith
  · rw [if_neg h]
    exact ⟨hsum, le_of_not_lt h⟩

theorem renormGas_spec (t : ℚ × ℚ × ℚ) (hsum : t.1 + t.2.1 + t.2.2 = 1) (hw : 0 ≤ t.1) :
    (renormGas t).1 + (renormGas t).2.1 + (renormGas t).2.2 = 1 ∧
    0 ≤ (renormGas t).1 ∧ 0 ≤ (renormGas t).2.2 := by
  unfold renormGas
  by_cases h : t.2.2 < 0
  · rw [if_pos h]
    have hd : 1 - t.2.2 ≠ 0 := by linarith
    have hp : 0 < 1 - t.2.2 := by linarith
    refine ⟨?_, div_nonneg hw (le_of_lt hp), le_refl 0⟩
    show t.1 / (1 - t.2.2) + t.2.1 / (1 - t.2.2) + 0 = 1
    field_simp
    linarith
  · rw [if_neg h]
    exact ⟨hsum, hw, le_of_not_lt h⟩

theorem renormOil_spec (t : ℚ × ℚ × ℚ) (hsum : t.1 + t.2.1 + t.2.2 = 1) (hw : 0 ≤ t.1)
    (hg : 0 ≤ t.2.2) :
    (renormOil t).1 + (renormOil t).2.1 + (renormOil t).2.2 = 1 ∧
    0 ≤ (renormOil t).1 ∧ 0 ≤ (renormOil t).2.1 ∧ 0 ≤ (renormOil t).2.2 := by
  unfold renormOil
  by_cases h : t.2.1 < 0
  · rw [if_pos h]
    have hd : 1 - t.2.1 ≠ 0 := by linarith
    have hp : 0 < 1 - t.2.1 := by linarith
    refine ⟨?_, div_nonneg hw (le_of_lt hp), le_refl 0, div_nonneg hg (le_of_lt hp)⟩
    show t.1 / (1 - t.2.1) + 0 + t.2.2 / (1 - t.2.1) = 1
    field_simp
    linarith
  · rw [if_neg h]
    exact ⟨hsum, hw, le_of_not_lt h, hg⟩

/-- With three active phases the fractions of lines 612-650 are non-negative and sum to 1,
whatever the updated water and gas fractions are. -/
theorem normalizedFractions_spec (self : StandardWellsDense) (fw fg : ℚ)
    (hnp : self.np = 3) (hw : self.active Water = true) (hg : self.active Gas = true) :
    0 ≤ rd (normalizedFractions self fw fg) Water ∧
    0 ≤ rd (normalizedFractions self fw fg) Gas ∧
    0 ≤ 1 - rd (normalizedFractions self fw fg) Water - rd (normalizedFractions self fw fg) Gas ∧
    rd (normalizedFractions self fw fg) Oil
      = 1 - rd (normalizedFractions self fw fg) Water - rd (normalizedFractions self fw fg) Gas := by
  rw [normalizedFractions_three self fw fg hnp hw hg]
  obtain ⟨a1, a2⟩ := renormWater_spec (fw, 1 - fw - fg, fg) (by show fw + (1 - fw - fg) + fg = 1; ring)
  obtain ⟨b1, b2, b3⟩ := renormGas_spec _ a1 a2
  obtain ⟨c1, c2, c3, c4⟩ := renormOil_spec _ b1 b2 b3
  simp only [rd, Water, Oil, Gas, List.getD_cons_zero, List.getD_cons_succ]
  refine ⟨c2, c4, by linarith, by linarith⟩


/-- The loop body of `updateWellState` is its fraction part followed by its control part. -/
theorem updateWellStateWell_eq (E : External) (self : StandardWellsDense)
    (dwells xold : List ℚ) (w : Nat) (st : WellState) :
    updateWellStateWell E self dwells xold w st
      = controlUpdate E self dwells xold w (fractionsOf E self dwells xold w st)
          (fractionUpdate E self dwells xold w st) := rfl

/-- The control part changes the well solutions only in the first well variable. -/
theorem controlUpdate_wellSolutions (E : External) (self : StandardWellsDense)
    (dwells xold : List ℚ) (w : Nat) (Fn : List ℚ) (ws4 : WellState) :
    ∃ x, (controlUpdate E self dwells xold w Fn ws4).wellSolutions
      = ws4.wellSolutions.set (self.nw * XvarWell + w) x := by
  have key : ∀ (x : ℚ) (n : Nat) (body : Nat → WellState → WellState) (s0 : WellState),
      s0.wellSolutions = ws4.wellSolutions.set (self.nw * XvarWell + w) x →
      (∀ i t, (body i t).wellSolutions = t.wellSolutions) →
      (forRange n body s0).wellSolutions = ws4.wellSolutions.set (self.nw * XvarWell + w) x := by
    intro x n body s0 h0 hb
    exact forRange_preserves
      (fun (s : WellState) => s.wellSolutions = ws4.wellSolutions.set (self.nw * XvarWell + w) x)
      n body s0 h0 (fun i t ht => (hb i t).trans ht)
  unfold controlUpdate
  dsimp only
  split
  · refine ⟨rd xold (self.nw * XvarWell + w) - blockEntry dwells w (E.flowPhaseToEbosCompIdx XvarWell), ?_⟩
    split_ifs
    all_goals first
      | exact key _ _ _ _ rfl (fun i t => rfl)
      | (split <;> exact key _ _ _ _ rfl (fun i t => rfl))
  · refine ⟨rd xold (self.nw * XvarWell + w) - blockEntry dwells w (E.flowPhaseToEbosCompIdx XvarWell), ?_⟩
    split_ifs
    all_goals first
      | exact key _ _ _ _ rfl (fun i t => rfl)
      | (split <;> exact key _ _ _ _ rfl (fun i t => rfl))
  · refine ⟨max (rd xold (self.nw * XvarWell + w) - limitedStep (blockEntry dwells w
      (E.flowPhaseToEbosCompIdx XvarWell)) (|rd xold (self.nw * XvarWell + w)| * self.param_.dbhp_max_rel_)) 100000, ?_⟩
    split_ifs
    all_goals exact key _ _ _ _ rfl (fun i t => rfl)
  · refine ⟨max (rd xold (self.nw * XvarWell + w) - limitedStep (blockEntry dwells w
      (E.flowPhaseToEbosCompIdx XvarWell)) (|rd xold (self.nw * XvarWell + w)| * self.param_.dbhp_max_rel_)) 100000, ?_⟩
    split_ifs
    all_goals exact key _ _ _ _ rfl (fun i t => rfl)


/-- Reads of a vector after the four fraction writes and the write of the first variable. -/
theorem rd_fraction_writes (l : List ℚ) (i0 i1 i2 : Nat) (a b c d x : ℚ)
    (h01 : i0 ≠ i1) (h02 : i0 ≠ i2) (h12 : i1 ≠ i2) (h1 : i1 < l.length) (h2 : i2 < l.length) :
    rd (((((l.set i1 a).set i2 b).set i1 c).set i2 d).set i0 x) i1 = c ∧
    rd (((((l.set i1 a).set i2 b).set i1 c).set i2 d).set i0 x) i2 = d ∧
    ∀ j, j ≠ i0 → j ≠ i1 → j ≠ i2 →
      rd (((((l.set i1 a).set i2 b).set i1 c).set i2 d).set i0 x) j = rd l j := by
  refine ⟨?_, ?_, ?_⟩
  · rw [rd_set, if_neg (fun h => h01 h.1), rd_set, if_neg (fun h => h12 h.1.symm), rd_set,
      if_pos ⟨rfl, by simpa using h1⟩]
  · rw [rd_set, if_neg (fun h => h02 h.1), rd_set, if_pos ⟨rfl, by simpa using h2⟩]
  · intro j hj0 hj1 hj2
    rw [rd_set, if_neg (fun h => hj0 h.1.symm), rd_set, if_neg (fun h => hj2 h.1.symm), rd_set,
      if_neg (fun h => hj1 h.1.symm), rd_set, if_neg (fun h => hj2 h.1.symm), rd_set,
      if_neg (fun h => hj1 h.1.symm)]

/-- With water and gas active the fraction part writes the two updated fractions and then the
two normalized fractions. -/
theorem fractionUpdate_wellSolutions (E : External) (self : StandardWellsDense)
    (dwells xold : List ℚ) (w : Nat) (st : WellState)
    (hw : self.active Water = true) (hg : self.active Gas = true) :
    ∃ a b fw fg, (fractionUpdate E self dwells xold w st).wellSolutions
      = (((st.wellSolutions.set (WFrac * self.nw + w) a).set (GFrac * self.nw + w) b).set
          (WFrac * self.nw + w) (rd (normalizedFractions self fw fg) Water)).set
          (GFrac * self.nw + w) (rd (normalizedFractions self fw fg) Gas) := by
  unfold fractionUpdate
  simp only [hw, hg, if_true]
  exact ⟨_, _, _, _, rfl⟩

/-- One pass of the loop body of `updateWellState` for well `w` keeps the length of the well
solutions, makes the fractions of well `w` valid and leaves the fractions of the other wells
as they were. -/
theorem updateWellStateWell_fractions (E : External) (self : StandardWellsDense)
    (dwells xold : List ℚ) (w : Nat) (st : WellState)
    (hnp : self.np = 3) (hw : self.active Water = true) (hg : self.active Gas = true)
    (hlt : w < self.nw) (hlen : 3 * self.nw ≤ st.wellSolutions.length) :
    (updateWellStateWell E self dwells xold w st).wellSolutions.length = st.wellSolutions.length ∧
    fractionsValid self.nw (updateWellStateWell E self dwells xold w st).wellSolutions w ∧
    ∀ v, v < self.nw → v ≠ w → fractionsValid self.nw st.wellSolutions v →
      fractionsValid self.nw (updateWellStateWell E self dwells xold w st).wellSolutions v := by
  rw [updateWellStateWell_eq]
  obtain ⟨x, hx⟩ := controlUpdate_wellSolutions E self dwells xold w
    (fractionsOf E self dwells xold w st) (fractionUpdate E self dwells xold w st)
  obtain ⟨a, b, fw, fg, hf⟩ := fractionUpdate_wellSolutions E self dwells xold w st hw hg
  rw [hx, hf]
  have e0 : self.nw * XvarWell + w = w := by simp [XvarWell]
  have e1 : WFrac * self.nw + w = self.nw + w := by simp [WFrac]
  have e2 : ∀ v, GFrac * self.nw + v = 2 * self.nw + v := fun v => by simp [GFrac]
  have e3 : ∀ v, WFrac * self.nw + v = self.nw + v := fun v => by simp [WFrac]
  obtain ⟨r1, r2, r3⟩ := rd_fraction_writes st.wellSolutions (self.nw * XvarWell + w)
    (WFrac * self.nw + w) (GFrac * self.nw + w) a b
    (rd (normalizedFractions self fw fg) Water) (rd (normalizedFractions self fw fg) Gas) x
    (by rw [e0, e1]; omega) (by rw [e0, e2]; omega) (by rw [e1, e2]; omega)
    (by rw [e1]; omega) (by rw [e2]; omega)
  obtain ⟨n1, n2, n3, _⟩ := normalizedFractions_spec self fw fg hnp hw hg
  refine ⟨by simp only [List.length_set], ?_, ?_⟩
  · unfold fractionsValid
    rw [r1, r2]
    exact ⟨n1, n2, n3⟩
  · intro v hv hvw hval
    unfold fractionsValid at hval ⊢
    rw [r3 (WFrac * self.nw + v) (by rw [e0, e3]; omega) (by rw [e1, e3]; omega)
          (by rw [e2, e3]; omega),
        r3 (GFrac * self.nw + v) (by rw [e0, e2]; omega) (by rw [e1, e2]; omega)
          (by rw [e2, e2]; omega)]
    exact hval

/-- After the first `k` passes of the loop of `updateWellState` the fractions of the wells
`0 .. k-1` are valid. -/
theorem updateWellState_loop_fractions (E : External) (self : StandardWellsDense)
    (dwells xold : List ℚ) (st : WellState)
    (hnp : self.np = 3) (hw : self.active Water = true) (hg : self.active Gas = true)
    (hlen : 3 * self.nw ≤ st.wellSolutions.length) (k : Nat) (hk : k ≤ self.nw) :
    (forRange k (updateWellStateWell E self dwells xold) st).wellSolutions.length
      = st.wellSolutions.length ∧
    ∀ v, v < k → fractionsValid self.nw
      (forRange k (updateWellStateWell E self dwells xold) st).wellSolutions v := by
  induction k with
  | zero => exact ⟨rfl, fun v hv => absurd hv (Nat.not_lt_zero v)⟩
  | succ k ih =>
    obtain ⟨il, iv⟩ := ih (Nat.le_of_succ_le hk)
    rw [forRange_succ]
    obtain ⟨s1, s2, s3⟩ := updateWellStateWell_fractions E self dwells xold k
      (forRange k (updateWellStateWell E self dwells xold) st) hnp hw hg hk (by rw [il]; exact hlen)
    refine ⟨s1.trans il, ?_⟩
    intro v hv
    by_cases hvk : v = k
    · rw [hvk]; exact s2
    · exact s3 v (by omega) hvk (iv v (by omega))


/-- C13. With water, oil and gas all active, after `updateWellState` (any Newton increment
`dwells`, any previous well solutions of full size) every well `w` has a stored water fraction
and a stored gas fraction that are non-negative, a non-negative implied oil fraction
`1 - WFrac - GFrac`, and the three fractions that `wellVolumeFraction` returns from the
updated well solutions sum to 1. -/
theorem C13_fractions_valid_after_update (E : External) (self : StandardWellsDense)
    (dwells : List ℚ) (well_state : WellState) (w : Nat)
    (hnp : self.np = 3) (hw : self.active Water = true) (_ho : self.active Oil = true)
    (hg : self.active Gas = true) (hlt : w < self.nw)
    (hlen : 3 * self.nw ≤ well_state.wellSolutions.length) :
    0 ≤ rd (updateWellState E self dwells well_state).wellSolutions (WFrac * self.nw + w) ∧
    0 ≤ rd (updateWellState E self dwells well_state).wellSolutions (GFrac * self.nw + w) ∧
    0 ≤ 1 - rd (updateWellState E self dwells well_state).wellSolutions (WFrac * self.nw + w)
          - rd (updateWellState E self dwells well_state).wellSolutions (GFrac * self.nw + w) ∧
    0 ≤ wellVolumeFraction
          (withWellVariables self (updateWellState E self dwells well_state)) w Oil ∧
    wellVolumeFraction (withWellVariables self (updateWellState E self dwells well_state)) w Water
      + wellVolumeFraction
          (withWellVariables self (updateWellState E self dwells well_state)) w Oil
      + wellVolumeFraction
          (withWellVariables self (updateWellState E self dwells well_state)) w Gas = 1 := by
  have hact : self.localWellsActive = true := by
    unfold StandardWellsDense.localWellsActive
    exact decide_eq_true (Nat.lt_of_le_of_lt (Nat.zero_le w) hlt)
  have hupd : updateWellState E self dwells well_state
      = forRange self.nw (updateWellStateWell E self dwells well_state.wellSolutions)
          well_state := by
    unfold updateWellState
    rw [if_pos hact]
  obtain ⟨_, hval⟩ := updateWellState_loop_fractions E self dwells well_state.wellSolutions
    well_state hnp hw hg hlen self.nw (Nat.le_refl _)
  obtain ⟨v1, v2, v3⟩ := hval w hlt
  rw [hupd]
  have hwa : (withWellVariables self (forRange self.nw
      (updateWellStateWell E self dwells well_state.wellSolutions) well_state)).active Water
      = true := hw
  have hga : (withWellVariables self (forRange self.nw
      (updateWellStateWell E self dwells well_state.wellSolutions) well_state)).active Gas
      = true := hg
  have hoil : wellVolumeFraction (withWellVariables self (forRange self.nw
      (updateWellStateWell E self dwells well_state.wellSolutions) well_state)) w Oil
      = 1 - rd (forRange self.nw (updateWellStateWell E self dwells well_state.wellSolutions)
            well_state).wellSolutions (WFrac * self.nw + w)
          - rd (forRange self.nw (updateWellStateWell E self dwells well_state.wellSolutions)
            well_state).wellSolutions (GFrac * self.nw + w) := by
    unfold wellVolumeFraction
    simp only [hwa, hga, if_true]
    rw [if_neg (by decide), if_neg (by decide)]
    rfl
  have hwat : wellVolumeFraction (withWellVariables self (forRange self.nw
      (updateWellStateWell E self dwells well_state.wellSolutions) well_state)) w Water
      = rd (forRange self.nw (updateWellStateWell E self dwells well_state.wellSolutions)
            well_state).wellSolutions (WFrac * self.nw + w) := by
    unfold wellVolumeFraction
    simp only [if_true]
    rfl
  have hgas : wellVolumeFraction (withWellVariables self (forRange self.nw
      (updateWellStateWell E self dwells well_state.wellSolutions) well_state)) w Gas
      = rd (forRange self.nw (updateWellStateWell E self dwells well_state.wellSolutions)
            well_state).wellSolutions (GFrac * self.nw + w) := by
    unfold wellVolumeFraction
    rw [if_neg (by decide), if_pos rfl]
    rfl
  rw [hoil, hwat, hgas]
  exact ⟨v1, v2, v3, v3, by ring⟩

/-- C13 at the producer `P1` with the increment `[10, 3, -2]`: the hypotheses hold and the
updated fractions are valid. -/
theorem C13_fractions_valid_after_update_witness :
    sampleProducerModel.np = 3 ∧ (0 : Nat) < sampleProducerModel.nw ∧
    3 * sampleProducerModel.nw ≤ sampleProducerState.wellSolutions.length ∧
    0 ≤ rd (updateWellState sampleExternal sampleProducerModel [10, 3, -2]
        sampleProducerState).wellSolutions (WFrac * sampleProducerModel.nw + 0) ∧
    wellVolumeFraction (withWellVariables sampleProducerModel
        (updateWellState sampleExternal sampleProducerModel [10, 3, -2] sampleProducerState))
        0 Water
      + wellVolumeFraction (withWellVariables sampleProducerModel
        (updateWellState sampleExternal sampleProducerModel [10, 3, -2] sampleProducerState))
        0 Oil
      + wellVolumeFraction (withWellVariables sampleProducerModel
        (updateWellState sampleExternal sampleProducerModel [10, 3, -2] sampleProducerState))
        0 Gas = 1 :=
  have h := C13_fractions_valid_after_update sampleExternal sampleProducerModel [10, 3, -2]
    sampleProducerState 0 rfl rfl rfl rfl (by decide) (by decide)
  ⟨rfl, by decide, by decide, h.1, h.2.2.2.2⟩


/-! ## Economic limits -/

theorem forWell_addShutWell_other (l : DynamicListEconLimited) (m n : String) (h : m ≠ n) :
    (l.addShutWell m).forWell n = l.forWell n := by
  simp [DynamicListEconLimited.forWell, DynamicListEconLimited.addShutWell, List.filter_append, h]

theorem forWell_addStoppedWell_other (l : DynamicListEconLimited) (m n : String) (h : m ≠ n) :
    (l.addStoppedWell m).forWell n = l.forWell n := by
  simp [DynamicListEconLimited.forWell, DynamicListEconLimited.addStoppedWell,
    List.filter_append, h]

theorem forWell_addClosed_other (l : DynamicListEconLimited) (m n : String) (c : Nat)
    (h : m ≠ n) : (l.addClosedConnectionsForWell m c).forWell n = l.forWell n := by
  simp [DynamicListEconLimited.forWell, DynamicListEconLimited.addClosedConnectionsForWell,
    List.filter_append, h]

theorem forWell_addShutWell_self (l : DynamicListEconLimited) (n : String) :
    (l.addShutWell n).forWell n = (l.forWell n).addShutWell n := by
  simp [DynamicListEconLimited.forWell, DynamicListEconLimited.addShutWell, List.filter_append]

theorem forWell_addStoppedWell_self (l : DynamicListEconLimited) (n : String) :
    (l.addStoppedWell n).forWell n = (l.forWell n).addStoppedWell n := by
  simp [DynamicListEconLimited.forWell, DynamicListEconLimited.addStoppedWell,
    List.filter_append]

theorem forWell_addClosed_self (l : DynamicListEconLimited) (n : String) (c : Nat) :
    (l.addClosedConnectionsForWell n c).forWell n
      = (l.forWell n).addClosedConnectionsForWell n c := by
  simp [DynamicListEconLimited.forWell, DynamicListEconLimited.addClosedConnectionsForWell,
    List.filter_append]

/-- The loop body for a well adds entries under that well's name only. -/
theorem updateListEconLimitedWell_other (swd : StandardWellsDense) (schedule : Schedule)
    (current_step : Nat) (wells : Wells) (well_map : WellMapType) (well_state : WellState)
    (v : Nat) (l r : DynamicListEconLimited) (n : String)
    (hne : wells.name.getD v "" ≠ n)
    (h : updateListEconLimitedWell swd schedule current_step wells well_map well_state v l
      = some r) : r.forWell n = l.forWell n := by
  unfold updateListEconLimitedWell at h
  dsimp only at h
  cases hm : well_map.find (wells.name.getD v "") with
  | none =>
    rw [hm] at h
    dsimp only at h
    split_ifs at h
    all_goals cases h
    all_goals rfl
  | some map_entry =>
    rw [hm] at h
    dsimp only at h
    split_ifs at h
    all_goals cases h
    all_goals first
      | rfl
      | exact forWell_addShutWell_other _ _ _ hne
      | exact forWell_addStoppedWell_other _ _ _ hne
      | exact forWell_addClosed_other _ _ _ _ hne
      | exact (forWell_addShutWell_other _ _ _ hne).trans (forWell_addClosed_other _ _ _ _ hne)


/-- One more pass of a fallible counted loop. -/
theorem foldlM_range_succ {σ : Type} (f : σ → Nat → Option σ) (s : σ) (k : Nat) :
    (List.range (k + 1)).foldlM f s = ((List.range k).foldlM f s).bind (fun t => f t k) := by
  rw [List.range_succ, List.foldlM_append]
  cases (List.range k).foldlM f s with
  | none => rfl
  | some t => simp [List.foldlM]

/-- What a pass of `updateListEconLimited` does to the part of the list of one well `w` whose
name no other well carries: what the loop body of `w` does to it. -/
theorem updateListEconLimited_forWell (swd : StandardWellsDense) (schedule : Schedule)
    (current_step : Nat) (wells : Wells) (well_map : WellMapType) (well_state : WellState)
    (w : Nat) (g : DynamicListEconLimited → DynamicListEconLimited)
    (hw : w < wells.number_of_wells)
    (hdist : ∀ v, v < wells.number_of_wells → v ≠ w →
      wells.name.getD v "" ≠ wells.name.getD w "")
    (hbody : ∀ l r,
      updateListEconLimitedWell swd schedule current_step wells well_map well_state w l = some r →
      r.forWell (wells.name.getD w "") = g (l.forWell (wells.name.getD w "")))
    (list r : DynamicListEconLimited)
    (h : updateListEconLimited swd schedule current_step (some wells) well_map well_state list
      = some r) :
    r.forWell (wells.name.getD w "") = g (list.forWell (wells.name.getD w "")) := by
  have key : ∀ k, k ≤ wells.number_of_wells → ∀ t,
      (List.range k).foldlM (fun l v =>
        updateListEconLimitedWell swd schedule current_step wells well_map well_state v l) list
        = some t →
      t.forWell (wells.name.getD w "")
        = if w < k then g (list.forWell (wells.name.getD w ""))
          else list.forWell (wells.name.getD w "") := by
    intro k
    induction k with
    | zero =>
      intro _ t ht
      cases ht
      rfl
    | succ k ih =>
      intro hk t ht
      rw [foldlM_range_succ] at ht
      cases hp : (List.range k).foldlM (fun l v =>
        updateListEconLimitedWell swd schedule current_step wells well_map well_state v l) list with
      | none => rw [hp] at ht; cases ht
      | some p =>
        rw [hp] at ht
        have hpre := ih (Nat.le_of_succ_le hk) p hp
        have hstep : updateListEconLimitedWell swd schedule current_step wells well_map
            well_state k p = some t := ht
        by_cases hkw : k = w
        · subst hkw
          rw [if_neg (Nat.lt_irrefl _)] at hpre
          rw [if_pos (Nat.lt_succ_self _), hbody p t hstep, hpre]
        · rw [updateListEconLimitedWell_other swd schedule current_step wells well_map well_state
            k p t _ (hdist k hk hkw) hstep, hpre]
          by_cases hlt : w < k
          · rw [if_pos hlt, if_pos (Nat.lt_succ_of_lt hlt)]
          · rw [if_neg hlt, if_neg (by omega)]
  have := key wells.number_of_wells (Nat.le_refl _) r h
  rw [if_pos hw] at this
  exact this


/-- The rate check returns true exactly when one of the minimum-rate limits is on and
violated. -/
theorem checkRateEconLimits_iff (swd : StandardWellsDense) (econ : WellEconProductionLimits)
    (well_state : WellState) (well_number : Nat) :
    checkRateEconLimits swd econ well_state well_number = true
      ↔ rateLimitViolated swd econ well_state well_number := by
  unfold checkRateEconLimits rateLimitViolated
  dsimp only
  constructor
  · intro h
    split_ifs at h with h1 h2 h3
    · exact Or.inl h1
    · exact Or.inr (Or.inl h2)
    · exact Or.inr (Or.inr h3)
  · intro h
    split_ifs with h1 h2 h3
    · rfl
    · rfl
    · rfl
    · rcases h with h | h | h
      · exact absurd h h1
      · exact absurd h h2
      · exact absurd h h3

/-- C14. A producer `w` whose limits are effective, whose rate limits are on, and which
violates a minimum-rate limit that is on (`|oil rate| < minOilRate`, `|gas rate| < minGasRate`
or `|oil rate + water rate| < minLiquidRate`) is added by the loop body of
`updateListEconLimited` to the shut wells if its automatic shut-in flag is true and to the
stopped wells otherwise, and nothing else is added. For a well whose name no other well
carries, a completed pass therefore extends the part of the list of that well by exactly this
one entry: the well is not added to the other list and none of its connections is closed,
whatever the ratio limits are. -/
theorem C14_rate_violation_shuts_or_stops (swd : StandardWellsDense) (schedule : Schedule)
    (current_step : Nat) (wells : Wells) (well_map : WellMapType) (well_state : WellState)
    (w : Nat) (map_entry : WellMapEntryType)
    (hw : w < wells.number_of_wells)
    (hdist : ∀ v, v < wells.number_of_wells → v ≠ w →
      wells.name.getD v "" ≠ wells.name.getD w "")
    (hprod : wells.type.getD w WellType.PRODUCER = WellType.PRODUCER)
    (heff : ((schedule.getWell (wells.name.getD w "")).getEconProductionLimits
      current_step).onAnyEffectiveLimit = true)
    (hrate : ((schedule.getWell (wells.name.getD w "")).getEconProductionLimits
      current_step).onAnyRateLimit = true)
    (hmap : well_map.find (wells.name.getD w "") = some map_entry)
    (hviol : rateLimitViolated swd
      ((schedule.getWell (wells.name.getD w "")).getEconProductionLimits current_step)
      well_state map_entry.well_number) :
    (∀ l, updateListEconLimitedWell swd schedule current_step wells well_map well_state w l
      = some (if (schedule.getWell (wells.name.getD w "")).getAutomaticShutIn = true
          then l.addShutWell (wells.name.getD w "")
          else l.addStoppedWell (wells.name.getD w ""))) ∧
    (∀ list r,
      updateListEconLimited swd schedule current_step (some wells) well_map well_state list
        = some r →
      r.forWell (wells.name.getD w "")
        = if (schedule.getWell (wells.name.getD w "")).getAutomaticShutIn = true
          then (list.forWell (wells.name.getD w "")).addShutWell (wells.name.getD w "")
          else (list.forWell (wells.name.getD w "")).addStoppedWell (wells.name.getD w "")) := by
  have hbody : ∀ l, updateListEconLimitedWell swd schedule current_step wells well_map
      well_state w l
      = some (if (schedule.getWell (wells.name.getD w "")).getAutomaticShutIn = true
          then l.addShutWell (wells.name.getD w "")
          else l.addStoppedWell (wells.name.getD w "")) := by
    intro l
    have hc := (checkRateEconLimits_iff swd _ well_state map_entry.well_number).mpr hviol
    unfold updateListEconLimitedWell
    dsimp only
    rw [hmap]
    dsimp only
    rw [if_neg (not_not.mpr hprod), if_neg (by rw [heff]; decide), if_pos hrate, if_pos hc]
    split_ifs <;> rfl
  refine ⟨hbody, ?_⟩
  intro list r h
  refine updateListEconLimited_forWell swd schedule current_step wells well_map well_state w
    (fun p => if (schedule.getWell (wells.name.getD w "")).getAutomaticShutIn = true
      then p.addShutWell (wells.name.getD w "")
      else p.addStoppedWell (wells.name.getD w "")) hw hdist ?_ list r h
  intro l t ht
  rw [hbody l] at ht
  cases ht
  dsimp only
  split_ifs
  · exact forWell_addShutWell_self _ _
  · exact forWell_addStoppedWell_self _ _

/-- C14 at the producer `P1` of `sampleEconWells`, whose oil rate 3 is below the minimum oil
rate 100 and whose water cut also exceeds the limit 0.8: with automatic shut-in the pass adds
`P1` to the shut wells, stops no well and closes no connection. -/
theorem C14_rate_violation_shuts_or_stops_witness :
    rateLimitViolated sampleEconModel (sampleEconLimits 100) sampleWateredOutState 0 ∧
    (checkMaxWaterCutLimit sampleEconModel (sampleEconLimits 100) sampleWateredOutState
      { well_number := 0, perf_start := 0, perf_number := 3 }).1 = true ∧
    updateListEconLimited sampleEconModel (sampleSchedule 100 true) 0 (some sampleEconWells)
      sampleWellMap sampleWateredOutState emptyEconList
      = some { shut_wells := ["P1"], stopped_wells := [], cells_closed_connections := [] } ∧
    ({ shut_wells := ["P1"], stopped_wells := [], cells_closed_connections := [] } :
      DynamicListEconLimited).forWell "P1" = (emptyEconList.forWell "P1").addShutWell "P1" :=
  have hv : rateLimitViolated sampleEconModel (sampleEconLimits 100) sampleWateredOutState 0 :=
    Or.inl ⟨rfl, by decide!⟩
  have hrun : updateListEconLimited sampleEconModel (sampleSchedule 100 true) 0
      (some sampleEconWells) sampleWellMap sampleWateredOutState emptyEconList
      = some { shut_wells := ["P1"], stopped_wells := [], cells_closed_connections := [] } := by
    decide!
  ⟨hv, by decide!, hrun,
    (C14_rate_violation_shuts_or_stops sampleEconModel (sampleSchedule 100 true) 0
      sampleEconWells sampleWellMap sampleWateredOutState 0
      { well_number := 0, perf_start := 0, perf_number := 3 } (by decide) (by decide) rfl rfl rfl
      rfl hv).2 emptyEconList _ hrun⟩


/-- C15. A well `w` that is not a producer, or whose economic production limits report no
effective limit at the current step, passes the loop body of `updateListEconLimited` with the
list as it was, whatever the well state; if no other well carries its name, a completed pass
leaves the part of the list of that well (shut, stopped, closed connections) as on entry. With
the null wells structure the pass returns the list unchanged. -/
theorem C15_no_entry_for_injector_or_unlimited (swd : StandardWellsDense) (schedule : Schedule)
    (current_step : Nat) (wells : Wells) (well_map : WellMapType) (well_state : WellState)
    (w : Nat)
    (hw : w < wells.number_of_wells)
    (hdist : ∀ v, v < wells.number_of_wells → v ≠ w →
      wells.name.getD v "" ≠ wells.name.getD w "")
    (hskip : wells.type.getD w WellType.PRODUCER ≠ WellType.PRODUCER
      ∨ ((schedule.getWell (wells.name.getD w "")).getEconProductionLimits
          current_step).onAnyEffectiveLimit = false) :
    (∀ l, updateListEconLimitedWell swd schedule current_step wells well_map well_state w l
      = some l) ∧
    (∀ list r,
      updateListEconLimited swd schedule current_step (some wells) well_map well_state list
        = some r →
      r.forWell (wells.name.getD w "") = list.forWell (wells.name.getD w "")) ∧
    (∀ list,
      updateListEconLimited swd schedule current_step none well_map well_state list
        = some list) := by
  have hbody : ∀ l, updateListEconLimitedWell swd schedule current_step wells well_map
      well_state w l = some l := by
    intro l
    unfold updateListEconLimitedWell
    dsimp only
    rcases hskip with h | h
    · rw [if_pos h]
    · by_cases hp : wells.type.getD w WellType.PRODUCER ≠ WellType.PRODUCER
      · rw [if_pos hp]
      · rw [if_neg hp, if_pos h]
  refine ⟨hbody, ?_, fun list => rfl⟩
  intro list r h
  refine updateListEconLimited_forWell swd schedule current_step wells well_map well_state w
    (fun p => p) hw hdist ?_ list r h
  intro l t ht
  rw [hbody l] at ht
  cases ht
  rfl

/-- C15 at the injector `I1` of `sampleEconWells`: the pass that closes a connection of the
producer `P1` adds nothing under the name `I1`. -/
theorem C15_no_entry_for_injector_or_unlimited_witness :
    updateListEconLimited sampleEconModel (sampleSchedule 1 true) 0 (some sampleEconWells)
      sampleWellMap sampleWateredOutState emptyEconList
      = some { shut_wells := [], stopped_wells := [], cells_closed_connections := [("P1", 9)] } ∧
    ({ shut_wells := [], stopped_wells := [], cells_closed_connections := [("P1", 9)] } :
      DynamicListEconLimited).forWell "I1" = emptyEconList.forWell "I1" :=
  have hrun : updateListEconLimited sampleEconModel (sampleSchedule 1 true) 0
      (some sampleEconWells) sampleWellMap sampleWateredOutState emptyEconList
      = some { shut_wells := [], stopped_wells := [],
               cells_closed_connections := [("P1", 9)] } := by
    decide!
  ⟨hrun,
    (C15_no_entry_for_injector_or_unlimited sampleEconModel (sampleSchedule 1 true) 0
      sampleEconWells sampleWellMap sampleWateredOutState 1 (by decide) (by decide)
      (Or.inl (by decide))).2.1 emptyEconList _ hrun⟩


/-- The search of lines 1618-1624 after `k` connections: the running maximum bounds the first
`k` water cuts, and either it is still the initial pair (no water cut was positive), or it is
positive and the water cut of the connection recorded with it. -/
theorem worstWaterCut_spec (wcp : List ℚ) (k : Nat) :
    (∀ j, j < k → rd wcp j ≤ (worstWaterCut wcp k).2) ∧
    ((worstWaterCut wcp k = (INVALIDCONNECTION, 0) ∧ ∀ j, j < k → rd wcp j ≤ 0)
      ∨ (0 < (worstWaterCut wcp k).2
          ∧ ∃ i, i < k ∧ (worstWaterCut wcp k).1 = (i : Int)
              ∧ rd wcp i = (worstWaterCut wcp k).2)) := by
  induction k with
  | zero =>
    exact ⟨fun j hj => absurd hj (Nat.not_lt_zero j),
      Or.inl ⟨rfl, fun j hj => absurd hj (Nat.not_lt_zero j)⟩⟩
  | succ k ih =>
    obtain ⟨hb, hc⟩ := ih
    have hstep : worstWaterCut wcp (k + 1)
        = if rd wcp k > (worstWaterCut wcp k).2 then ((k : Int), rd wcp k)
          else worstWaterCut wcp k := by
      unfold worstWaterCut
      rw [forRange_succ]
    rw [hstep]
    by_cases hgt : rd wcp k > (worstWaterCut wcp k).2
    · rw [if_pos hgt]
      have hnn : 0 ≤ (worstWaterCut wcp k).2 := by
        rcases hc with ⟨h0, _⟩ | ⟨hp, _⟩
        · rw [h0]
        · exact le_of_lt hp
      refine ⟨?_, Or.inr ⟨lt_of_le_of_lt hnn hgt, k, Nat.lt_succ_self k, rfl, rfl⟩⟩
      intro j hj
      by_cases hjk : j = k
      · rw [hjk]
      · exact le_of_lt (lt_of_le_of_lt (hb j (by omega)) hgt)
    · rw [if_neg hgt]
      have hle : rd wcp k ≤ (worstWaterCut wcp k).2 := not_lt.mp hgt
      refine ⟨?_, ?_⟩
      · intro j hj
        by_cases hjk : j = k
        · rw [hjk]; exact hle
        · exact hb j (by omega)
      · rcases hc with ⟨h0, hall⟩ | ⟨hp, i, hi, h1, h2⟩
        · refine Or.inl ⟨h0, ?_⟩
          intro j hj
          by_cases hjk : j = k
          · rw [hjk]
            rw [h0] at hle
            exact hle
          · exact hall j (by omega)
        · exact Or.inr ⟨hp, i, Nat.lt_succ_of_lt hi, h1, h2⟩

/-- Where some connection has a positive water cut, `checkMaxWaterCutLimit` does for a well
with a violated water-cut limit and other than one connection what is expected of it: it
reports the violation with a connection index of the well whose water cut is the maximum
over the well's connections, and with that maximum over the limit as the extent. -/
theorem checkMaxWaterCutLimit_worst (swd : StandardWellsDense) (econ : WellEconProductionLimits)
    (well_state : WellState) (map_entry : WellMapEntryType)
    (hviol : waterCut
        (rd well_state.wellRates (map_entry.well_number * swd.np + swd.phasePos Oil))
        (rd well_state.wellRates (map_entry.well_number * swd.np + swd.phasePos Water))
      > econ.maxWaterCut)
    (hmany : map_entry.perf_number ≠ 1)
    (hpos : ∃ p, p < map_entry.perf_number ∧ 0 < rd (waterCutPerf swd well_state map_entry) p) :
    ∃ i, i < map_entry.perf_number ∧
      checkMaxWaterCutLimit swd econ well_state map_entry
        = (true, false, (i : Int),
            rd (waterCutPerf swd well_state map_entry) i / econ.maxWaterCut) ∧
      ∀ j, j < map_entry.perf_number →
        rd (waterCutPerf swd well_state map_entry) j
          ≤ rd (waterCutPerf swd well_state map_entry) i := by
  obtain ⟨hb, hc⟩ := worstWaterCut_spec (waterCutPerf swd well_state map_entry)
    map_entry.perf_number
  rcases hc with ⟨_, hall⟩ | ⟨_, i, hi, h1, h2⟩
  · obtain ⟨p, hp, hpp⟩ := hpos
    exact absurd (hall p hp) (not_le.mpr hpp)
  · refine ⟨i, hi, ?_, ?_⟩
    · unfold checkMaxWaterCutLimit
      dsimp only
      rw [if_pos hviol, if_neg hmany, h1, h2]
    · intro j hj
      rw [h2]
      exact hb j hj

/-- The example of a well with the connection water cuts 0.9, 0.95 and 0.99 and the limit 0.8:
the worst-offending connection is the one of index 2 and the extent is 0.99/0.8 = 1.2375. -/
theorem checkMaxWaterCutLimit_example :
    waterCutPerf sampleEconModel sampleWateredOutState
      { well_number := 0, perf_start := 0, perf_number := 3 } = [9 / 10, 19 / 20, 99 / 100] ∧
    checkMaxWaterCutLimit sampleEconModel (sampleEconLimits 1) sampleWateredOutState
      { well_number := 0, perf_start := 0, perf_number := 3 } = (true, false, 2, 12375 / 10000) := by
  decide!

/-- C16 fails on a well with cross flow. The producer `P1` of `sampleCrossFlowState` has the
well-level water cut 0.9 above the limit 0.8 and three connections with the water cuts -10,
-1/11 and 0, none of them positive: `checkMaxWaterCutLimit` reports the violation with the
connection index `INVALIDCONNECTION` = -10000, which is no connection of the well, and the
extent 0, where the maximum water cut 0 is that of connection 2; the assertions of lines
1625-1626 fail on this input. -/
theorem C16_invalid_connection_for_cross_flow :
    waterCut (rd sampleCrossFlowState.wellRates 1) (rd sampleCrossFlowState.wellRates 0)
      = 9 / 10 ∧
    waterCutPerf sampleEconModel sampleCrossFlowState
      { well_number := 0, perf_start := 0, perf_number := 3 } = [-10, -1 / 11, 0] ∧
    checkMaxWaterCutLimit sampleEconModel (sampleEconLimits 1) sampleCrossFlowState
      { well_number := 0, perf_start := 0, perf_number := 3 }
      = (true, false, INVALIDCONNECTION, 0) ∧
    worstWaterCutAsserts (waterCutPerf sampleEconModel sampleCrossFlowState
      { well_number := 0, perf_start := 0, perf_number := 3 }) 3 = false := by
  decide!


/-- The loop body of `updateListEconLimited` for a producer without a violated rate limit whose
ratio check reports a violation with a connection index `i` of the well: the connection's cell
is added to the closed connections, and the well is added to the shut wells exactly when the
check reports the last connection. -/
theorem updateListEconLimitedWell_ratio (swd : StandardWellsDense) (schedule : Schedule)
    (current_step : Nat) (wells : Wells) (well_map : WellMapType) (well_state : WellState)
    (w : Nat) (map_entry : WellMapEntryType) (last : Bool) (i : Nat) (extent : ℚ)
    (l : DynamicListEconLimited)
    (hprod : wells.type.getD w WellType.PRODUCER = WellType.PRODUCER)
    (heff : ((schedule.getWell (wells.name.getD w "")).getEconProductionLimits
      current_step).onAnyEffectiveLimit = true)
    (hmap : well_map.find (wells.name.getD w "") = some map_entry)
    (hnorate : ¬ rateLimitViolated swd
      ((schedule.getWell (wells.name.getD w "")).getEconProductionLimits current_step)
      well_state map_entry.well_number)
    (hratio : ((schedule.getWell (wells.name.getD w "")).getEconProductionLimits
      current_step).onAnyRatioLimit = true)
    (hcheck : checkRatioEconLimits swd
      ((schedule.getWell (wells.name.getD w "")).getEconProductionLimits current_step)
      well_state map_entry = (true, last, (i : Int), extent))
    (hi : i < map_entry.perf_number) :
    updateListEconLimitedWell swd schedule current_step wells well_map well_state w l
      = some (if last = true
          then (l.addClosedConnectionsForWell (wells.name.getD w "")
            (wells.well_cells.getD (map_entry.perf_start + i) 0)).addShutWell
              (wells.name.getD w "")
          else l.addClosedConnectionsForWell (wells.name.getD w "")
            (wells.well_cells.getD (map_entry.perf_start + i) 0)) := by
  have hc : ¬ checkRateEconLimits swd
      ((schedule.getWell (wells.name.getD w "")).getEconProductionLimits current_step)
      well_state map_entry.well_number = true :=
    fun h => hnorate ((checkRateEconLimits_iff swd _ well_state map_entry.well_number).mp h)
  have hr : ¬ (if ((schedule.getWell (wells.name.getD w "")).getEconProductionLimits
      current_step).onAnyRateLimit = true
      then checkRateEconLimits swd
        ((schedule.getWell (wells.name.getD w "")).getEconProductionLimits current_step)
        well_state map_entry.well_number
      else false) = true := by
    split_ifs
    · exact hc
    · decide
  have hrange : (0 : Int) ≤ (i : Int) ∧ (i : Int) < (map_entry.perf_number : Int) :=
    ⟨Int.ofNat_nonneg i, Int.ofNat_lt.mpr hi⟩
  unfold updateListEconLimitedWell
  dsimp only
  rw [hmap]
  dsimp only
  rw [if_neg (not_not.mpr hprod), if_neg (by rw [heff]; decide), if_neg hr, if_pos hratio,
    hcheck]
  dsimp only
  rw [if_pos rfl, if_pos hrange, Int.toNat_ofNat]
  split_ifs <;> rfl

/-- C17 fails on the well with cross flow on which C16 fails. The producer `P1` of
`sampleCrossFlowState` violates no rate limit (oil rate 1, minimum 1) and violates the
water-cut limit; the ratio check returns the connection index `INVALIDCONNECTION`, so the
assertion of line 974 fails and line 976 reads `well_cells` outside the well's connections:
no pass of `updateListEconLimited` completes with one connection of `P1` closed. -/
theorem C17_no_connection_closed_for_cross_flow :
    checkRateEconLimits sampleEconModel (sampleEconLimits 1) sampleCrossFlowState 0 = false ∧
    checkRatioEconLimits sampleEconModel (sampleEconLimits 1) sampleCrossFlowState
      { well_number := 0, perf_start := 0, perf_number := 3 }
      = (true, false, INVALIDCONNECTION, 0) ∧
    updateListEconLimitedWell sampleEconModel (sampleSchedule 1 true) 0 sampleEconWells
      sampleWellMap sampleCrossFlowState 0 emptyEconList = none ∧
    updateListEconLimited sampleEconModel (sampleSchedule 1 true) 0 (some sampleEconWells)
      sampleWellMap sampleCrossFlowState emptyEconList = none := by
  decide!


/-! ## Voidage-replacement group control -/

/-- The loop of lines 1230-1235 over the leaf nodes `nodes`, started from `st`: the length of
`currentControls` is kept, an entry that belongs to no injector leaf under group control is
kept, and, the well indices of the leaves being distinct, the entry of every injector leaf
not under individual control is its group control index. -/
theorem leafLoop_spec (nodes : List WellNode) :
    ∀ st : WellState,
    (nodes.foldl (fun (st : WellState) (well_node : WellNode) =>
      if well_node.isInjector && !well_node.individualControl then
        { st with currentControls :=
            st.currentControls.set well_node.selfIndex well_node.groupControlIndex }
      else st) st).currentControls.length = st.currentControls.length ∧
    (∀ j d, (∀ node, node ∈ nodes → node.isInjector = true → node.individualControl = false →
        node.selfIndex ≠ j) →
      (nodes.foldl (fun (st : WellState) (well_node : WellNode) =>
        if well_node.isInjector && !well_node.individualControl then
          { st with currentControls :=
              st.currentControls.set well_node.selfIndex well_node.groupControlIndex }
        else st) st).currentControls.getD j d = st.currentControls.getD j d) ∧
    ((nodes.map (fun node => node.selfIndex)).Nodup →
      ∀ node d, node ∈ nodes → node.isInjector = true → node.individualControl = false →
        node.selfIndex < st.currentControls.length →
        (nodes.foldl (fun (st : WellState) (well_node : WellNode) =>
          if well_node.isInjector && !well_node.individualControl then
            { st with currentControls :=
                st.currentControls.set well_node.selfIndex well_node.groupControlIndex }
          else st) st).currentControls.getD node.selfIndex d = node.groupControlIndex) := by
  induction nodes with
  | nil =>
    intro st
    exact ⟨rfl, fun _ _ _ => rfl, fun _ node _ hn => absurd hn (List.not_mem_nil node)⟩
  | cons a rest ih =>
    intro st
    rw [List.foldl_cons]
    obtain ⟨il, ifr, iset⟩ := ih
      (if a.isInjector && !a.individualControl then
        { st with currentControls := st.currentControls.set a.selfIndex a.groupControlIndex }
      else st)
    have hlen : (if a.isInjector && !a.individualControl then
        ({ st with currentControls := st.currentControls.set a.selfIndex a.groupControlIndex } :
          WellState)
      else st).currentControls.length = st.currentControls.length := by
      split_ifs
      · simp only [List.length_set]
      · rfl
    refine ⟨il.trans hlen, ?_, ?_⟩
    · intro j d hj
      rw [ifr j d (fun node hn => hj node (List.mem_cons_of_mem a hn))]
      split_ifs with hc
      · have hc2 : a.isInjector = true ∧ a.individualControl = false := by
          simpa using hc
        exact getD_set_other _ _ _ _ _ (hj a (List.mem_cons_self a rest) hc2.1 hc2.2)
      · rfl
    · intro hnd node d hn hinj hind hlt
      rw [List.map_cons, List.nodup_cons] at hnd
      rcases List.mem_cons.mp hn with hna | hnr
      · subst hna
        rw [ifr node.selfIndex d (fun m hm _ _ heq =>
          hnd.1 (List.mem_map.mpr ⟨m, hm, heq⟩))]
        have hc : (node.isInjector && !node.individualControl) = true := by
          simp [hinj, hind]
        rw [if_pos hc]
        exact getD_set_self _ _ _ _ hlt
      · exact iset hnd.2 node d hnr hinj hind (by rw [hlen]; exact hlt)

/-- C18. When the well collection has voidage-replacement groups, then after
`applyVREPGroupControl`, for leaf nodes with distinct well indices, every leaf node that is an
injector and is not under individual control (and whose well index is within
`currentControls`) has `currentControls` at its well index equal to its group control index,
and the entry of `currentControls` of every index that belongs to no such leaf is as on
entry. -/
theorem C18_group_index_for_injector_leaves (E : External) (self : StandardWellsDense)
    (well_state : WellState)
    (hvrep : self.well_collection_.havingVREPGroups = true)
    (hnodup : ((applyVREPGroupControl E self well_state).1.well_collection_.leafNodes.map
      (fun node => node.selfIndex)).Nodup) :
    (∀ node d, node ∈ (applyVREPGroupControl E self well_state).1.well_collection_.leafNodes →
      node.isInjector = true → node.individualControl = false →
      node.selfIndex < well_state.currentControls.length →
      (applyVREPGroupControl E self well_state).2.currentControls.getD node.selfIndex d
        = node.groupControlIndex) ∧
    (∀ j d,
      (∀ node, node ∈ (applyVREPGroupControl E self well_state).1.well_collection_.leafNodes →
        node.isInjector = true → node.individualControl = false → node.selfIndex ≠ j) →
      (applyVREPGroupControl E self well_state).2.currentControls.getD j d
        = well_state.currentControls.getD j d) := by
  unfold applyVREPGroupControl at hnodup ⊢
  rw [if_pos hvrep] at hnodup ⊢
  dsimp only at hnodup ⊢
  obtain ⟨_, hfr, hset⟩ := leafLoop_spec
    (E.applyVREPGroupControls self.well_collection_
      (computeWellVoidageRates E self well_state [] []).1
      (computeWellVoidageRates E self well_state [] []).2).leafNodes well_state
  exact ⟨fun node d hn hi hc hl => hset hnodup node d hn hi hc hl, hfr⟩

/-- C18 at `sampleVREPModel`: the injector `I1` (well index 1) gets the group control index 2
and the entry of the producer `P1` stays 0. -/
theorem C18_group_index_for_injector_leaves_witness :
    (applyVREPGroupControl sampleExternal sampleVREPModel
      sampleWateredOutState).2.currentControls = [0, 2] ∧
    (applyVREPGroupControl sampleExternal sampleVREPModel
      sampleWateredOutState).2.currentControls.getD 0 0
      = sampleWateredOutState.currentControls.getD 0 0 :=
  ⟨by decide!,
    (C18_group_index_for_injector_leaves sampleExternal sampleVREPModel sampleWateredOutState
      rfl (by decide)).2 0 0 (by decide)⟩


/-! ## Group control and the constraint scan -/

/-- C19 fails: with group control active, the producer `P1` is under group control on entry
(group control index 0 and current control 0), its oil-rate constraint of index 1 is broken,
and the constraint scan of `updateWellControls` switches it to that control; the call as a
whole leaves it there and marks the node as under individual control. -/
theorem C19_counterexample :
    sampleGroupProducerModel.well_collection_.groupControlActive = true ∧
    sampleGroupProducerModel.well_collection_.leafNodes.map
      (fun node => (node.name, node.groupControlIndex)) = [("P1", 0)] ∧
    sampleProducerState.currentControls = [0] ∧
    brokenAt sampleExternal sampleGroupProducerModel sampleProducerState 0 1 = true ∧
    (scanWells sampleExternal sampleGroupProducerModel sampleProducerState).2.currentControls
      = [1] ∧
    (updateWellControls sampleExternal sampleGroupProducerModel
      sampleProducerState).2.currentControls = [1] ∧
    (updateWellControls sampleExternal sampleGroupProducerModel
      sampleProducerState).1.well_collection_.leafNodes.map
      (fun node => node.individualControl) = [true] := by
  decide!

/-- C19, amended. With group control active, a well that is under group control on entry (its
leaf node has a group control index that is non-negative and equal to the well's current
control) is not excluded from the constraint scan of `updateWellControls`: after the scan its
current control is the scanned control, the first broken constraint other than the current
one, and it is the control on entry exactly when no other constraint of the well is broken. -/
theorem C19_group_controlled_well_is_scanned (E : External) (self : StandardWellsDense)
    (xw : WellState) (w : Nat) (node : WellNode)
    (hw : w < self.nw) (hlen : w < xw.currentControls.length)
    (_hg : self.well_collection_.groupControlActive = true)
    (_hnode : node ∈ self.well_collection_.leafNodes)
    (_hname : node.name = self.wells_.name.getD w "")
    (_hidx : 0 ≤ node.groupControlIndex)
    (_hcur : node.groupControlIndex = xw.currentControls.getD w 0) :
    (scanWells E self xw).2.currentControls.getD w 0 = scannedControl E self xw w ∧
    ((scanWells E self xw).2.currentControls.getD w 0 = xw.currentControls.getD w 0 ↔
      ∀ i, i < well_controls_get_num (self.wellCtrls w) →
        (i : Int) ≠ xw.currentControls.getD w 0 → brokenAt E self xw w i = false) := by
  have h := scanWells_currentControls E self xw w hw hlen
  refine ⟨h, ?_⟩
  rw [h]
  exact scannedControl_eq_iff E self xw w

/-- C19, amended, at the producer `P1` under group control: the scan gives it the scanned
control 1. -/
theorem C19_group_controlled_well_is_scanned_witness :
    (scanWells sampleExternal sampleGroupProducerModel
      sampleProducerState).2.currentControls.getD 0 0
      = scannedControl sampleExternal sampleGroupProducerModel sampleProducerState 0 ∧
    scannedControl sampleExternal sampleGroupProducerModel sampleProducerState 0 = 1 :=
  ⟨(C19_group_controlled_well_is_scanned sampleExternal sampleGroupProducerModel
      sampleProducerState 0
      { name := "P1", selfIndex := 0, isInjector := false, individualControl := false,
        groupControlIndex := 0 }
      (by decide) (by decide) rfl (by decide) rfl (by decide) rfl).1,
    by decide!⟩


/-! ## Deferred exceptions across ranks -/

/-- A running maximum bounds its start value and every value met, and is one of them. -/
theorem foldl_max_spec (l : List Int) :
    ∀ a : Int, a ≤ l.foldl max a ∧ (∀ x, x ∈ l → x ≤ l.foldl max a)
      ∧ (l.foldl max a = a ∨ l.foldl max a ∈ l) := by
  induction l with
  | nil =>
    intro a
    exact ⟨le_refl a, fun x hx => absurd hx (List.not_mem_nil x), Or.inl rfl⟩
  | cons b rest ih =>
    intro a
    rw [List.foldl_cons]
    obtain ⟨h1, h2, h3⟩ := ih (max a b)
    refine ⟨le_trans (le_max_left a b) h1, ?_, ?_⟩
    · intro x hx
      rcases List.mem_cons.mp hx with hxb | hxr
      · rw [hxb]; exact le_trans (le_max_right a b) h1
      · exact h2 x hxr
    · rcases h3 with h | h
      · rcases max_choice a b with hm | hm
        · exact Or.inl (h.trans hm)
        · exact Or.inr (by rw [h, hm]; exact List.mem_cons_self b rest)
      · exact Or.inr (List.mem_cons_of_mem b h)

/-- What a rank receives from `cc.max` is the largest of the values of the ranks. -/
theorem ccMax_spec (values : List Int) (rank : Nat) (h : rank < values.length) :
    (∀ j, j < values.length → values.getD j 0 ≤ ccMax values rank) ∧
    ∃ i, i < values.length ∧ values.getD i 0 = ccMax values rank := by
  obtain ⟨h1, h2, h3⟩ := foldl_max_spec values (values.getD rank 0)
  refine ⟨?_, ?_⟩
  · intro j hj
    apply h2
    rw [List.getD_eq_getElem _ _ hj]
    exact List.getElem_mem hj
  · rcases h3 with h3 | h3
    · exact ⟨rank, h, h3.symm⟩
    · obtain ⟨i, hi, hie⟩ := List.getElem_of_mem h3
      exact ⟨i, hi, by rw [List.getD_eq_getElem _ _ hi]; exact hie⟩

/-- The maximum that `cc.max` returns is 1 exactly when some rank passes 1 and no rank passes
more. -/
theorem ccMax_eq_one_iff (values : List Int) (rank : Nat) (h : rank < values.length) :
    ccMax values rank = 1 ↔
      (∃ i, i < values.length ∧ values.getD i 0 = 1)
        ∧ ∀ j, j < values.length → values.getD j 0 ≤ 1 := by
  obtain ⟨hb, i, hi, hie⟩ := ccMax_spec values rank h
  constructor
  · intro hm
    exact ⟨⟨i, hi, hie.trans hm⟩, fun j hj => hm ▸ hb j hj⟩
  · rintro ⟨⟨k, hk, hk1⟩, hall⟩
    apply le_antisymm
    · rw [← hie]; exact hall i hi
    · rw [← hk1]; exact hb k hk

/-- C20 fails in its last part: with the flags 0 and 2 on two ranks, rank 1 reports a non-zero
flag, the maximum is 2, and neither the function nor the macro raises on any rank. -/
theorem C20_counterexample :
    ([0, 2] : List Int).getD 1 0 ≠ 0 ∧
    ccMax [0, 2] 0 = 2 ∧ ccMax [0, 2] 1 = 2 ∧
    check_for_exceptions_and_throw [0, 2] 0 "fatal" = Except.ok () ∧
    check_for_exceptions_and_throw [0, 2] 1 "fatal" = Except.ok () ∧
    OPM_CHECK_FOR_EXCEPTIONS_AND_THROW [0, 2] 0 "fatal" = Except.ok () ∧
    OPM_CHECK_FOR_EXCEPTIONS_AND_THROW [0, 2] 1 "fatal" = Except.ok () := by
  decide

/-- C20, amended. For every assignment of flags to the ranks, `check_for_exceptions_and_throw`
raises on a rank if and only if the maximum of the flags over all ranks is 1, that is, some
rank's flag is 1 and no rank's flag is larger; the outcome is the same on every rank and the
macro does the same as the function; so whenever at least one rank reports the flag 1 and no
rank reports a larger flag, every rank raises. -/
theorem C20_raises_iff_max_is_one (exception_thrown : List Int) (rank other : Nat)
    (message : String)
    (hrank : rank < exception_thrown.length) (hother : other < exception_thrown.length) :
    (check_for_exceptions_and_throw exception_thrown rank message = Except.error message
      ↔ ((∃ i, i < exception_thrown.length ∧ exception_thrown.getD i 0 = 1)
          ∧ ∀ j, j < exception_thrown.length → exception_thrown.getD j 0 ≤ 1)) ∧
    check_for_exceptions_and_throw exception_thrown other message
      = check_for_exceptions_and_throw exception_thrown rank message ∧
    OPM_CHECK_FOR_EXCEPTIONS_AND_THROW exception_thrown rank message
      = check_for_exceptions_and_throw exception_thrown rank message ∧
    ((∃ i, i < exception_thrown.length ∧ exception_thrown.getD i 0 = 1) →
      (∀ j, j < exception_thrown.length → exception_thrown.getD j 0 ≤ 1) →
      check_for_exceptions_and_throw exception_thrown rank message = Except.error message) := by
  have hiff := ccMax_eq_one_iff exception_thrown rank hrank
  have hiff2 := ccMax_eq_one_iff exception_thrown other hother
  have hthrow : check_for_exceptions_and_throw exception_thrown rank message
      = Except.error message ↔ ccMax exception_thrown rank = 1 := by
    unfold check_for_exceptions_and_throw
    split_ifs with hc
    · exact ⟨fun _ => hc, fun _ => rfl⟩
    · exact ⟨fun he => (by cases he), fun h1 => absurd h1 hc⟩
  refine ⟨hthrow.trans hiff, ?_, rfl, fun h1 h2 => hthrow.mpr (hiff.mpr ⟨h1, h2⟩)⟩
  unfold check_for_exceptions_and_throw
  by_cases hc : ccMax exception_thrown rank = 1
  · rw [if_pos hc, if_pos (hiff2.mpr (hiff.mp hc))]
  · rw [if_neg hc, if_neg (fun h2 => hc (hiff.mpr (hiff2.mp h2)))]

/-- C20, amended, with the flags 0, 1, 0 on three ranks: rank 0 raises, and so does rank 2. -/
theorem C20_raises_iff_max_is_one_witness :
    check_for_exceptions_and_throw [0, 1, 0] 0 "fatal" = Except.error "fatal" ∧
    check_for_exceptions_and_throw [0, 1, 0] 2 "fatal"
      = check_for_exceptions_and_throw [0, 1, 0] 0 "fatal" :=
  have h := C20_raises_iff_max_is_one [0, 1, 0] 0 2 "fatal" (by decide) (by decide)
  ⟨h.2.2.2 ⟨1, by decide, by decide⟩ (by decide), h.2.1⟩


/-! ## Ties and the assertions of the ratio check -/

/-- The search of lines 1618-1624 with a positive result: the connection recorded is the first
one whose water cut is the maximum, every earlier connection having a strictly smaller water
cut. -/
theorem worstWaterCut_first (wcp : List ℚ) (k : Nat) (hpos : 0 < (worstWaterCut wcp k).2) :
    ∃ i, i < k ∧ (worstWaterCut wcp k).1 = (i : Int) ∧ rd wcp i = (worstWaterCut wcp k).2
      ∧ (∀ j, j < i → rd wcp j < (worstWaterCut wcp k).2)
      ∧ ∀ j, j < k → rd wcp j ≤ (worstWaterCut wcp k).2 := by
  induction k with
  | zero =>
    exact absurd hpos (lt_irrefl _)
  | succ k ih =>
    have hstep : worstWaterCut wcp (k + 1)
        = if rd wcp k > (worstWaterCut wcp k).2 then ((k : Int), rd wcp k)
          else worstWaterCut wcp k := by
      unfold worstWaterCut
      rw [forRange_succ]
    obtain ⟨hb, _⟩ := worstWaterCut_spec wcp k
    rw [hstep] at hpos ⊢
    by_cases hgt : rd wcp k > (worstWaterCut wcp k).2
    · rw [if_pos hgt]
      refine ⟨k, Nat.lt_succ_self k, rfl, rfl, ?_, ?_⟩
      · intro j hj
        exact lt_of_le_of_lt (hb j hj) hgt
      · intro j hj
        by_cases hjk : j = k
        · rw [hjk]
        · exact le_of_lt (lt_of_le_of_lt (hb j (by omega)) hgt)
    · rw [if_neg hgt] at hpos ⊢
      obtain ⟨i, hi, h1, h2, h3, h4⟩ := ih hpos
      refine ⟨i, Nat.lt_succ_of_lt hi, h1, h2, h3, ?_⟩
      intro j hj
      by_cases hjk : j = k
      · rw [hjk]; exact not_lt.mp hgt
      · exact h4 j (by omega)

/-- Where some connection has a positive water cut, `checkMaxWaterCutLimit` breaks ties as
expected: for a well with a violated water-cut limit and other than one connection it returns
the lowest index among the connections whose water cut is the maximum. -/
theorem checkMaxWaterCutLimit_first (swd : StandardWellsDense) (econ : WellEconProductionLimits)
    (well_state : WellState) (map_entry : WellMapEntryType)
    (hviol : waterCut
        (rd well_state.wellRates (map_entry.well_number * swd.np + swd.phasePos Oil))
        (rd well_state.wellRates (map_entry.well_number * swd.np + swd.phasePos Water))
      > econ.maxWaterCut)
    (hmany : map_entry.perf_number ≠ 1)
    (hpos : ∃ p, p < map_entry.perf_number ∧ 0 < rd (waterCutPerf swd well_state map_entry) p) :
    ∃ i, i < map_entry.perf_number ∧
      (checkMaxWaterCutLimit swd econ well_state map_entry).2.2.1 = (i : Int) ∧
      (∀ j, j < map_entry.perf_number →
        rd (waterCutPerf swd well_state map_entry) j
          ≤ rd (waterCutPerf swd well_state map_entry) i) ∧
      ∀ j, j < i →
        rd (waterCutPerf swd well_state map_entry) j
          < rd (waterCutPerf swd well_state map_entry) i := by
  have hp : 0 < (worstWaterCut (waterCutPerf swd well_state map_entry)
      map_entry.perf_number).2 := by
    obtain ⟨hb, _⟩ := worstWaterCut_spec (waterCutPerf swd well_state map_entry)
      map_entry.perf_number
    obtain ⟨p, hp1, hp2⟩ := hpos
    exact lt_of_lt_of_le hp2 (hb p hp1)
  obtain ⟨i, hi, h1, h2, h3, h4⟩ := worstWaterCut_first _ _ hp
  refine ⟨i, hi, ?_, ?_, ?_⟩
  · unfold checkMaxWaterCutLimit
    dsimp only
    rw [if_pos hviol, if_neg hmany]
    exact h1
  · intro j hj
    rw [h2]
    exact h4 j hj
  · intro j hj
    rw [h2]
    exact h3 j hj

/-- The connections 1 and 2 of `sampleTieState` share the largest water cut 0.99 and
`checkMaxWaterCutLimit` returns connection 1. -/
theorem checkMaxWaterCutLimit_tie_example :
    waterCutPerf sampleEconModel sampleTieState
      { well_number := 0, perf_start := 0, perf_number := 3 } = [9 / 10, 99 / 100, 99 / 100] ∧
    checkMaxWaterCutLimit sampleEconModel (sampleEconLimits 1) sampleTieState
      { well_number := 0, perf_start := 0, perf_number := 3 } = (true, false, 1, 99 / 80) := by
  decide!

/-- C21 fails on a well with cross flow. The connections 1 and 2 of the producer `P1` of
`sampleCrossFlowTieState` share the largest water cut -1/11 of its three connections and the
well-level water cut 0.9 exceeds the limit 0.8, but `checkMaxWaterCutLimit` returns as
worst-offending connection `INVALIDCONNECTION` = -10000 and not the lowest index 1 of the two,
because no water cut exceeds the start value 0 of the search. -/
theorem C21_no_first_of_tie_for_cross_flow :
    waterCutPerf sampleEconModel sampleCrossFlowTieState
      { well_number := 0, perf_start := 0, perf_number := 3 } = [-10, -1 / 11, -1 / 11] ∧
    waterCut (rd sampleCrossFlowTieState.wellRates 1) (rd sampleCrossFlowTieState.wellRates 0)
      = 9 / 10 ∧
    (checkMaxWaterCutLimit sampleEconModel (sampleEconLimits 1) sampleCrossFlowTieState
      { well_number := 0, perf_start := 0, perf_number := 3 }).1 = true ∧
    (checkMaxWaterCutLimit sampleEconModel (sampleEconLimits 1) sampleCrossFlowTieState
      { well_number := 0, perf_start := 0, perf_number := 3 }).2.2.1 = INVALIDCONNECTION ∧
    (checkMaxWaterCutLimit sampleEconModel (sampleEconLimits 1) sampleCrossFlowTieState
      { well_number := 0, perf_start := 0, perf_number := 3 }).2.2.1 ≠ 1 := by
  decide!

/-- C30 fails on a well with cross flow. In `sampleCrossFlowState` the rates of the producer
`P1` are the sums of the rates of its three connections, and `checkRatioEconLimits` reports a
violation with the connection index `INVALIDCONNECTION` = -10000, which is not in [0, 3), and
the extent 0, which is not greater than 1: the assertions of lines 1552-1553 and of lines
1625-1626 fail on this input. -/
theorem C30_ratio_assertions_fail_for_cross_flow :
    (∀ p, p < 3 →
      rd sampleCrossFlowState.wellRates p
        = rd sampleCrossFlowState.perfPhaseRates p
          + rd sampleCrossFlowState.perfPhaseRates (3 + p)
          + rd sampleCrossFlowState.perfPhaseRates (6 + p)) ∧
    checkRatioEconLimits sampleEconModel (sampleEconLimits 1) sampleCrossFlowState
      { well_number := 0, perf_start := 0, perf_number := 3 }
      = (true, false, INVALIDCONNECTION, 0) ∧
    ¬ (0 ≤ (checkRatioEconLimits sampleEconModel (sampleEconLimits 1) sampleCrossFlowState
          { well_number := 0, perf_start := 0, perf_number := 3 }).2.2.1
        ∧ (checkRatioEconLimits sampleEconModel (sampleEconLimits 1) sampleCrossFlowState
          { well_number := 0, perf_start := 0, perf_number := 3 }).2.2.1 < 3) ∧
    ¬ ((checkRatioEconLimits sampleEconModel (sampleEconLimits 1) sampleCrossFlowState
          { well_number := 0, perf_start := 0, perf_number := 3 }).2.2.2 > 1) ∧
    worstWaterCutAsserts (waterCutPerf sampleEconModel sampleCrossFlowState
      { well_number := 0, perf_start := 0, perf_number := 3 }) 3 = false := by
  decide!


/-! ## Loops that write well rates -/

/-- A loop that writes the well rate of index `idx p` for `p = 0 .. k-1`, the indices being
distinct and the value written not depending on the rates and well solutions before it: the
other fields are kept, the length of the rates is kept, a rate outside the indices is kept,
and the rate of index `idx p` is the value written for `p`. -/
theorem ratesLoop_spec (idx : Nat → Nat) (f : Nat → WellState → ℚ) (s0 : WellState)
    (hinj : ∀ p q, idx p = idx q → p = q)
    (hf : ∀ p st, st.wellSolutions = s0.wellSolutions → f p st = f p s0) :
    ∀ k,
      (forRange k (fun p (st : WellState) =>
        { st with wellRates := st.wellRates.set (idx p) (f p st) }) s0).bhp = s0.bhp ∧
      (forRange k (fun p (st : WellState) =>
        { st with wellRates := st.wellRates.set (idx p) (f p st) }) s0).wellSolutions
        = s0.wellSolutions ∧
      (forRange k (fun p (st : WellState) =>
        { st with wellRates := st.wellRates.set (idx p) (f p st) }) s0).currentControls
        = s0.currentControls ∧
      (forRange k (fun p (st : WellState) =>
        { st with wellRates := st.wellRates.set (idx p) (f p st) }) s0).wellRates.length
        = s0.wellRates.length ∧
      (∀ j, (∀ p, p < k → j ≠ idx p) →
        rd (forRange k (fun p (st : WellState) =>
          { st with wellRates := st.wellRates.set (idx p) (f p st) }) s0).wellRates j
          = rd s0.wellRates j) ∧
      (∀ p, p < k → idx p < s0.wellRates.length →
        rd (forRange k (fun p (st : WellState) =>
          { st with wellRates := st.wellRates.set (idx p) (f p st) }) s0).wellRates (idx p)
          = f p s0) := by
  intro k
  induction k with
  | zero =>
    exact ⟨rfl, rfl, rfl, rfl, fun _ _ => rfl, fun p hp => absurd hp (Nat.not_lt_zero p)⟩
  | succ k ih =>
    obtain ⟨i1, i2, i3, i4, i5, i6⟩ := ih
    rw [forRange_succ]
    generalize forRange k (fun p (st : WellState) =>
      { st with wellRates := st.wellRates.set (idx p) (f p st) }) s0 = t at i1 i2 i3 i4 i5 i6
    refine ⟨i1, i2, i3, by simp only [List.length_set]; exact i4, ?_, ?_⟩
    · intro j hj
      show rd (t.wellRates.set (idx k) (f k t)) j = rd s0.wellRates j
      rw [rd_set, if_neg (fun h => hj k (Nat.lt_succ_self k) h.1.symm)]
      exact i5 j (fun p hp => hj p (Nat.lt_succ_of_lt hp))
    · intro p hp hlt
      show rd (t.wellRates.set (idx k) (f k t)) (idx p) = f p s0
      by_cases hpk : p = k
      · subst hpk
        rw [rd_set, if_pos ⟨rfl, by rw [i4]; exact hlt⟩]
        exact hf p t i2
      · rw [rd_set, if_neg (fun h => hpk (hinj _ _ h.1).symm)]
        exact i6 p (by omega) hlt


/-! ## Re-seeding for a surface rate control -/

theorem seedXvarWell_wellRates (self : StandardWellsDense)
    (wc : WellControls) (current : Int) (well_index : Nat) (g : List ℚ) (xw : WellState) :
    (seedXvarWell self wc current well_index g xw).wellRates = xw.wellRates := by
  unfold seedXvarWell
  simp only []
  split
  · split
    · exact forRange_preserves (fun (st : WellState) => st.wellRates = xw.wellRates)
        _ _ _ rfl (fun i t ht => ht)
    · exact forRange_preserves (fun (st : WellState) => st.wellRates = xw.wellRates)
        _ _ _ rfl (fun i t ht => ht)
  · split
    · exact forRange_preserves (fun (st : WellState) => st.wellRates = xw.wellRates)
        _ _ _ rfl (fun i t ht => ht)
    · exact forRange_preserves (fun (st : WellState) => st.wellRates = xw.wellRates)
        _ _ _ rfl (fun i t ht => ht)
  · rfl
  · rfl

theorem seedFractions_wellRates (self : StandardWellsDense)
    (well_index : Nat) (g : List ℚ) (xw : WellState) :
    (seedFractions self well_index g xw).wellRates = xw.wellRates := by
  unfold seedFractions
  simp only []
  split_ifs <;> rfl

/-- The rates after `updateWellStateWithTarget` are those that its first switch leaves. -/
theorem updateWellStateWithTarget_wellRates (E : External) (self : StandardWellsDense)
    (wc : WellControls) (current : Int) (well_index : Nat) (xw : WellState) :
    (updateWellStateWithTarget E self wc current well_index xw).wellRates
      = (seedFromTarget E self wc current well_index xw).wellRates := by
  unfold updateWellStateWithTarget
  simp only []
  rw [seedFractions_wellRates, seedXvarWell_wellRates]

/-- The count of lines 1722-1727 after `k` phases is at least the number of the two distinct
phases `q1`, `q2` with a positive weight that are below `k`. -/
theorem phaseCount_two (distr : List ℚ) (q1 q2 : Nat) (hne : q1 ≠ q2)
    (h1 : rd distr q1 > 0) (h2 : rd distr q2 > 0) :
    ∀ k, (if q1 < k then 1 else 0) + (if q2 < k then 1 else 0)
      ≤ forRange k (fun phase (n : Nat) => if rd distr phase > 0 then n + 1 else n) 0 := by
  intro k
  induction k with
  | zero => simp [forRange_zero]
  | succ k ih =>
    rw [forRange_succ]
    by_cases hk1 : k = q1
    · subst hk1
      rw [if_pos h1]
      have : ¬ q2 < k + 1 ∨ q2 < k := by omega
      split_ifs at ih ⊢ <;> omega
    · by_cases hk2 : k = q2
      · subst hk2
        rw [if_pos h2]
        split_ifs at ih ⊢ <;> omega
      · have e1 : (q1 < k + 1) = (q1 < k) := by
          apply propext; constructor <;> intro h <;> omega
        have e2 : (q2 < k + 1) = (q2 < k) := by
          apply propext; constructor <;> intro h <;> omega
        simp only [e1, e2]
        split_ifs at ih ⊢ <;> omega

/-- The count of lines 1722-1727 after `k` phases when `q` is the only phase with a positive
weight. -/
theorem phaseCount_one (distr : List ℚ) (np q : Nat) (hq : rd distr q > 0)
    (hothers : ∀ p, p < np → p ≠ q → ¬ rd distr p > 0) :
    ∀ k, k ≤ np →
      forRange k (fun phase (n : Nat) => if rd distr phase > 0 then n + 1 else n) 0
        = if q < k then 1 else 0 := by
  intro k
  induction k with
  | zero => intro _; rfl
  | succ k ih =>
    intro hk
    rw [forRange_succ, ih (Nat.le_of_succ_le hk)]
    by_cases hkq : k = q
    · subst hkq
      rw [if_pos hq, if_neg (Nat.lt_irrefl _), if_pos (Nat.lt_succ_self _)]
    · rw [if_neg (hothers k (by omega) hkq)]
      by_cases hlt : q < k
      · rw [if_pos hlt, if_pos (Nat.lt_succ_of_lt hlt)]
      · rw [if_neg hlt, if_neg (by omega)]

/-- The loop of lines 1728-1732 when `q` is the only phase with a positive weight: it writes
the rate of phase `q` and no other. -/
theorem singlePhaseLoop (distr : List ℚ) (np q base count : Nat) (target : ℚ) (xw : WellState)
    (hq : rd distr q > 0) (hcount : count < 2)
    (hothers : ∀ p, p < np → p ≠ q → ¬ rd distr p > 0) :
    ∀ k, k ≤ np →
      forRange k (fun phase (st : WellState) =>
        if rd distr phase > 0 ∧ count < 2 then
          { st with wellRates := st.wellRates.set (base + phase) (target * rd distr phase) }
        else st) xw
      = if q < k then
          { xw with wellRates := xw.wellRates.set (base + q) (target * rd distr q) }
        else xw := by
  intro k
  induction k with
  | zero => intro _; rfl
  | succ k ih =>
    intro hk
    rw [forRange_succ, ih (Nat.le_of_succ_le hk)]
    by_cases hkq : k = q
    · subst hkq
      rw [if_pos ⟨hq, hcount⟩, if_neg (Nat.lt_irrefl _), if_pos (Nat.lt_succ_self _)]
    · rw [if_neg (fun h => hothers k (by omega) hkq h.1)]
      by_cases hlt : q < k
      · rw [if_pos hlt, if_pos (Nat.lt_succ_of_lt hlt)]
      · rw [if_neg hlt, if_neg (by omega)]


/-- The first switch of `updateWellStateWithTarget` for a surface rate control of an injector:
every phase rate is the target times the declared injection composition. -/
theorem seedFromTarget_injector (E : External) (self : StandardWellsDense) (wc : WellControls)
    (current : Int) (w : Nat) (xw : WellState)
    (htype : well_controls_iget_type wc current = WellControlType.SURFACE_RATE)
    (hinj : self.wellType w = WellType.INJECTOR)
    (hlen : self.np * w + self.np ≤ xw.wellRates.length) :
    ∀ p, p < self.np →
      rd (seedFromTarget E self wc current w xw).wellRates (self.np * w + p)
        = well_controls_iget_target wc current * rd self.wells_.comp_frac (self.np * w + p) := by
  intro p hp
  unfold seedFromTarget
  simp only []
  rw [htype]
  simp only []
  rw [hinj]
  simp only []
  exact (ratesLoop_spec (fun phase => self.np * w + phase)
    (fun phase _ => well_controls_iget_target wc current
      * rd self.wells_.comp_frac (self.np * w + phase)) xw
    (fun a b h => Nat.add_left_cancel h) (fun _ _ _ => rfl) self.np).2.2.2.2.2 p hp (by omega)

/-- The first switch of `updateWellStateWithTarget` for a surface rate control of a producer
with the single phase `q` under the limit: the rate of `q` is the target times its weight and
the other rates are kept. -/
theorem seedFromTarget_single (E : External) (self : StandardWellsDense) (wc : WellControls)
    (current : Int) (w q : Nat) (xw : WellState)
    (htype : well_controls_iget_type wc current = WellControlType.SURFACE_RATE)
    (hprod : self.wellType w = WellType.PRODUCER)
    (hq : q < self.np) (hpos : rd (well_controls_iget_distr wc current) q > 0)
    (hothers : ∀ p, p < self.np → p ≠ q → ¬ rd (well_controls_iget_distr wc current) p > 0) :
    (seedFromTarget E self wc current w xw).wellRates
      = xw.wellRates.set (self.np * w + q)
          (well_controls_iget_target wc current * rd (well_controls_iget_distr wc current) q) := by
  unfold seedFromTarget
  simp only []
  rw [htype]
  simp only []
  rw [hprod]
  simp only []
  rw [singlePhaseLoop (well_controls_iget_distr wc current) self.np q (self.np * w) _
    (well_controls_iget_target wc current) xw hpos
    (by rw [phaseCount_one _ self.np q hpos hothers self.np (Nat.le_refl _), if_pos hq]
        decide)
    hothers self.np (Nat.le_refl _), if_pos hq]

/-- The first switch of `updateWellStateWithTarget` for a surface rate control of a producer
with two phases under the limit: nothing is written. -/
theorem seedFromTarget_several (E : External) (self : StandardWellsDense) (wc : WellControls)
    (current : Int) (w q1 q2 : Nat) (xw : WellState)
    (htype : well_controls_iget_type wc current = WellControlType.SURFACE_RATE)
    (hprod : self.wellType w = WellType.PRODUCER)
    (h1 : q1 < self.np) (h2 : q2 < self.np) (hne : q1 ≠ q2)
    (hp1 : rd (well_controls_iget_distr wc current) q1 > 0)
    (hp2 : rd (well_controls_iget_distr wc current) q2 > 0) :
    seedFromTarget E self wc current w xw = xw := by
  have hcount := phaseCount_two (well_controls_iget_distr wc current) q1 q2 hne hp1 hp2 self.np
  rw [if_pos h1, if_pos h2] at hcount
  unfold seedFromTarget
  simp only []
  rw [htype]
  simp only []
  rw [hprod]
  simp only []
  apply forRange_const
  intro i
  rw [if_neg (fun h => by omega)]


/-- C22 fails for a producer with several phases under the limit, and for an injector whose
declared composition does not have the weighted sum 1. Re-seeding the producer `P1` (rates
-200, -150, 0) for its liquid rate control (weights 1, 1, 0 and target -100) leaves the rates
as they are, with the weighted sum -350; re-seeding an injector with the composition 1/2, 1/2,
0 for a water rate control (weights 1, 0, 0 and target 100) gives the rates 50, 50, 0 with the
weighted sum 50. -/
theorem C22_counterexample :
    well_controls_iget_type (sampleLiquidRateControls 1) 1 = WellControlType.SURFACE_RATE ∧
    (updateWellStateWithTarget sampleExternal sampleProducerModel (sampleLiquidRateControls 1)
      1 0 sampleProducerState).wellRates = [-200, -150, 0] ∧
    weightedRate 3 (well_controls_iget_distr (sampleLiquidRateControls 1) 1)
      (updateWellStateWithTarget sampleExternal sampleProducerModel (sampleLiquidRateControls 1)
        1 0 sampleProducerState).wellRates 0 = -350 ∧
    well_controls_iget_target (sampleLiquidRateControls 1) 1 = -100 ∧
    (updateWellStateWithTarget sampleExternal (sampleRateInjectorModel [1 / 2, 1 / 2, 0])
      (sampleWaterRateControls 1) 1 0 sampleInjectorState).wellRates = [50, 50, 0] ∧
    weightedRate 3 (well_controls_iget_distr (sampleWaterRateControls 1) 1)
      (updateWellStateWithTarget sampleExternal (sampleRateInjectorModel [1 / 2, 1 / 2, 0])
        (sampleWaterRateControls 1) 1 0 sampleInjectorState).wellRates 0 = 50 ∧
    well_controls_iget_target (sampleWaterRateControls 1) 1 = 100 := by
  decide!

/-- C22, amended. After `updateWellStateWithTarget` re-seeds well `w` for a surface rate
control (the rates of the well being within the rate vector): for an injector every phase
rate is the target times the declared injection composition, so the distribution-weighted sum
of the rates is the target times the distribution-weighted sum of the composition, the target
itself when that sum is 1; for a producer with exactly one phase under the limit, of weight 1
with the other weights 0, the distribution-weighted sum of the rates is the target; for a
producer with two or more phases under the limit the rates are left as they were. -/
theorem C22_surface_rate_seed (E : External) (self : StandardWellsDense) (wc : WellControls)
    (current : Int) (w : Nat) (xw : WellState)
    (htype : well_controls_iget_type wc current = WellControlType.SURFACE_RATE)
    (hlen : self.np * w + self.np ≤ xw.wellRates.length) :
    (self.wellType w = WellType.INJECTOR →
      (∀ p, p < self.np →
        rd (updateWellStateWithTarget E self wc current w xw).wellRates (self.np * w + p)
          = well_controls_iget_target wc current
            * rd self.wells_.comp_frac (self.np * w + p)) ∧
      weightedRate self.np (well_controls_iget_distr wc current)
          (updateWellStateWithTarget E self wc current w xw).wellRates w
        = well_controls_iget_target wc current
          * weightedRate self.np (well_controls_iget_distr wc current)
              self.wells_.comp_frac w) ∧
    (self.wellType w = WellType.PRODUCER →
      ∀ q, q < self.np → rd (well_controls_iget_distr wc current) q = 1 →
        (∀ p, p < self.np → p ≠ q → rd (well_controls_iget_distr wc current) p = 0) →
        weightedRate self.np (well_controls_iget_distr wc current)
            (updateWellStateWithTarget E self wc current w xw).wellRates w
          = well_controls_iget_target wc current) ∧
    (self.wellType w = WellType.PRODUCER →
      ∀ q1 q2, q1 < self.np → q2 < self.np → q1 ≠ q2 →
        rd (well_controls_iget_distr wc current) q1 > 0 →
        rd (well_controls_iget_distr wc current) q2 > 0 →
        (updateWellStateWithTarget E self wc current w xw).wellRates = xw.wellRates) := by
  rw [updateWellStateWithTarget_wellRates]
  refine ⟨?_, ?_, ?_⟩
  · intro hinj
    have hr := seedFromTarget_injector E self wc current w xw htype hinj hlen
    refine ⟨hr, ?_⟩
    unfold weightedRate
    rw [Finset.mul_sum]
    apply Finset.sum_congr rfl
    intro p hp
    rw [hr p (Finset.mem_range.mp hp)]
    ring
  · intro hprod q hq hq1 hothers
    rw [seedFromTarget_single E self wc current w q xw htype hprod hq (by rw [hq1]; norm_num)
      (fun p hp hpq => by rw [hothers p hp hpq]; norm_num)]
    unfold weightedRate
    rw [Finset.sum_eq_single q]
    · rw [rd_set, if_pos ⟨rfl, by omega⟩, hq1]
      ring
    · intro p hp hpq
      rw [hothers p (Finset.mem_range.mp hp) hpq]
      ring
    · intro hnot
      exact absurd (Finset.mem_range.mpr hq) hnot
  · intro hprod q1 q2 h1 h2 hne hp1 hp2
    rw [seedFromTarget_several E self wc current w q1 q2 xw htype hprod h1 h2 hne hp1 hp2]

/-- C22, amended, at a water injector with the composition 1, 0, 0 re-seeded for its water
rate control of target 100: the rates are 100, 0, 0 and their weighted sum is the target. -/
theorem C22_surface_rate_seed_witness :
    (updateWellStateWithTarget sampleExternal (sampleRateInjectorModel [1, 0, 0])
      (sampleWaterRateControls 1) 1 0 sampleInjectorState).wellRates = [100, 0, 0] ∧
    weightedRate 3 (well_controls_iget_distr (sampleWaterRateControls 1) 1)
        (updateWellStateWithTarget sampleExternal (sampleRateInjectorModel [1, 0, 0])
          (sampleWaterRateControls 1) 1 0 sampleInjectorState).wellRates 0
      = well_controls_iget_target (sampleWaterRateControls 1) 1
        * weightedRate 3 (well_controls_iget_distr (sampleWaterRateControls 1) 1)
            (sampleRateInjectorModel [1, 0, 0]).wells_.comp_frac 0 :=
  ⟨by decide!,
    ((C22_surface_rate_seed sampleExternal (sampleRateInjectorModel [1, 0, 0])
      (sampleWaterRateControls 1) 1 0 sampleInjectorState rfl (by decide)).1 rfl).2⟩


/-! ## `updateWellState` well by well -/

/-- A quantity `slot` that only pass `w` of a counted loop changes has, after the loop, the
value that pass `w` gave it; an invariant of the passes holds of the state that pass `w`
starts from. -/
theorem forRange_at {σ α : Type} (body : Nat → σ → σ) (slot : σ → α) (inv : σ → Prop)
    (n w : Nat) (hw : w < n) (s0 : σ) (h0 : inv s0)
    (hinv : ∀ v t, inv t → inv (body v t))
    (hframe : ∀ v t, v < n → v ≠ w → inv t → slot (body v t) = slot t) :
    inv (forRange w body s0) ∧
    slot (forRange n body s0) = slot (body w (forRange w body s0)) := by
  have hall : ∀ k, inv (forRange k body s0) :=
    fun k => forRange_preserves inv k body s0 h0 hinv
  refine ⟨hall w, ?_⟩
  have key : ∀ k, w < k → k ≤ n →
      slot (forRange k body s0) = slot (body w (forRange w body s0)) := by
    intro k
    induction k with
    | zero => intro h; omega
    | succ k ih =>
      intro h1 h2
      rw [forRange_succ]
      by_cases hk : k = w
      · rw [hk]
      · rw [hframe k _ (by omega) hk (hall k)]
        exact ih (by omega) (by omega)
  exact key n hw (Nat.le_refl n)

theorem rd_set_ne (l : List ℚ) (i j : Nat) (v : ℚ) (h : i ≠ j) : rd (l.set i v) j = rd l j :=
  getD_set_other l i j v 0 h

/-- The fraction part of the loop body writes well solutions only. -/
theorem fractionUpdate_fields (E : External) (self : StandardWellsDense)
    (dwells xold : List ℚ) (w : Nat) (st : WellState) :
    (fractionUpdate E self dwells xold w st).bhp = st.bhp ∧
    (fractionUpdate E self dwells xold w st).wellRates = st.wellRates ∧
    (fractionUpdate E self dwells xold w st).currentControls = st.currentControls ∧
    (fractionUpdate E self dwells xold w st).wellSolutions.length = st.wellSolutions.length ∧
    ∀ j, j ≠ WFrac * self.nw + w → j ≠ GFrac * self.nw + w →
      rd (fractionUpdate E self dwells xold w st).wellSolutions j = rd st.wellSolutions j := by
  unfold fractionUpdate
  dsimp only
  refine ⟨?_, ?_, ?_, ?_, ?_⟩
  · split_ifs <;> rfl
  · split_ifs <;> rfl
  · split_ifs <;> rfl
  · split_ifs <;> simp only [List.length_set]
  · intro j h1 h2
    have e1 : ∀ (l : List ℚ) (v : ℚ), rd (l.set (WFrac * self.nw + w) v) j = rd l j :=
      fun l v => rd_set_ne l _ _ v (Ne.symm h1)
    have e2 : ∀ (l : List ℚ) (v : ℚ), rd (l.set (GFrac * self.nw + w) v) j = rd l j :=
      fun l v => rd_set_ne l _ _ v (Ne.symm h2)
    split_ifs <;> simp only [e1, e2]

theorem controlFrame_refl (np w : Nat) (ws4 : WellState) : controlFrame np w ws4 ws4 :=
  ⟨rfl, rfl, fun _ _ => rfl, rfl, fun _ _ => rfl⟩

theorem controlFrame_bhp (np w : Nat) (ws4 t : WellState) (b : ℚ)
    (h : controlFrame np w ws4 t) :
    controlFrame np w ws4 { t with bhp := t.bhp.set w b } := by
  obtain ⟨h1, h2, h3, h4, h5⟩ := h
  refine ⟨h1, by simp only [List.length_set]; exact h2, ?_, h4, h5⟩
  intro j hj
  show rd (t.bhp.set w b) j = rd ws4.bhp j
  rw [rd_set_ne _ _ _ _ (Ne.symm hj)]
  exact h3 j hj

theorem controlFrame_sol (np w : Nat) (ws4 t : WellState) (sol : List ℚ)
    (h : controlFrame np w ws4 t) :
    controlFrame np w ws4 { t with wellSolutions := sol } := h

theorem controlFrame_loop (np w : Nat) (ws4 s0 : WellState) (idx : Nat → Nat)
    (f : Nat → WellState → ℚ) (hidx : ∀ p, idx p = w * np + p)
    (hf : ∀ p st, st.wellSolutions = s0.wellSolutions → f p st = f p s0)
    (h : controlFrame np w ws4 s0) :
    controlFrame np w ws4 (forRange np (fun p (st : WellState) =>
      { st with wellRates := st.wellRates.set (idx p) (f p st) }) s0) := by
  obtain ⟨h1, h2, h3, h4, h5⟩ := h
  obtain ⟨r1, _, r3, r4, r5, _⟩ := ratesLoop_spec idx f s0
    (fun a b hab => by rw [hidx a, hidx b] at hab; exact Nat.add_left_cancel hab) hf np
  refine ⟨r3.trans h1, by rw [r1]; exact h2, fun j hj => by rw [r1]; exact h3 j hj,
    r4.trans h4, ?_⟩
  intro j hj
  rw [r5 j (fun p hp => by rw [hidx p]; exact hj p hp)]
  exact h5 j hj

/-- The control part of the loop body for well `w` keeps the current controls, writes the bhp
of well `w` at most, and writes the rates of well `w` only. -/
theorem controlUpdate_frame (E : External) (self : StandardWellsDense)
    (dwells xold : List ℚ) (w : Nat) (Fn : List ℚ) (ws4 : WellState) :
    controlFrame self.np w ws4 (controlUpdate E self dwells xold w Fn ws4) := by
  unfold controlUpdate
  dsimp only
  split
  · split_ifs
    all_goals (split <;> refine controlFrame_bhp _ _ _ _ _ (controlFrame_loop _ _ _ _ _ _
      (fun p => rfl) (fun _ _ h => by first | rfl | rw [h])
      (controlFrame_sol _ _ _ _ _ (controlFrame_refl _ _ _))))
  · split_ifs
    all_goals first
      | (split <;> refine controlFrame_bhp _ _ _ _ _ (controlFrame_loop _ _ _ _ _ _
          (fun p => rfl) (fun _ _ h => by first | rfl | rw [h])
          (controlFrame_sol _ _ _ _ _ (controlFrame_refl _ _ _))))
      | (split <;> refine controlFrame_loop _ _ _ _ _ _
          (fun p => rfl) (fun _ _ h => by first | rfl | rw [h])
          (controlFrame_sol _ _ _ _ _ (controlFrame_refl _ _ _)))
  · split_ifs
    all_goals first
      | refine controlFrame_loop _ _ _ _ _ _
          (fun p => rfl) (fun _ _ _ => rfl)
          (controlFrame_bhp _ _ _ _ _ (controlFrame_sol _ _ _ _ _ (controlFrame_refl _ _ _)))
      | refine controlFrame_loop _ _ _ _ _ _
          (fun p => by rw [Nat.mul_comm]) (fun _ _ _ => rfl)
          (controlFrame_bhp _ _ _ _ _ (controlFrame_sol _ _ _ _ _ (controlFrame_refl _ _ _)))
  · split_ifs
    all_goals first
      | refine controlFrame_loop _ _ _ _ _ _
          (fun p => rfl) (fun _ _ _ => rfl)
          (controlFrame_bhp _ _ _ _ _ (controlFrame_sol _ _ _ _ _ (controlFrame_refl _ _ _)))
      | refine controlFrame_loop _ _ _ _ _ _
          (fun p => by rw [Nat.mul_comm]) (fun _ _ _ => rfl)
          (controlFrame_bhp _ _ _ _ _ (controlFrame_sol _ _ _ _ _ (controlFrame_refl _ _ _)))


/-- The rates of two different wells have different indices. -/
theorem rate_index_ne (np v w p q : Nat) (hne : v ≠ w) (hp : p < np) (hq : q < np) :
    w * np + p ≠ v * np + q := by
  intro h
  rcases Nat.lt_or_gt_of_ne hne with hlt | hgt
  · have : (v + 1) * np ≤ w * np := Nat.mul_le_mul_right np hlt
    rw [Nat.add_mul, Nat.one_mul] at this
    omega
  · have : (w + 1) * np ≤ v * np := Nat.mul_le_mul_right np hgt
    rw [Nat.add_mul, Nat.one_mul] at this
    omega

/-- The loop body of `updateWellState` keeps the current controls and the lengths of the bhp,
rate and well-solution vectors. -/
theorem updateWellStateWell_inv (E : External) (self : StandardWellsDense)
    (dwells xold : List ℚ) (v : Nat) (t : WellState) :
    (updateWellStateWell E self dwells xold v t).currentControls = t.currentControls ∧
    (updateWellStateWell E self dwells xold v t).bhp.length = t.bhp.length ∧
    (updateWellStateWell E self dwells xold v t).wellRates.length = t.wellRates.length ∧
    (updateWellStateWell E self dwells xold v t).wellSolutions.length
      = t.wellSolutions.length := by
  rw [updateWellStateWell_eq]
  obtain ⟨c1, c2, _, c4, _⟩ := controlUpdate_frame E self dwells xold v
    (fractionsOf E self dwells xold v t) (fractionUpdate E self dwells xold v t)
  obtain ⟨f1, f2, f3, f4, _⟩ := fractionUpdate_fields E self dwells xold v t
  obtain ⟨x, hx⟩ := controlUpdate_wellSolutions E self dwells xold v
    (fractionsOf E self dwells xold v t) (fractionUpdate E self dwells xold v t)
  refine ⟨c1.trans f3, by rw [c2, f1], by rw [c4, f2], ?_⟩
  rw [hx, List.length_set, f4]

/-- The loop body of `updateWellState` for well `v` leaves the bhp, the rates and the three
well variables of every other well `w` as they are. -/
theorem updateWellStateWell_others (E : External) (self : StandardWellsDense)
    (dwells xold : List ℚ) (v w : Nat) (t : WellState)
    (hv : v < self.nw) (hw : w < self.nw) (hne : v ≠ w) :
    rd (updateWellStateWell E self dwells xold v t).bhp w = rd t.bhp w ∧
    (∀ p, p < self.np →
      rd (updateWellStateWell E self dwells xold v t).wellRates (w * self.np + p)
        = rd t.wellRates (w * self.np + p)) ∧
    rd (updateWellStateWell E self dwells xold v t).wellSolutions (self.nw * XvarWell + w)
      = rd t.wellSolutions (self.nw * XvarWell + w) ∧
    rd (updateWellStateWell E self dwells xold v t).wellSolutions (WFrac * self.nw + w)
      = rd t.wellSolutions (WFrac * self.nw + w) ∧
    rd (updateWellStateWell E self dwells xold v t).wellSolutions (GFrac * self.nw + w)
      = rd t.wellSolutions (GFrac * self.nw + w) := by
  rw [updateWellStateWell_eq]
  obtain ⟨_, _, c3, _, c5⟩ := controlUpdate_frame E self dwells xold v
    (fractionsOf E self dwells xold v t) (fractionUpdate E self dwells xold v t)
  obtain ⟨f1, f2, _, _, f5⟩ := fractionUpdate_fields E self dwells xold v t
  obtain ⟨x, hx⟩ := controlUpdate_wellSolutions E self dwells xold v
    (fractionsOf E self dwells xold v t) (fractionUpdate E self dwells xold v t)
  have hsol : ∀ j, j ≠ self.nw * XvarWell + v → j ≠ WFrac * self.nw + v →
      j ≠ GFrac * self.nw + v →
      rd (controlUpdate E self dwells xold v (fractionsOf E self dwells xold v t)
        (fractionUpdate E self dwells xold v t)).wellSolutions j = rd t.wellSolutions j := by
    intro j h0 h1 h2
    rw [hx, rd_set_ne _ _ _ _ (Ne.symm h0)]
    exact f5 j h1 h2
  refine ⟨?_, ?_, ?_, ?_, ?_⟩
  · rw [c3 w (Ne.symm hne), f1]
  · intro p hp
    rw [c5 _ (fun q hq => rate_index_ne self.np v w p q hne hp hq), f2]
  · apply hsol <;> simp only [XvarWell, WFrac, GFrac] <;> omega
  · apply hsol <;> simp only [XvarWell, WFrac, GFrac] <;> omega
  · apply hsol <;> simp only [XvarWell, WFrac, GFrac] <;> omega

/-- After `updateWellState` the bhp, the rates and the three well variables of well `w` are
those that the loop body of `w` leaves, applied to a state with the current controls and the
vector lengths of the state on entry. -/
theorem updateWellState_at (E : External) (self : StandardWellsDense) (dwells : List ℚ)
    (st : WellState) (w : Nat) (hw : w < self.nw) :
    ∃ pre : WellState,
      pre.currentControls = st.currentControls ∧ pre.bhp.length = st.bhp.length ∧
      pre.wellRates.length = st.wellRates.length ∧
      pre.wellSolutions.length = st.wellSolutions.length ∧
      rd (updateWellState E self dwells st).bhp w
        = rd (updateWellStateWell E self dwells st.wellSolutions w pre).bhp w ∧
      (∀ p, p < self.np →
        rd (updateWellState E self dwells st).wellRates (w * self.np + p)
          = rd (updateWellStateWell E self dwells st.wellSolutions w pre).wellRates
              (w * self.np + p)) ∧
      rd (updateWellState E self dwells st).wellSolutions (self.nw * XvarWell + w)
        = rd (updateWellStateWell E self dwells st.wellSolutions w pre).wellSolutions
            (self.nw * XvarWell + w) ∧
      rd (updateWellState E self dwells st).wellSolutions (WFrac * self.nw + w)
        = rd (updateWellStateWell E self dwells st.wellSolutions w pre).wellSolutions
            (WFrac * self.nw + w) ∧
      rd (updateWellState E self dwells st).wellSolutions (GFrac * self.nw + w)
        = rd (updateWellStateWell E self dwells st.wellSolutions w pre).wellSolutions
            (GFrac * self.nw + w) := by
  have hact : self.localWellsActive = true := by
    unfold StandardWellsDense.localWellsActive
    exact decide_eq_true (Nat.lt_of_le_of_lt (Nat.zero_le w) hw)
  have hupd : updateWellState E self dwells st
      = forRange self.nw (updateWellStateWell E self dwells st.wellSolutions) st := by
    unfold updateWellState
    rw [if_pos hact]
  have hat : ∀ {α : Type} (slot : WellState → α),
      (∀ v t, v < self.nw → v ≠ w →
        slot (updateWellStateWell E self dwells st.wellSolutions v t) = slot t) →
      slot (forRange self.nw (updateWellStateWell E self dwells st.wellSolutions) st)
        = slot (updateWellStateWell E self dwells st.wellSolutions w
            (forRange w (updateWellStateWell E self dwells st.wellSolutions) st)) :=
    fun slot h => (forRange_at (updateWellStateWell E self dwells st.wellSolutions) slot
      (fun _ => True) self.nw w hw st trivial (fun _ _ _ => trivial)
      (fun v t hv hne _ => h v t hv hne)).2
  have hinv := forRange_preserves
    (fun (t : WellState) => t.currentControls = st.currentControls ∧
      t.bhp.length = st.bhp.length ∧ t.wellRates.length = st.wellRates.length ∧
      t.wellSolutions.length = st.wellSolutions.length) w
    (updateWellStateWell E self dwells st.wellSolutions) st ⟨rfl, rfl, rfl, rfl⟩
    (fun v t ht => by
      obtain ⟨i1, i2, i3, i4⟩ := updateWellStateWell_inv E self dwells st.wellSolutions v t
      exact ⟨i1.trans ht.1, i2.trans ht.2.1, i3.trans ht.2.2.1, i4.trans ht.2.2.2⟩)
  refine ⟨forRange w (updateWellStateWell E self dwells st.wellSolutions) st,
    hinv.1, hinv.2.1, hinv.2.2.1, hinv.2.2.2, ?_, ?_, ?_, ?_, ?_⟩
  · rw [hupd]
    exact hat (fun s => rd s.bhp w) (fun v t hv hne =>
      (updateWellStateWell_others E self dwells st.wellSolutions v w t hv hw hne).1)
  · intro p hp
    rw [hupd]
    exact hat (fun s => rd s.wellRates (w * self.np + p)) (fun v t hv hne =>
      (updateWellStateWell_others E self dwells st.wellSolutions v w t hv hw hne).2.1 p hp)
  · rw [hupd]
    exact hat (fun s => rd s.wellSolutions (self.nw * XvarWell + w)) (fun v t hv hne =>
      (updateWellStateWell_others E self dwells st.wellSolutions v w t hv hw hne).2.2.1)
  · rw [hupd]
    exact hat (fun s => rd s.wellSolutions (WFrac * self.nw + w)) (fun v t hv hne =>
      (updateWellStateWell_others E self dwells st.wellSolutions v w t hv hw hne).2.2.2.1)
  · rw [hupd]
    exact hat (fun s => rd s.wellSolutions (GFrac * self.nw + w)) (fun v t hv hne =>
      (updateWellStateWell_others E self dwells st.wellSolutions v w t hv hw hne).2.2.2.2)


/-! ## The bhp under a rate control -/

/-- With water and gas active and the fraction slots of well `w` within the well solutions,
the fractions `F` of the loop body are the normalized limited fractions. -/
theorem fractionsOf_eq (E : External) (self : StandardWellsDense) (dwells xold : List ℚ)
    (w : Nat) (st : WellState)
    (hw : self.active Water = true) (hg : self.active Gas = true)
    (hlt : w < self.nw) (hlen : 3 * self.nw ≤ st.wellSolutions.length) :
    fractionsOf E self dwells xold w st
      = normalizedFractions self (limitedFraction E self dwells xold w WFrac)
          (limitedFraction E self dwells xold w GFrac) := by
  have e1 : WFrac * self.nw + w < st.wellSolutions.length := by
    simp only [WFrac]; omega
  have e2 : GFrac * self.nw + w < st.wellSolutions.length := by
    simp only [GFrac]; omega
  have e3 : GFrac * self.nw + w ≠ WFrac * self.nw + w := by
    simp only [WFrac, GFrac]; omega
  unfold fractionsOf limitedFraction
  simp only [hw, hg, if_true]
  rw [rd_set_ne _ _ _ _ e3, rd_set, if_pos ⟨rfl, e1⟩, rd_set,
    if_pos ⟨rfl, by rw [List.length_set]; exact e2⟩]

/-- The fractions that need no renormalization are stored as they are. -/
theorem normalizedFractions_valid (self : StandardWellsDense) (fw fg : ℚ)
    (hnp : self.np = 3) (hw : self.active Water = true) (hg : self.active Gas = true)
    (h1 : 0 ≤ fw) (h2 : 0 ≤ fg) (h3 : fw + fg ≤ 1) :
    normalizedFractions self fw fg = [fw, 1 - fw - fg, fg] := by
  rw [normalizedFractions_three self fw fg hnp hw hg]
  have r1 : renormWater (fw, 1 - fw - fg, fg) = (fw, 1 - fw - fg, fg) := by
    unfold renormWater
    rw [if_neg (not_lt.mpr h1)]
  have r2 : renormGas (fw, 1 - fw - fg, fg) = (fw, 1 - fw - fg, fg) := by
    unfold renormGas
    rw [if_neg (not_lt.mpr h2)]
  have r3 : renormOil (fw, 1 - fw - fg, fg) = (fw, 1 - fw - fg, fg) := by
    unfold renormOil
    rw [if_neg (not_lt.mpr (by show (0 : ℚ) ≤ 1 - fw - fg; linarith))]
  rw [r1, r2, r3]


/-- The scaling loop of lines 668-678 after `k` entries: the entries below `k` are divided. -/
theorem scaleLoop_spec (d F : List ℚ) :
    ∀ k, k ≤ F.length →
      (forRange k (fun p (f : List ℚ) => f.set p (rd f p / rd d p)) F).length = F.length ∧
      ∀ p, rd (forRange k (fun p (f : List ℚ) => f.set p (rd f p / rd d p)) F) p
        = if p < k then rd F p / rd d p else rd F p := by
  intro k
  induction k with
  | zero =>
    intro _
    exact ⟨rfl, fun p => by rw [if_neg (Nat.not_lt_zero p)]; rfl⟩
  | succ k ih =>
    intro hk
    obtain ⟨i1, i2⟩ := ih (Nat.le_of_succ_le hk)
    rw [forRange_succ]
    refine ⟨by rw [List.length_set, i1], ?_⟩
    intro p
    by_cases hpk : p = k
    · subst hpk
      rw [rd_set, if_pos ⟨rfl, by rw [i1]; exact hk⟩, i2 p, if_neg (Nat.lt_irrefl p),
        if_pos (Nat.lt_succ_self p)]
    · rw [rd_set_ne _ _ _ _ (Ne.symm hpk), i2 p]
      by_cases hlt : p < k
      · rw [if_pos hlt, if_pos (Nat.lt_succ_of_lt hlt)]
      · rw [if_neg hlt, if_neg (by omega)]

/-- The scaled fractions under a RESERVOIR_RATE control: each entry is divided by the
control's distribution. -/
theorem scaledFractions_reservoir (self : StandardWellsDense) (wc : WellControls)
    (current : Int) (F : List ℚ) (p : Nat)
    (htype : well_controls_iget_type wc current = WellControlType.RESERVOIR_RATE)
    (hlen : F.length = self.np) (hp : p < self.np) :
    rd (scaledFractions self wc current F) p
      = rd F p / rd (well_controls_iget_distr wc current) p := by
  unfold scaledFractions
  dsimp only
  rw [if_pos htype, (scaleLoop_spec _ F self.np (by omega)).2 p, if_pos hp]

/-- The scaled fractions under any other control: each entry is divided by the entry of
`g = {1, 1, 0.01}`. -/
theorem scaledFractions_other (self : StandardWellsDense) (wc : WellControls)
    (current : Int) (F : List ℚ) (p : Nat)
    (htype : well_controls_iget_type wc current ≠ WellControlType.RESERVOIR_RATE)
    (hlen : F.length = self.np) (hp : p < self.np) :
    rd (scaledFractions self wc current F) p = rd F p / rd [1, 1, 1 / 100] p := by
  unfold scaledFractions
  dsimp only
  rw [if_neg htype, (scaleLoop_spec _ F self.np (by omega)).2 p, if_pos hp]

/-- The sum `F_target` of lines 763-766 is the distribution-weighted sum of the fractions. -/
theorem targetLoop_eq (distr F : List ℚ) (k : Nat) :
    forRange k (fun p (t : ℚ) => t + rd distr p * rd F p) 0 = weightedFractions k distr F := by
  induction k with
  | zero => rfl
  | succ k ih =>
    rw [forRange_succ, ih]
    unfold weightedFractions
    rw [Finset.sum_range_succ]

/-- With three active phases the normalized fractions are three and sum to 1. -/
theorem normalizedFractions_sum (self : StandardWellsDense) (fw fg : ℚ)
    (hnp : self.np = 3) (hw : self.active Water = true) (hg : self.active Gas = true) :
    (normalizedFractions self fw fg).length = 3 ∧
    rd (normalizedFractions self fw fg) 0 + rd (normalizedFractions self fw fg) 1
      + rd (normalizedFractions self fw fg) 2 = 1 := by
  obtain ⟨_, _, _, h4⟩ := normalizedFractions_spec self fw fg hnp hw hg
  refine ⟨by rw [normalizedFractions_three self fw fg hnp hw hg]; rfl, ?_⟩
  have e0 : rd (normalizedFractions self fw fg) 0 = rd (normalizedFractions self fw fg) Water :=
    rfl
  have e1 : rd (normalizedFractions self fw fg) 1 = rd (normalizedFractions self fw fg) Oil :=
    rfl
  have e2 : rd (normalizedFractions self fw fg) 2 = rd (normalizedFractions self fw fg) Gas :=
    rfl
  rw [e0, e1, e2, h4]
  ring


/-- The control part of the loop body under a RESERVOIR_RATE control: every rate of the well
is its scaled fraction times the target. -/
theorem controlUpdate_reservoir_rates (E : External) (self : StandardWellsDense)
    (dwells xold : List ℚ) (w : Nat) (Fn : List ℚ) (ws4 : WellState)
    (htype : well_controls_iget_type (self.wellCtrls w) (ws4.currentControls.getD w 0)
      = WellControlType.RESERVOIR_RATE)
    (hlen : self.np * w + self.np ≤ ws4.wellRates.length) :
    ∀ p, p < self.np →
      rd (controlUpdate E self dwells xold w Fn ws4).wellRates (self.np * w + p)
        = rd (scaledFractions self (self.wellCtrls w) (ws4.currentControls.getD w 0) Fn) p
          * well_controls_iget_target (self.wellCtrls w) (ws4.currentControls.getD w 0) := by
  intro p hp
  unfold controlUpdate
  dsimp only
  rw [htype]
  dsimp only
  rw [if_neg (by decide)]
  exact (ratesLoop_spec (fun q => self.np * w + q)
    (fun q _ => rd (scaledFractions self (self.wellCtrls w) (ws4.currentControls.getD w 0) Fn) q
      * well_controls_iget_target (self.wellCtrls w) (ws4.currentControls.getD w 0)) _
    (fun a b h => Nat.add_left_cancel h) (fun _ _ _ => rfl) self.np).2.2.2.2.2 p hp
    (by show self.np * w + p < ws4.wellRates.length; omega)

/-- The control part of the loop body for a producer under a SURFACE_RATE control: every rate
of the well is its scaled fraction times the target over the weighted sum of the scaled
fractions. -/
theorem controlUpdate_surface_rates (E : External) (self : StandardWellsDense)
    (dwells xold : List ℚ) (w : Nat) (Fn : List ℚ) (ws4 : WellState)
    (htype : well_controls_iget_type (self.wellCtrls w) (ws4.currentControls.getD w 0)
      = WellControlType.SURFACE_RATE)
    (hprod : self.wellType w = WellType.PRODUCER)
    (hlen : self.np * w + self.np ≤ ws4.wellRates.length) :
    ∀ p, p < self.np →
      rd (controlUpdate E self dwells xold w Fn ws4).wellRates (self.np * w + p)
        = rd (scaledFractions self (self.wellCtrls w) (ws4.currentControls.getD w 0) Fn) p
          * well_controls_iget_target (self.wellCtrls w) (ws4.currentControls.getD w 0)
          / weightedFractions self.np
              (well_controls_iget_distr (self.wellCtrls w) (ws4.currentControls.getD w 0))
              (scaledFractions self (self.wellCtrls w) (ws4.currentControls.getD w 0) Fn) := by
  intro p hp
  unfold controlUpdate
  dsimp only
  rw [htype]
  dsimp only
  rw [if_pos rfl, if_pos hprod, targetLoop_eq]
  exact (ratesLoop_spec (fun q => self.np * w + q)
    (fun q _ => rd (scaledFractions self (self.wellCtrls w) (ws4.currentControls.getD w 0) Fn) q
      * well_controls_iget_target (self.wellCtrls w) (ws4.currentControls.getD w 0)
      / weightedFractions self.np
          (well_controls_iget_distr (self.wellCtrls w) (ws4.currentControls.getD w 0))
          (scaledFractions self (self.wellCtrls w) (ws4.currentControls.getD w 0) Fn)) _
    (fun a b h => Nat.add_left_cancel h) (fun _ _ _ => rfl) self.np).2.2.2.2.2 p hp
    (by show self.np * w + p < ws4.wellRates.length; omega)

/-- The control part of the loop body for a producer under BHP control: every rate of the
well is the new first well variable, the previous one less the increment, times its scaled
fraction. -/
theorem controlUpdate_bhp_rates (E : External) (self : StandardWellsDense)
    (dwells xold : List ℚ) (w : Nat) (Fn : List ℚ) (ws4 : WellState)
    (htype : well_controls_iget_type (self.wellCtrls w) (ws4.currentControls.getD w 0)
      = WellControlType.BHP)
    (hprod : self.wellType w = WellType.PRODUCER)
    (hs : self.nw * XvarWell + w < ws4.wellSolutions.length)
    (hlen : self.np * w + self.np ≤ ws4.wellRates.length) :
    ∀ p, p < self.np →
      rd (controlUpdate E self dwells xold w Fn ws4).wellRates (w * self.np + p)
        = (rd xold (self.nw * XvarWell + w)
            - blockEntry dwells w (E.flowPhaseToEbosCompIdx XvarWell))
          * rd (scaledFractions self (self.wellCtrls w) (ws4.currentControls.getD w 0) Fn) p := by
  intro p hp
  unfold controlUpdate
  dsimp only
  rw [htype]
  dsimp only
  rw [if_neg (by decide), hprod]
  dsimp only
  rw [(ratesLoop_spec (fun q => w * self.np + q)
    (fun q (st : WellState) => rd st.wellSolutions (self.nw * XvarWell + w)
      * rd (scaledFractions self (self.wellCtrls w) (ws4.currentControls.getD w 0) Fn) q) _
    (fun a b h => Nat.add_left_cancel h) (fun _ _ h => by dsimp only; rw [h]) self.np).2.2.2.2.2 p hp
    (by show w * self.np + p < ws4.wellRates.length; rw [Nat.mul_comm]; omega)]
  show rd (ws4.wellSolutions.set (self.nw * XvarWell + w) _) (self.nw * XvarWell + w) * _ = _
  rw [rd_set, if_pos ⟨rfl, hs⟩]


/-- The rates of well `w` after `updateWellState`, with three active phases: under a
RESERVOIR_RATE control each is the scaled fraction times the target, and for a producer under
a SURFACE_RATE control each is the scaled fraction times the target over the weighted sum of
the scaled fractions. -/
theorem updateWellState_rate_controlled (E : External) (self : StandardWellsDense)
    (dwells : List ℚ) (well_state : WellState) (w : Nat)
    (hwa : self.active Water = true) (hga : self.active Gas = true) (hw : w < self.nw)
    (hlen : 3 * self.nw ≤ well_state.wellSolutions.length)
    (hrates : self.np * w + self.np ≤ well_state.wellRates.length) :
    (well_controls_iget_type (self.wellCtrls w) (well_state.currentControls.getD w 0)
        = WellControlType.RESERVOIR_RATE →
      ∀ p, p < self.np →
        rd (updateWellState E self dwells well_state).wellRates (self.np * w + p)
          = rd (scaledLimitedFractions E self dwells well_state w) p
            * well_controls_iget_target (self.wellCtrls w)
                (well_state.currentControls.getD w 0)) ∧
    (well_controls_iget_type (self.wellCtrls w) (well_state.currentControls.getD w 0)
        = WellControlType.SURFACE_RATE →
      self.wellType w = WellType.PRODUCER →
      ∀ p, p < self.np →
        rd (updateWellState E self dwells well_state).wellRates (self.np * w + p)
          = rd (scaledLimitedFractions E self dwells well_state w) p
            * well_controls_iget_target (self.wellCtrls w)
                (well_state.currentControls.getD w 0)
            / weightedFractions self.np
                (well_controls_iget_distr (self.wellCtrls w)
                  (well_state.currentControls.getD w 0))
                (scaledLimitedFractions E self dwells well_state w)) := by
  obtain ⟨pre, p1, _, p3, p4, _, a2, _, _, _⟩ :=
    updateWellState_at E self dwells well_state w hw
  have hpre : 3 * self.nw ≤ pre.wellSolutions.length := by rw [p4]; exact hlen
  obtain ⟨_, f2, f3, _, _⟩ := fractionUpdate_fields E self dwells well_state.wellSolutions w pre
  have hF := fractionsOf_eq E self dwells well_state.wellSolutions w pre hwa hga hw hpre
  have hcc : (fractionUpdate E self dwells well_state.wellSolutions w pre).currentControls
      = well_state.currentControls := f3.trans p1
  have hrl : self.np * w + self.np
      ≤ (fractionUpdate E self dwells well_state.wellSolutions w pre).wellRates.length := by
    rw [f2, p3]; exact hrates
  constructor
  · intro htype p hp
    have h := controlUpdate_reservoir_rates E self dwells well_state.wellSolutions w
      (fractionsOf E self dwells well_state.wellSolutions w pre)
      (fractionUpdate E self dwells well_state.wellSolutions w pre)
      (by rw [hcc]; exact htype) hrl p hp
    rw [hcc] at h
    rw [Nat.mul_comm, a2 p hp, updateWellStateWell_eq, Nat.mul_comm]
    rw [hF] at h ⊢
    exact h
  · intro htype hprod p hp
    have h := controlUpdate_surface_rates E self dwells well_state.wellSolutions w
      (fractionsOf E self dwells well_state.wellSolutions w pre)
      (fractionUpdate E self dwells well_state.wellSolutions w pre)
      (by rw [hcc]; exact htype) hprod hrl p hp
    rw [hcc] at h
    rw [Nat.mul_comm, a2 p hp, updateWellStateWell_eq, Nat.mul_comm]
    rw [hF] at h ⊢
    exact h

/-- Three fractions that sum to 1, each divided by its weight, times the target, have the
weighted sum equal to the target. -/
theorem weighted_scaled_sum (a0 a1 a2 f0 f1 f2 T : ℚ) (h0 : a0 ≠ 0) (h1 : a1 ≠ 0)
    (h2 : a2 ≠ 0) (hsum : f0 + f1 + f2 = 1) :
    a0 * (f0 / a0 * T) + a1 * (f1 / a1 * T) + a2 * (f2 / a2 * T) = T := by
  have e : ∀ a f : ℚ, a ≠ 0 → a * (f / a * T) = f * T := by
    intro a f h
    field_simp
  rw [e a0 f0 h0, e a1 f1 h1, e a2 f2 h2]
  linear_combination T * hsum

theorem mul_div_cancel_of_ne (S T : ℚ) (h : S ≠ 0) : S * (T / S) = T := by
  field_simp

/-- C28 as amended. Over exact arithmetic and with three active phases, after
`updateWellState` (any Newton increment, the well's slots and rates within the vectors) the
rates of a well `w` under a RESERVOIR_RATE control whose distribution has no zero entry, and of
a producer under a SURFACE_RATE control whose scaled fractions have a non-zero
distribution-weighted sum, honour the control target: the sum over the phases `p` of
`distr[p] * wellRates[np * w + p]` is the target. -/
theorem C28_rates_honour_target (E : External) (self : StandardWellsDense)
    (dwells : List ℚ) (well_state : WellState) (w : Nat)
    (hnp : self.np = 3) (hwa : self.active Water = true) (_hoa : self.active Oil = true)
    (hga : self.active Gas = true) (hw : w < self.nw)
    (hlen : 3 * self.nw ≤ well_state.wellSolutions.length)
    (hrates : self.np * w + self.np ≤ well_state.wellRates.length) :
    (well_controls_iget_type (self.wellCtrls w) (well_state.currentControls.getD w 0)
        = WellControlType.RESERVOIR_RATE →
      (∀ p, p < self.np →
        rd (well_controls_iget_distr (self.wellCtrls w)
          (well_state.currentControls.getD w 0)) p ≠ 0) →
      weightedRate self.np
          (well_controls_iget_distr (self.wellCtrls w) (well_state.currentControls.getD w 0))
          (updateWellState E self dwells well_state).wellRates w
        = well_controls_iget_target (self.wellCtrls w)
            (well_state.currentControls.getD w 0)) ∧
    (well_controls_iget_type (self.wellCtrls w) (well_state.currentControls.getD w 0)
        = WellControlType.SURFACE_RATE →
      self.wellType w = WellType.PRODUCER →
      weightedFractions self.np
          (well_controls_iget_distr (self.wellCtrls w) (well_state.currentControls.getD w 0))
          (scaledLimitedFractions E self dwells well_state w) ≠ 0 →
      weightedRate self.np
          (well_controls_iget_distr (self.wellCtrls w) (well_state.currentControls.getD w 0))
          (updateWellState E self dwells well_state).wellRates w
        = well_controls_iget_target (self.wellCtrls w)
            (well_state.currentControls.getD w 0)) := by
  obtain ⟨hres, hsur⟩ := updateWellState_rate_controlled E self dwells well_state w hwa hga hw
    hlen hrates
  constructor
  · intro htype hd
    have hr := hres htype
    obtain ⟨hl, hsum⟩ := normalizedFractions_sum self
      (limitedFraction E self dwells well_state.wellSolutions w WFrac)
      (limitedFraction E self dwells well_state.wellSolutions w GFrac) hnp hwa hga
    have hsc : ∀ p, p < self.np →
        rd (scaledLimitedFractions E self dwells well_state w) p
          = rd (normalizedFractions self
              (limitedFraction E self dwells well_state.wellSolutions w WFrac)
              (limitedFraction E self dwells well_state.wellSolutions w GFrac)) p
            / rd (well_controls_iget_distr (self.wellCtrls w)
                (well_state.currentControls.getD w 0)) p :=
      fun p hp => scaledFractions_reservoir self _ _ _ p htype (by rw [hl, hnp]) hp
    unfold weightedRate
    rw [Finset.sum_congr rfl (fun p hp => by
      rw [hr p (Finset.mem_range.mp hp), hsc p (Finset.mem_range.mp hp)])]
    rw [hnp] at hd
    rw [hnp, Finset.sum_range_succ, Finset.sum_range_succ, Finset.sum_range_one]
    have d0 := hd 0 (by decide)
    have d1 := hd 1 (by decide)
    have d2 := hd 2 (by decide)
    exact weighted_scaled_sum _ _ _ _ _ _ _ d0 d1 d2 hsum
  · intro htype hprod hne
    have hr := hsur htype hprod
    unfold weightedRate
    rw [Finset.sum_congr rfl (fun p hp => by rw [hr p (Finset.mem_range.mp hp)])]
    have hfac : ∀ p, rd (well_controls_iget_distr (self.wellCtrls w)
          (well_state.currentControls.getD w 0)) p
        * (rd (scaledLimitedFractions E self dwells well_state w) p
          * well_controls_iget_target (self.wellCtrls w) (well_state.currentControls.getD w 0)
          / weightedFractions self.np
              (well_controls_iget_distr (self.wellCtrls w)
                (well_state.currentControls.getD w 0))
              (scaledLimitedFractions E self dwells well_state w))
        = rd (well_controls_iget_distr (self.wellCtrls w)
            (well_state.currentControls.getD w 0)) p
          * rd (scaledLimitedFractions E self dwells well_state w) p
          * (well_controls_iget_target (self.wellCtrls w) (well_state.currentControls.getD w 0)
            / weightedFractions self.np
                (well_controls_iget_distr (self.wellCtrls w)
                  (well_state.currentControls.getD w 0))
                (scaledLimitedFractions E self dwells well_state w)) :=
      fun p => by ring
    rw [Finset.sum_congr rfl (fun p _ => hfac p), ← Finset.sum_mul]
    exact mul_div_cancel_of_ne _ _ hne

/-- C28 as amended at the producer `P1` under its oil rate control of target -100 with the
fractions water 7/32, oil 25/32 and the increment 10 of the first well variable: the rates after
`updateWellState` are -28, -100 and 0, and their weighted sum, the oil rate, is the target.
These values are binary fractions, and the operations rounded to doubles give the same
rates. -/
theorem C28_rates_honour_target_witness :
    (updateWellState sampleExternal sampleProducerModel [10, 0, 0]
      sampleBinaryRateState).wellRates = [-28, -100, 0] ∧
    (updateWellStateRounded roundDouble sampleExternal sampleProducerModel [10, 0, 0]
      sampleBinaryRateState).wellRates = [-28, -100, 0] ∧
    weightedRate sampleProducerModel.np
        (well_controls_iget_distr (sampleProducerModel.wellCtrls 0)
          (sampleBinaryRateState.currentControls.getD 0 0))
        (updateWellState sampleExternal sampleProducerModel [10, 0, 0]
          sampleBinaryRateState).wellRates 0
      = well_controls_iget_target (sampleProducerModel.wellCtrls 0)
          (sampleBinaryRateState.currentControls.getD 0 0) :=
  ⟨by decide!, by decide!,
    (C28_rates_honour_target sampleExternal sampleProducerModel [10, 0, 0]
      sampleBinaryRateState 0 rfl rfl rfl rfl (by decide) (by decide) (by decide)).2 rfl rfl
      (by decide!)⟩

/-! ## The round trip of a producer under BHP control -/

theorem forRange_three {σ : Type} (body : Nat → σ → σ) (s : σ) :
    forRange 3 body s = body 2 (body 1 (body 0 s)) := rfl

/-- The state after `updateWellStateWithTarget` for a BHP control of a producer with three
phases: rates and current controls are kept, the first well variable is the scaled total
rate, and, that being non-zero, the water and gas fractions are the scaled water and gas
rates over it. -/
theorem updateWellStateWithTarget_bhp_producer (E : External) (self : StandardWellsDense)
    (wc : WellControls) (current : Int) (w : Nat) (xw : WellState)
    (hnp : self.np = 3) (hwa : self.active Water = true) (hga : self.active Gas = true)
    (hw : w < self.nw) (hlen : 3 * self.nw ≤ xw.wellSolutions.length)
    (htype : well_controls_iget_type wc current = WellControlType.BHP)
    (hprod : self.wellType w = WellType.PRODUCER)
    (hT : scaledTotalRate self.np w xw.wellRates ≠ 0) :
    (updateWellStateWithTarget E self wc current w xw).wellRates = xw.wellRates ∧
    (updateWellStateWithTarget E self wc current w xw).currentControls = xw.currentControls ∧
    (updateWellStateWithTarget E self wc current w xw).wellSolutions.length
      = xw.wellSolutions.length ∧
    rd (updateWellStateWithTarget E self wc current w xw).wellSolutions
        (self.nw * XvarWell + w) = scaledTotalRate self.np w xw.wellRates ∧
    rd (updateWellStateWithTarget E self wc current w xw).wellSolutions (WFrac * self.nw + w)
      = rd xw.wellRates (self.np * w + 0) / scaledTotalRate self.np w xw.wellRates ∧
    rd (updateWellStateWithTarget E self wc current w xw).wellSolutions (GFrac * self.nw + w)
      = 1 / 100 * rd xw.wellRates (self.np * w + 2)
        / scaledTotalRate self.np w xw.wellRates := by
  have hrates : (updateWellStateWithTarget E self wc current w xw).wellRates = xw.wellRates := by
    rw [updateWellStateWithTarget_wellRates]
    unfold seedFromTarget
    simp only []
    rw [htype]
  refine ⟨hrates, updateWellStateWithTarget_currentControls E self wc current w xw, ?_⟩
  have hg : targetScaling self wc current = [1, 1, 1 / 100] := by
    unfold targetScaling
    simp only []
    rw [if_neg (by rw [htype]; decide)]
  have hseed : (seedFromTarget E self wc current w xw).wellRates = xw.wellRates := by
    unfold seedFromTarget
    simp only []
    rw [htype]
  have hseeds : (seedFromTarget E self wc current w xw).wellSolutions = xw.wellSolutions := by
    unfold seedFromTarget
    simp only []
    rw [htype]
  have e0 : self.nw * XvarWell + w < xw.wellSolutions.length := by
    simp only [XvarWell]; omega
  have e1 : WFrac * self.nw + w < xw.wellSolutions.length := by
    simp only [WFrac]; omega
  have e2 : GFrac * self.nw + w < xw.wellSolutions.length := by
    simp only [GFrac]; omega
  have n01 : WFrac * self.nw + w ≠ self.nw * XvarWell + w := by
    simp only [XvarWell, WFrac]; omega
  have n02 : GFrac * self.nw + w ≠ self.nw * XvarWell + w := by
    simp only [XvarWell, GFrac]; omega
  have n12 : GFrac * self.nw + w ≠ WFrac * self.nw + w := by
    simp only [WFrac, GFrac]; omega
  have hx : (seedXvarWell self wc current w [1, 1, 1 / 100]
        (seedFromTarget E self wc current w xw)).wellRates = xw.wellRates ∧
      (seedXvarWell self wc current w [1, 1, 1 / 100]
        (seedFromTarget E self wc current w xw)).wellSolutions.length
        = xw.wellSolutions.length ∧
      rd (seedXvarWell self wc current w [1, 1, 1 / 100]
        (seedFromTarget E self wc current w xw)).wellSolutions (self.nw * XvarWell + w)
        = scaledTotalRate self.np w xw.wellRates := by
    refine ⟨by rw [seedXvarWell_wellRates, hseed], ?_, ?_⟩
    · unfold seedXvarWell
      simp only []
      rw [htype]
      simp only []
      rw [hprod]
      simp only []
      rw [hnp, forRange_three]
      simp only [List.length_set, hseeds]
    · unfold seedXvarWell scaledTotalRate
      simp only []
      rw [htype]
      simp only []
      rw [hprod]
      simp only []
      rw [hnp, forRange_three]
      simp only [hseed, hseeds]
      simp only [rd_set, List.length_set, e0, and_self, if_true, true_and]
      simp only [rd, List.getD_cons_zero, List.getD_cons_succ]
      ring
  obtain ⟨x1, x2, x3⟩ := hx
  have hfin : updateWellStateWithTarget E self wc current w xw
      = seedFractions self w [1, 1, 1 / 100]
          (seedXvarWell self wc current w [1, 1, 1 / 100]
            (seedFromTarget E self wc current w xw)) := by
    unfold updateWellStateWithTarget
    simp only []
    rw [hg]
  rw [hfin]
  generalize seedXvarWell self wc current w [1, 1, 1 / 100]
    (seedFromTarget E self wc current w xw) = xw2 at x1 x2 x3
  have htot : forRange self.np (fun p (t : ℚ) =>
      t + rd [1, 1, 1 / 100] p * rd xw2.wellRates (self.np * w + p)) 0
      = scaledTotalRate self.np w xw.wellRates := by
    rw [hnp, forRange_three, x1]
    unfold scaledTotalRate
    simp only [rd, List.getD_cons_zero, List.getD_cons_succ, hnp]
    ring
  have habs : |scaledTotalRate self.np w xw.wellRates| > 0 := abs_pos.mpr hT
  unfold seedFractions
  simp only [hwa, hga, if_true]
  rw [htot, if_pos habs, if_pos habs, x1]
  refine ⟨by simp only [List.length_set]; exact x2, ?_, ?_, ?_⟩
  · rw [rd_set_ne _ _ _ _ n02, rd_set_ne _ _ _ _ n01]
    exact x3
  · rw [rd_set_ne _ _ _ _ n12, rd_set, if_pos ⟨rfl, by rw [x2]; exact e1⟩]
    simp only [rd, Water, List.getD_cons_zero, one_mul]
  · rw [rd_set, if_pos ⟨rfl, by rw [List.length_set, x2]; exact e2⟩]
    simp only [rd, Gas, List.getD_cons_zero, List.getD_cons_succ]


/-- A zero increment gives a zero limited step, for a limit that is not negative. -/
theorem limitedStep_zero (limit : ℚ) (h : 0 ≤ limit) : limitedStep 0 limit = 0 := by
  unfold limitedStep
  rw [abs_zero, min_eq_left h, mul_zero]

/-- Same-sign rates that are not all zero have a non-zero scaled total, and each scaled rate
over the total is non-negative. -/
theorem scaledTotal_fractions (r0 r1 r2 : ℚ)
    (hsign : (0 ≤ r0 ∧ 0 ≤ r1 ∧ 0 ≤ r2) ∨ (r0 ≤ 0 ∧ r1 ≤ 0 ∧ r2 ≤ 0))
    (hnz : r0 ≠ 0 ∨ r1 ≠ 0 ∨ r2 ≠ 0) :
    r0 + r1 + 1 / 100 * r2 ≠ 0 ∧ 0 ≤ r0 / (r0 + r1 + 1 / 100 * r2) ∧
    0 ≤ 1 / 100 * r2 / (r0 + r1 + 1 / 100 * r2) ∧
    r0 / (r0 + r1 + 1 / 100 * r2) + 1 / 100 * r2 / (r0 + r1 + 1 / 100 * r2) ≤ 1 := by
  rcases hsign with ⟨h0, h1, h2⟩ | ⟨h0, h1, h2⟩
  · have hpos : 0 < r0 + r1 + 1 / 100 * r2 := by
      rcases hnz with h | h | h
      · have : 0 < r0 := lt_of_le_of_ne h0 (Ne.symm h)
        linarith
      · have : 0 < r1 := lt_of_le_of_ne h1 (Ne.symm h)
        linarith
      · have : 0 < r2 := lt_of_le_of_ne h2 (Ne.symm h)
        linarith
    refine ⟨ne_of_gt hpos, div_nonneg h0 (le_of_lt hpos),
      div_nonneg (by linarith) (le_of_lt hpos), ?_⟩
    rw [← add_div, div_le_one hpos]
    linarith
  · have hneg : r0 + r1 + 1 / 100 * r2 < 0 := by
      rcases hnz with h | h | h
      · have : r0 < 0 := lt_of_le_of_ne h0 h
        linarith
      · have : r1 < 0 := lt_of_le_of_ne h1 h
        linarith
      · have : r2 < 0 := lt_of_le_of_ne h2 h
        linarith
    refine ⟨ne_of_lt hneg, div_nonneg_of_nonpos h0 (le_of_lt hneg),
      div_nonneg_of_nonpos (by linarith) (le_of_lt hneg), ?_⟩
    rw [← add_div, div_le_one_of_neg hneg]
    linarith

/-- The algebra of the round trip: the scaled total times each fraction over its scale is the
rate. -/
theorem round_trip_algebra (r0 r1 r2 : ℚ) (hT : r0 + r1 + 1 / 100 * r2 ≠ 0) :
    (r0 + r1 + 1 / 100 * r2) * (r0 / (r0 + r1 + 1 / 100 * r2) / 1) = r0 ∧
    (r0 + r1 + 1 / 100 * r2)
      * ((1 - r0 / (r0 + r1 + 1 / 100 * r2) - 1 / 100 * r2 / (r0 + r1 + 1 / 100 * r2)) / 1)
      = r1 ∧
    (r0 + r1 + 1 / 100 * r2) * (1 / 100 * r2 / (r0 + r1 + 1 / 100 * r2) / (1 / 100)) = r2 := by
  have h : ∀ T : ℚ, T ≠ 0 →
      T * (r0 / T / 1) = r0 ∧ T * ((1 - r0 / T - 1 / 100 * r2 / T) / 1) = T - r0 - 1 / 100 * r2
        ∧ T * (1 / 100 * r2 / T / (1 / 100)) = r2 := by
    intro T hT0
    refine ⟨?_, ?_, ?_⟩
    · field_simp
    · field_simp
      ring
    · field_simp
      ring
  obtain ⟨h1, h2, h3⟩ := h _ hT
  refine ⟨h1, ?_, h3⟩
  rw [h2]
  ring

/-- C29 as amended. Round trip of a producer `w` under BHP control with three active phases
(the well's slots and rates within the vectors, `dwell_fraction_max` not negative): if the
phase rates of the well all have the same sign and are not all zero, then seeding the well
variables with `updateWellStateWithTarget` and then applying `updateWellState` with a zero
increment gives back, over exact arithmetic, the same rate for every phase. -/
theorem C29_round_trip_bhp_producer (E : External) (self : StandardWellsDense)
    (dwells : List ℚ) (xw : WellState) (w : Nat)
    (hnp : self.np = 3) (hwa : self.active Water = true) (_hoa : self.active Oil = true)
    (hga : self.active Gas = true) (hw : w < self.nw)
    (hlen : 3 * self.nw ≤ xw.wellSolutions.length)
    (hrates : self.np * w + self.np ≤ xw.wellRates.length)
    (htype : well_controls_iget_type (self.wellCtrls w) (xw.currentControls.getD w 0)
      = WellControlType.BHP)
    (hprod : self.wellType w = WellType.PRODUCER)
    (hzero : ∀ j, rd dwells j = 0)
    (hlim : 0 ≤ self.param_.dwell_fraction_max_)
    (hsign : (0 ≤ rd xw.wellRates (self.np * w + 0) ∧ 0 ≤ rd xw.wellRates (self.np * w + 1)
        ∧ 0 ≤ rd xw.wellRates (self.np * w + 2))
      ∨ (rd xw.wellRates (self.np * w + 0) ≤ 0 ∧ rd xw.wellRates (self.np * w + 1) ≤ 0
        ∧ rd xw.wellRates (self.np * w + 2) ≤ 0))
    (hnz : rd xw.wellRates (self.np * w + 0) ≠ 0 ∨ rd xw.wellRates (self.np * w + 1) ≠ 0
      ∨ rd xw.wellRates (self.np * w + 2) ≠ 0) :
    ∀ p, p < 3 →
      rd (updateWellState E self dwells
          (updateWellStateWithTarget E self (self.wellCtrls w) (xw.currentControls.getD w 0)
            w xw)).wellRates (self.np * w + p)
        = rd xw.wellRates (self.np * w + p) := by
  obtain ⟨hT, hW, hG, hWG⟩ := scaledTotal_fractions _ _ _ hsign hnz
  have hTs : scaledTotalRate self.np w xw.wellRates
      = rd xw.wellRates (self.np * w + 0) + rd xw.wellRates (self.np * w + 1)
        + 1 / 100 * rd xw.wellRates (self.np * w + 2) := rfl
  obtain ⟨s1, s2, s3, s4, s5, s6⟩ := updateWellStateWithTarget_bhp_producer E self
    (self.wellCtrls w) (xw.currentControls.getD w 0) w xw hnp hwa hga hw hlen htype hprod
    (by rw [hTs]; exact hT)
  generalize updateWellStateWithTarget E self (self.wellCtrls w) (xw.currentControls.getD w 0)
    w xw = xw1 at s1 s2 s3 s4 s5 s6
  obtain ⟨pre, p1, _, p3, p4, _, a2, _, _, _⟩ := updateWellState_at E self dwells xw1 w hw
  have hpre : 3 * self.nw ≤ pre.wellSolutions.length := by rw [p4, s3]; exact hlen
  obtain ⟨_, f2, f3, f4, _⟩ := fractionUpdate_fields E self dwells xw1.wellSolutions w pre
  have hcc : (fractionUpdate E self dwells xw1.wellSolutions w pre).currentControls
      = xw.currentControls := f3.trans (p1.trans s2)
  have hb := controlUpdate_bhp_rates E self dwells xw1.wellSolutions w
    (fractionsOf E self dwells xw1.wellSolutions w pre)
    (fractionUpdate E self dwells xw1.wellSolutions w pre)
    (by rw [hcc]; exact htype) hprod
    (by rw [f4]; simp only [XvarWell]; omega)
    (by rw [f2, p3, s1]; exact hrates)
  have hlW : limitedFraction E self dwells xw1.wellSolutions w WFrac
      = rd xw.wellRates (self.np * w + 0) / scaledTotalRate self.np w xw.wellRates := by
    unfold limitedFraction blockEntry
    rw [hzero, limitedStep_zero _ hlim, sub_zero, s5]
  have hlG : limitedFraction E self dwells xw1.wellSolutions w GFrac
      = 1 / 100 * rd xw.wellRates (self.np * w + 2)
        / scaledTotalRate self.np w xw.wellRates := by
    unfold limitedFraction blockEntry
    rw [hzero, limitedStep_zero _ hlim, sub_zero, s6]
  have hF := fractionsOf_eq E self dwells xw1.wellSolutions w pre hwa hga hw hpre
  rw [hlW, hlG, normalizedFractions_valid self _ _ hnp hwa hga (by rw [hTs]; exact hW)
    (by rw [hTs]; exact hG) (by rw [hTs]; exact hWG)] at hF
  have hne : well_controls_iget_type (self.wellCtrls w) (xw.currentControls.getD w 0)
      ≠ WellControlType.RESERVOIR_RATE := by rw [htype]; decide
  intro p hp
  have hp3 : p < self.np := by rw [hnp]; exact hp
  have key := hb p hp3
  rw [hcc, hF, scaledFractions_other self _ _ _ p hne (by rw [hnp]; rfl) hp3] at key
  unfold blockEntry at key
  rw [hzero, sub_zero, s4] at key
  rw [Nat.mul_comm, a2 p hp3, updateWellStateWell_eq, hF, key, hTs, Nat.mul_comm w self.np]
  obtain ⟨g0, g1, g2⟩ := round_trip_algebra _ _ _ hT
  rcases (by omega : p = 0 ∨ p = 1 ∨ p = 2) with h | h | h
  · subst h
    exact g0
  · subst h
    exact g1
  · subst h
    exact g2

/-- C29 as amended at the producer `P1` under BHP control with the rates -28, -228, 0:
seeding and a zero increment give the rates -28, -228, 0 again.  The total rate -256 and the
water fraction 7/64 are binary fractions, and the operations rounded to doubles give the same
rates. -/
theorem C29_round_trip_bhp_producer_witness :
    (updateWellState sampleExternal sampleProducerModel [0, 0, 0]
      (updateWellStateWithTarget sampleExternal sampleProducerModel
        (sampleProducerModel.wellCtrls 0) (sampleBinaryState.currentControls.getD 0 0) 0
        sampleBinaryState)).wellRates = [-28, -228, 0] ∧
    (updateWellStateRounded roundDouble sampleExternal sampleProducerModel [0, 0, 0]
      (updateWellStateWithTargetRounded roundDouble sampleExternal sampleProducerModel
        (sampleProducerModel.wellCtrls 0) (sampleBinaryState.currentControls.getD 0 0) 0
        sampleBinaryState)).wellRates = [-28, -228, 0] ∧
    rd (updateWellState sampleExternal sampleProducerModel [0, 0, 0]
      (updateWellStateWithTarget sampleExternal sampleProducerModel
        (sampleProducerModel.wellCtrls 0) (sampleBinaryState.currentControls.getD 0 0) 0
        sampleBinaryState)).wellRates (sampleProducerModel.np * 0 + 1)
      = rd sampleBinaryState.wellRates (sampleProducerModel.np * 0 + 1) :=
  ⟨by decide!, by decide!,
    C29_round_trip_bhp_producer sampleExternal sampleProducerModel [0, 0, 0]
      sampleBinaryState 0 rfl rfl rfl rfl (by decide) (by decide) (by decide) rfl rfl
      (fun j => rd_replicate_zero 3 j) (by decide!) (Or.inr (by decide!))
      (Or.inl (by decide!)) 1 (by decide)⟩


/-! ## The split of the rates in the branch `drawdown <= 0` -/

/-- C26 fails. With VFP tables that return the tubing-head pressure itself and no hydrostatic
correction, an injector whose only control is THP 250 has the THP-derived bhp 250, but
`computeWellPotentials` uses the bhp 0: the start value 0 is smaller than every positive
THP-derived bhp, so the assertion `bhp != 0.0` of line 1101 fails.  With a BHP control of 400
before the THP control the result is 250, so the value 0 is not the strictest of the declared
values either.  The result also depends on the order of the controls: a producer that declares
THP 300 and then BHP 200 gets 200, the same two controls in the other order give 300; and of
two BHP targets the last one wins. -/
theorem C26_potential_bhp_not_strictest :
    bhpFromThp sampleExternal
        (samplePotentialModel WellType.INJECTOR [samplePressureControl WellControlType.THP 250])
        ((samplePotentialModel WellType.INJECTOR
          [samplePressureControl WellControlType.THP 250]).wellCtrls 0) 0 0
        sampleInjectorState.wellRates = 250 ∧
    potentialBhp sampleExternal
        (samplePotentialModel WellType.INJECTOR [samplePressureControl WellControlType.THP 250])
        sampleInjectorState 0 = 0 ∧
    potentialBhp sampleExternal
        (samplePotentialModel WellType.INJECTOR
          [samplePressureControl WellControlType.BHP 400,
           samplePressureControl WellControlType.THP 250])
        sampleInjectorState 0 = 250 ∧
    potentialBhp sampleExternal
        (samplePotentialModel WellType.PRODUCER
          [samplePressureControl WellControlType.THP 300,
           samplePressureControl WellControlType.BHP 200])
        sampleProducerState 0 = 200 ∧
    potentialBhp sampleExternal
        (samplePotentialModel WellType.PRODUCER
          [samplePressureControl WellControlType.BHP 200,
           samplePressureControl WellControlType.THP 300])
        sampleProducerState 0 = 300 ∧
    potentialBhp sampleExternal
        (samplePotentialModel WellType.PRODUCER
          [samplePressureControl WellControlType.BHP 300,
           samplePressureControl WellControlType.BHP 200])
        sampleProducerState 0 = 200 := by
  decide!

/-! ## The control index of the well state and of the `WellControls` -/

theorem scanWells_ctrls_length (E : External) (swd : StandardWellsDense) (xw : WellState)
    (k : Nat) :
    (forRange k (scanWell E) (swd, xw)).1.wells_.ctrls.length = swd.wells_.ctrls.length := by
  refine forRange_preserves
    (fun (s : StandardWellsDense × WellState) => s.1.wells_.ctrls.length = swd.wells_.ctrls.length)
    _ _ _ rfl ?_
  intro i t ht
  simp only [scanWell]
  split_ifs
  · rw [List.length_set]; exact ht
  · exact ht

/-- The index `well_controls_get_current` of well `j` after the scan has passed it: the index
at which the scan stopped when the well switched, the index it had otherwise. -/
theorem scanWells_current (E : External) (swd : StandardWellsDense) (xw : WellState) :
    ∀ k j, j < k → j < swd.wells_.ctrls.length →
      ((forRange k (scanWell E) (swd, xw)).1.wells_.ctrls.getD j WellControls.empty).current
        = if scanResult E swd xw j ≠ well_controls_get_num (swd.wellCtrls j) then
            (scanResult E swd xw j : Int)
          else (swd.wellCtrls j).current := by
  intro k
  induction k with
  | zero => intro j hj; exact absurd hj (Nat.not_lt_zero j)
  | succ k ih =>
    intro j hj hlen
    have hinv := scanWells_inv E swd xw k
    have hl := scanWells_ctrls_length E swd xw k
    rw [forRange_succ]
    generalize forRange k (scanWell E) (swd, xw) = s at ih hinv hl
    have hres : scanResult E s.1 s.2 k = scanResult E swd xw k :=
      scanResult_congr E swd s.1 xw s.2 k hinv.bhp hinv.thp hinv.wellRates hinv.number_of_phases
        hinv.type (hinv.ctrlsAbove k (le_refl k)) (hinv.currentAbove k (le_refl k))
    have hnum : well_controls_get_num (s.1.wellCtrls k)
        = well_controls_get_num (swd.wellCtrls k) := by
      simp only [StandardWellsDense.wellCtrls, hinv.ctrlsAbove k (le_refl k)]
    simp only [scanWell]
    rcases Nat.eq_or_lt_of_le (Nat.le_of_lt_succ hj) with h | h
    · subst h
      by_cases hsw : scanResult E swd xw j = well_controls_get_num (swd.wellCtrls j)
      · simp only [hres, hnum, hsw, ne_eq, not_true_eq_false, decide_False,
          Bool.false_eq_true, if_false]
        rw [hinv.ctrlsAbove j (le_refl j)]
        rfl
      · simp only [hres, hnum, hsw, ne_eq, not_false_eq_true, decide_True, if_true]
        rw [getD_set_self _ _ _ _ (by omega)]
        rfl
    · have hne : k ≠ j := by omega
      have hother : ∀ (l : List WellControls),
          (if decide (scanResult E s.1 s.2 k ≠ well_controls_get_num (s.1.wellCtrls k)) = true
            then { s.1.wells_ with ctrls := l } else s.1.wells_).ctrls.getD j WellControls.empty
          = (if decide (scanResult E s.1 s.2 k ≠ well_controls_get_num (s.1.wellCtrls k)) = true
            then l else s.1.wells_.ctrls).getD j WellControls.empty := by
        intro l; split_ifs <;> rfl
      rw [hother]
      have hset : (if decide (scanResult E s.1 s.2 k ≠ well_controls_get_num (s.1.wellCtrls k))
            = true
          then s.1.wells_.ctrls.set k (well_controls_set_current (s.1.wellCtrls k)
            (if decide (scanResult E s.1 s.2 k ≠ well_controls_get_num (s.1.wellCtrls k)) = true
              then (scanResult E s.1 s.2 k : Int) else s.2.currentControls.getD k 0))
          else s.1.wells_.ctrls).getD j WellControls.empty
          = s.1.wells_.ctrls.getD j WellControls.empty := by
        split_ifs
        · rw [getD_set_other _ _ _ _ _ hne]
        · rfl
      rw [hset]
      exact ih j h hlen

/-- The scan of `updateWellControls` keeps the control indices of the well state and of the
`WellControls` equal and valid. -/
theorem scanWells_controlsInSync (E : External) (swd : StandardWellsDense) (xw : WellState)
    (hI : controlsInSync swd xw) :
    controlsInSync (scanWells E swd xw).1 (scanWells E swd xw).2 := by
  have hinv := scanWells_inv E swd xw swd.nw
  intro w hw
  have hn : (scanWells E swd xw).1.nw = swd.nw := hinv.number_of_wells
  have hw0 : w < swd.nw := by rw [hn] at hw; exact hw
  obtain ⟨h1, h2, h3, h4⟩ := hI w hw0
  have hlen : w < swd.wells_.ctrls.length := by
    by_contra hcon
    have he : swd.wellCtrls w = WellControls.empty := by
      simp only [StandardWellsDense.wellCtrls]
      exact List.getD_eq_default _ _ (by omega)
    rw [he] at h3
    simp only [well_controls_get_num, WellControls.empty, List.length_nil, Nat.cast_zero] at h3
    omega
  have hnum : well_controls_get_num ((scanWells E swd xw).1.wellCtrls w)
      = well_controls_get_num (swd.wellCtrls w) := by
    simp only [well_controls_get_num, StandardWellsDense.wellCtrls, scanWells]
    rw [hinv.ctrlsBelow w hw0]
  have hcur : ((scanWells E swd xw).1.wellCtrls w).current
      = if scanResult E swd xw w ≠ well_controls_get_num (swd.wellCtrls w) then
          (scanResult E swd xw w : Int)
        else (swd.wellCtrls w).current := scanWells_current E swd xw swd.nw w hw0 hlen
  have hcc := scanWells_currentControls E swd xw w hw0 h1
  obtain ⟨-, s2, -, -⟩ := scanControls_spec (brokenAt E swd xw w)
    (xw.currentControls.getD w 0) (well_controls_get_num (swd.wellCtrls w))
    (well_controls_get_num (swd.wellCtrls w)) 0 (by omega)
  have hle : scanResult E swd xw w ≤ well_controls_get_num (swd.wellCtrls w) := s2
  refine ⟨?_, ?_, ?_, ?_⟩
  · have := hinv.length
    simp only [scanWells]
    omega
  · rw [hcc, scannedControl]
    split_ifs
    · exact Int.natCast_nonneg _
    · exact h2
  · rw [hcc, hnum, scannedControl]
    split_ifs with hsw
    · have : scanResult E swd xw w < well_controls_get_num (swd.wellCtrls w) := by omega
      exact_mod_cast this
    · exact h3
  · rw [hcc, hcur, scannedControl]
    by_cases hsw : scanResult E swd xw w ≠ well_controls_get_num (swd.wellCtrls w)
    · rw [if_pos hsw, if_pos hsw]
    · rw [if_neg hsw, if_neg hsw]; exact h4

/-- With group control inactive `updateWellControls` keeps the control indices of the well
state and of the `WellControls` equal and valid. -/
theorem updateWellControls_controlsInSync (E : External) (swd : StandardWellsDense)
    (xw : WellState) (hg : swd.well_collection_.groupControlActive = false)
    (hI : controlsInSync swd xw) :
    controlsInSync (updateWellControls E swd xw).1 (updateWellControls E swd xw).2 := by
  obtain ⟨e1, e2⟩ := updateWellControls_scan E swd xw hg
  have h := scanWells_controlsInSync E swd xw hI
  intro w hw
  rw [e1] at hw ⊢
  rw [e2]
  exact h w hw

theorem updateWellState_currentControls (E : External) (swd : StandardWellsDense)
    (dwells : List ℚ) (well_state : WellState) :
    (updateWellState E swd dwells well_state).currentControls = well_state.currentControls := by
  unfold updateWellState
  split_ifs
  · exact forRange_preserves
      (fun (st : WellState) => st.currentControls = well_state.currentControls) _ _ _ rfl
      (fun i t ht =>
        ((updateWellStateWell_inv E swd dwells well_state.wellSolutions i t).1).trans ht)
  · rfl

theorem controlsInSync_congr (swd swd1 : StandardWellsDense) (xw xw1 : WellState)
    (hw : swd1.wells_ = swd.wells_) (hc : xw1.currentControls = xw.currentControls)
    (hI : controlsInSync swd xw) : controlsInSync swd1 xw1 := by
  intro w h
  simp only [StandardWellsDense.nw, StandardWellsDense.wellCtrls, hw, hc] at h ⊢
  exact hI w h

/-- The states of the loop of `solveWellEq` in which the control indices of the well state and
of the `WellControls` are equal and valid and group control is inactive. -/
theorem solvePass_controlsInSync (E : External) (dt : ℚ) (s : SolveLoop)
    (hA : ∀ swd d ws, (E.assembleWellEq swd d ws true).1.wells_ = swd.wells_ ∧
      (E.assembleWellEq swd d ws true).1.well_collection_ = swd.well_collection_ ∧
      (E.assembleWellEq swd d ws true).2.currentControls = ws.currentControls)
    (hS : ∀ swd ws, (E.setWellVariables swd ws).wells_ = swd.wells_ ∧
      (E.setWellVariables swd ws).well_collection_ = swd.well_collection_)
    (hg : s.swd.well_collection_.groupControlActive = false)
    (hI : controlsInSync s.swd s.well_state) :
    (∀ r, solvePass E dt s = PassOutcome.finished r →
      r.swd.well_collection_.groupControlActive = false ∧ controlsInSync r.swd r.well_state) ∧
    (∀ n, solvePass E dt s = PassOutcome.again n →
      n.swd.well_collection_.groupControlActive = false ∧ controlsInSync n.swd n.well_state) := by
  obtain ⟨a1, a2, a3⟩ := hA s.swd dt s.well_state
  have hga : (E.assembleWellEq s.swd dt s.well_state true).1.well_collection_.groupControlActive
      = false := by rw [a2]; exact hg
  have hIa : controlsInSync (E.assembleWellEq s.swd dt s.well_state true).1
      (E.assembleWellEq s.swd dt s.well_state true).2 :=
    controlsInSync_congr _ _ _ _ a1 a3 hI
  have hU : ∀ a : StandardWellsDense × WellState,
      a.1.well_collection_.groupControlActive = false → controlsInSync a.1 a.2 →
      (E.setWellVariables
        (updateWellControls E a.1 (updateWellState E a.1 a.1.dxWell a.2)).1
        (updateWellControls E a.1 (updateWellState E a.1 a.1.dxWell a.2)).2
        ).well_collection_.groupControlActive = false ∧
      controlsInSync
        (E.setWellVariables
          (updateWellControls E a.1 (updateWellState E a.1 a.1.dxWell a.2)).1
          (updateWellControls E a.1 (updateWellState E a.1 a.1.dxWell a.2)).2)
        (updateWellControls E a.1 (updateWellState E a.1 a.1.dxWell a.2)).2 := by
    intro a hga hIa
    have hI1 : controlsInSync a.1 (updateWellState E a.1 a.1.dxWell a.2) :=
      controlsInSync_congr _ _ _ _ rfl (updateWellState_currentControls E a.1 a.1.dxWell a.2) hIa
    generalize updateWellState E a.1 a.1.dxWell a.2 = ws1 at hI1
    have hI2 := updateWellControls_controlsInSync E a.1 ws1 hga hI1
    have hg2 : (updateWellControls E a.1 ws1).1.well_collection_.groupControlActive = false := by
      rw [(updateWellControls_scan E a.1 ws1 hga).1, ← hga]
      exact (scanWells_inv E a.1 ws1 a.1.nw).groupControlActive
    generalize updateWellControls E a.1 ws1 = c at hI2 hg2
    obtain ⟨s1, s2⟩ := hS c.1 c.2
    exact ⟨by rw [s2]; exact hg2, controlsInSync_congr _ _ _ _ s1 rfl hI2⟩
  have hUa := hU _ hga hIa
  unfold solvePass
  dsimp only
  cases getWellConvergence E (E.assembleWellEq s.swd dt s.well_state true).1 with
  | error msg =>
    dsimp only
    exact ⟨fun r h => (by cases h), fun n h => (by cases h)⟩
  | ok c0 =>
    dsimp only
    by_cases hc : convergedFlag E (E.assembleWellEq s.swd dt s.well_state true).1
        (E.assembleWellEq s.swd dt s.well_state true).2 c0 = true
    · rw [if_pos hc]
      refine ⟨?_, fun n h => (by cases h)⟩
      intro r h
      cases h
      exact ⟨hga, hIa⟩
    · rw [if_neg hc]
      by_cases hlt : s.it + 1 < 15
      · rw [if_pos hlt]
        refine ⟨fun r h => (by cases h), ?_⟩
        intro n h
        cases h
        split_ifs
        · exact hUa
        · exact ⟨hga, hIa⟩
      · rw [if_neg hlt]
        refine ⟨?_, fun n h => (by cases h)⟩
        intro r h
        cases h
        split_ifs
        · exact hUa
        · exact ⟨hga, hIa⟩

theorem solveWellEqLoop_controlsInSync (E : External) (dt : ℚ)
    (hA : ∀ swd d ws, (E.assembleWellEq swd d ws true).1.wells_ = swd.wells_ ∧
      (E.assembleWellEq swd d ws true).1.well_collection_ = swd.well_collection_ ∧
      (E.assembleWellEq swd d ws true).2.currentControls = ws.currentControls)
    (hS : ∀ swd ws, (E.setWellVariables swd ws).wells_ = swd.wells_ ∧
      (E.setWellVariables swd ws).well_collection_ = swd.well_collection_) :
    ∀ (fuel : Nat) (s r : SolveLoop), s.swd.well_collection_.groupControlActive = false →
      controlsInSync s.swd s.well_state → solveWellEqLoop E dt fuel s = Except.ok r →
      controlsInSync r.swd r.well_state := by
  intro fuel
  induction fuel with
  | zero => intro s r _ _ h; cases h
  | succ fuel ih =>
    intro s r hg hI h
    obtain ⟨p1, p2⟩ := solvePass_controlsInSync E dt s hA hS hg hI
    cases hp : solvePass E dt s with
    | thrown msg t =>
      rw [solveWellEqLoop_thrown E dt fuel s msg t hp] at h
      cases h
    | finished r0 =>
      rw [solveWellEqLoop_finished E dt fuel s r0 hp] at h
      cases h
      exact (p1 _ hp).2
    | again n =>
      rw [solveWellEqLoop_again E dt fuel s n hp] at h
      exact ih n r (p2 n hp).1 (p2 n hp).2 h

/-- C27 fails on the rollback path of `solveWellEq`. The producer `P1` enters in
`sampleBinaryState` with control 0 in the well state and in its `WellControls`, group control
inactive.  The first pass switches the well to its oil-rate control 1 and seeds the rates -28,
-100, 0 with water fraction 7/32; the next `updateWellState` returns the same rates with bhp
100000, and no control is broken any more, so the well stays under control 1.  The solve does
not converge: the well state is rolled back, so `currentControls[0]` is 0 again, but the
`WellControls` keep the index 1 of the switch, and the two differ.  All values on the way are
binary fractions that the operations of the source reproduce without rounding. -/
theorem C27_counterexample :
    sampleProducerModel.well_collection_.groupControlActive = false ∧
    controlsInSync sampleProducerModel sampleBinaryState ∧
    (updateWellControls sampleExternal sampleProducerModel
        (updateWellState sampleExternal sampleProducerModel sampleProducerModel.dxWell
          sampleBinaryState)).2.wellRates = [-28, -100, 0] ∧
    (updateWellControls sampleExternal sampleProducerModel
        (updateWellState sampleExternal sampleProducerModel sampleProducerModel.dxWell
          sampleBinaryState)).2.wellSolutions = [50, 7 / 32, 0] ∧
    (solveWellEq sampleExternal sampleProducerModel 1 sampleBinaryState).toOption.map
        (fun r => (r.report.converged, r.well_state.currentControls.getD 0 0,
          (r.swd.wellCtrls 0).current, decide (controlsInSync r.swd r.well_state)))
      = some (false, 0, 1, false) := by
  decide!

/-- C27 as amended. With group control inactive, let every well's `currentControls[w]` be a
valid index in `[0, nwc)` equal to the current index of the well's `WellControls`, and let
`assembleWellEq` and `setWellVariables` leave the `Wells` struct, the well collection and the
control indices of the well state as they are.  Then the same holds after `updateWellControls`,
and after a `solveWellEq` that converged; after a `solveWellEq` that did not converge the well
state is the one on entry and the current index of every `WellControls` is still a valid
index. -/
theorem C27_controls_in_sync (E : External) (swd : StandardWellsDense) (dt : ℚ)
    (xw : WellState)
    (hg : swd.well_collection_.groupControlActive = false)
    (hI : controlsInSync swd xw)
    (hA : ∀ m d ws, (E.assembleWellEq m d ws true).1.wells_ = m.wells_ ∧
      (E.assembleWellEq m d ws true).1.well_collection_ = m.well_collection_ ∧
      (E.assembleWellEq m d ws true).2.currentControls = ws.currentControls)
    (hS : ∀ m ws, (E.setWellVariables m ws).wells_ = m.wells_ ∧
      (E.setWellVariables m ws).well_collection_ = m.well_collection_) :
    controlsInSync (updateWellControls E swd xw).1 (updateWellControls E swd xw).2 ∧
    ∀ r, solveWellEq E swd dt xw = Except.ok r →
      (r.report.converged = true → controlsInSync r.swd r.well_state) ∧
      (r.report.converged = false → r.well_state = xw ∧
        ∀ w, w < r.swd.nw → 0 ≤ (r.swd.wellCtrls w).current ∧
          (r.swd.wellCtrls w).current < (well_controls_get_num (r.swd.wellCtrls w) : Int)) := by
  refine ⟨updateWellControls_controlsInSync E swd xw hg hI, ?_⟩
  intro r h
  unfold solveWellEq at h
  dsimp only at h
  cases hl : solveWellEqLoop E dt 15
      { swd := swd, well_state := xw, it := 0, converged := false, checks := 0, updates := 0,
        skipped := 0 } with
  | error e =>
    rw [hl] at h
    cases h
  | ok s =>
    rw [hl] at h
    dsimp only at h
    have hJ : controlsInSync s.swd s.well_state :=
      solveWellEqLoop_controlsInSync E dt hA hS 15 _ s hg hI hl
    cases h
    constructor
    · intro hc
      have hc1 : s.converged = true := hc
      simp only [hc1, Bool.not_true, Bool.false_eq_true, if_false]
      exact hJ
    · intro hc
      have hc1 : s.converged = false := hc
      simp only [hc1, Bool.not_false, if_true, true_and]
      intro w hw
      obtain ⟨-, j2, j3, j4⟩ := hJ w hw
      rw [j4]
      exact ⟨j2, j3⟩

/-- C27 as amended at the producer `P1` in `sampleBinaryState`, with a well residual that
vanishes once the well has left control 0: the solve converges after one switch, to control 1
in both places. -/
theorem C27_controls_in_sync_witness :
    sampleProducerModel.well_collection_.groupControlActive = false ∧
    controlsInSync sampleProducerModel sampleBinaryState ∧
    (solveWellEq sampleSwitchExternal sampleProducerModel 1 sampleBinaryState).toOption.map
        (fun r => (r.report.converged, r.well_state.currentControls.getD 0 0,
          (r.swd.wellCtrls 0).current)) = some (true, 1, 1) ∧
    (controlsInSync
        (updateWellControls sampleSwitchExternal sampleProducerModel sampleBinaryState).1
        (updateWellControls sampleSwitchExternal sampleProducerModel sampleBinaryState).2 ∧
      ∀ r, solveWellEq sampleSwitchExternal sampleProducerModel 1 sampleBinaryState
          = Except.ok r →
        (r.report.converged = true → controlsInSync r.swd r.well_state) ∧
        (r.report.converged = false → r.well_state = sampleBinaryState ∧
          ∀ w, w < r.swd.nw → 0 ≤ (r.swd.wellCtrls w).current ∧
            (r.swd.wellCtrls w).current
              < (well_controls_get_num (r.swd.wellCtrls w) : Int))) :=
  ⟨rfl, by decide!, by decide!,
    C27_controls_in_sync sampleSwitchExternal sampleProducerModel 1 sampleBinaryState rfl
      (by decide!) (fun _ _ _ => ⟨rfl, rfl, rfl⟩) (fun _ _ => ⟨rfl, rfl⟩)⟩

/-! ## The rounded operations -/

/-- The rounding `roundDouble` at some values: 1/10 and 1/3 go to the doubles
`0x3FB999999999999A` and `0x3FD5555555555555`, values that are doubles are kept, and a value
half way between two doubles goes to the one with the even significand. -/
theorem roundDouble_examples :
    roundDouble (1 / 10) = 3602879701896397 / 36028797018963968 ∧
    roundDouble (1 / 3) = 6004799503160661 / 18014398509481984 ∧
    roundDouble (-50) = -50 ∧ roundDouble 100000 = 100000 ∧ roundDouble (7 / 32) = 7 / 32 ∧
    roundDouble 9007199254740993 = 9007199254740992 ∧
    roundDouble 9007199254740995 = 9007199254740996 := by
  decide!

/-- Without rounding, `updateWellStateRounded` is `updateWellState`. -/
theorem updateWellStateRounded_id (E : External) (swd : StandardWellsDense) (dwells : List ℚ)
    (well_state : WellState) :
    updateWellStateRounded id E swd dwells well_state = updateWellState E swd dwells well_state :=
  rfl

/-- Without rounding, `updateWellStateWithTargetRounded` is `updateWellStateWithTarget`. -/
theorem updateWellStateWithTargetRounded_id (E : External) (swd : StandardWellsDense)
    (wc : WellControls) (current : Int) (well_index : Nat) (xw : WellState) :
    updateWellStateWithTargetRounded id E swd wc current well_index xw
      = updateWellStateWithTarget E swd wc current well_index xw :=
  rfl
/-- C28 fails in double arithmetic. The producer `P1` is under its water rate control (index
2, target -50, distribution 1, 0, 0) with the double nearest to 1/3 as water fraction and a
zero increment: `updateWellState` with every operation rounded to the nearest double stores
the water rate -50 + 2^-47 (-49.99999999999999), so the weighted sum of the rates is not the
target; with exact operations it is -50.  Under the reservoir rate control of target -100 with
the distribution 1, 3, 1 and oil as the only fraction, the rounded operations store the oil
rate -33.33333333333333, and the weighted sum is -100 + 2^-46, not the target. -/
theorem C28_counterexample :
    sampleProducerModel.np = 3 ∧
    sampleProducerModel.wellType 0 = WellType.PRODUCER ∧
    well_controls_iget_type (sampleProducerModel.wellCtrls 0)
      (sampleThirdWaterState.currentControls.getD 0 0) = WellControlType.SURFACE_RATE ∧
    well_controls_iget_target (sampleProducerModel.wellCtrls 0)
      (sampleThirdWaterState.currentControls.getD 0 0) = -50 ∧
    weightedFractions sampleProducerModel.np
      (well_controls_iget_distr (sampleProducerModel.wellCtrls 0)
        (sampleThirdWaterState.currentControls.getD 0 0))
      (scaledLimitedFractions sampleExternal sampleProducerModel [0, 0, 0]
        sampleThirdWaterState 0) ≠ 0 ∧
    (updateWellStateRounded roundDouble sampleExternal sampleProducerModel [0, 0, 0]
      sampleThirdWaterState).wellRates = [-50 + pow2 (-47), -100 - pow2 (-46), 0] ∧
    weightedRate sampleProducerModel.np
      (well_controls_iget_distr (sampleProducerModel.wellCtrls 0)
        (sampleThirdWaterState.currentControls.getD 0 0))
      (updateWellStateRounded roundDouble sampleExternal sampleProducerModel [0, 0, 0]
        sampleThirdWaterState).wellRates 0 ≠ -50 ∧
    weightedRate sampleProducerModel.np
      (well_controls_iget_distr (sampleProducerModel.wellCtrls 0)
        (sampleThirdWaterState.currentControls.getD 0 0))
      (updateWellState sampleExternal sampleProducerModel [0, 0, 0]
        sampleThirdWaterState).wellRates 0 = -50 ∧
    well_controls_iget_type (sampleReservoirRateModel.wellCtrls 0)
      (sampleOilOnlyState.currentControls.getD 0 0) = WellControlType.RESERVOIR_RATE ∧
    well_controls_iget_target (sampleReservoirRateModel.wellCtrls 0)
      (sampleOilOnlyState.currentControls.getD 0 0) = -100 ∧
    well_controls_iget_distr (sampleReservoirRateModel.wellCtrls 0)
      (sampleOilOnlyState.currentControls.getD 0 0) = [1, 3, 1] ∧
    (updateWellStateRounded roundDouble sampleExternal sampleReservoirRateModel [0, 0, 0]
      sampleOilOnlyState).wellRates = [0, (-100 + pow2 (-46)) / 3, 0] ∧
    weightedRate sampleReservoirRateModel.np
      (well_controls_iget_distr (sampleReservoirRateModel.wellCtrls 0)
        (sampleOilOnlyState.currentControls.getD 0 0))
      (updateWellStateRounded roundDouble sampleExternal sampleReservoirRateModel [0, 0, 0]
        sampleOilOnlyState).wellRates 0 = -100 + pow2 (-46) ∧
    weightedRate sampleReservoirRateModel.np
      (well_controls_iget_distr (sampleReservoirRateModel.wellCtrls 0)
        (sampleOilOnlyState.currentControls.getD 0 0))
      (updateWellState sampleExternal sampleReservoirRateModel [0, 0, 0]
        sampleOilOnlyState).wellRates 0 = -100 := by
  decide!

/-- C29 fails in double arithmetic. The producer `P1` under BHP control has the rate -1 for
each of its three phases.  With every operation rounded to the nearest double,
`updateWellStateWithTarget` and then `updateWellState` with a zero increment give the oil rate
-1 + 2^-52 (-0.9999999999999998), not -1; with exact operations the rates are -1, -1, -1
again. -/
theorem C29_counterexample :
    sampleProducerModel.wellType 0 = WellType.PRODUCER ∧
    well_controls_iget_type (sampleProducerModel.wellCtrls 0)
      (sampleUnitRatesState.currentControls.getD 0 0) = WellControlType.BHP ∧
    sampleUnitRatesState.wellRates = [-1, -1, -1] ∧
    (updateWellStateRounded roundDouble sampleExternal sampleProducerModel [0, 0, 0]
      (updateWellStateWithTargetRounded roundDouble sampleExternal sampleProducerModel
        (sampleProducerModel.wellCtrls 0) (sampleUnitRatesState.currentControls.getD 0 0) 0
        sampleUnitRatesState)).wellRates = [-1, -1 + pow2 (-52), -1] ∧
    rd (updateWellStateRounded roundDouble sampleExternal sampleProducerModel [0, 0, 0]
      (updateWellStateWithTargetRounded roundDouble sampleExternal sampleProducerModel
        (sampleProducerModel.wellCtrls 0) (sampleUnitRatesState.currentControls.getD 0 0) 0
        sampleUnitRatesState)).wellRates (sampleProducerModel.np * 0 + 1)
      ≠ rd sampleUnitRatesState.wellRates (sampleProducerModel.np * 0 + 1) ∧
    (updateWellState sampleExternal sampleProducerModel [0, 0, 0]
      (updateWellStateWithTarget sampleExternal sampleProducerModel
        (sampleProducerModel.wellCtrls 0) (sampleUnitRatesState.currentControls.getD 0 0) 0
        sampleUnitRatesState)).wellRates = [-1, -1, -1] := by
  decide!

/-! ## The values of the unguarded divisions of the branch `drawdown <= 0` -/

theorem Dbl.add_isFinite_left (x y : Dbl) (h : x.isFinite = false) :
    (Dbl.add x y).isFinite = false := by
  cases x <;> cases y <;> first | rfl | exact absurd h (by simp [Dbl.isFinite])

/-- A zero inverse formation volume factor makes `computeWellFlux` divide by zero, and yet the
rates returned are finite: for the water injector in `sampleCellZeroInvB` the water term of
the volume ratio is `1 / 0`, the volume ratio is `+inf`, the total rate 600 over it is 0, and
the rates 0, 0, 0 are written.  `computeWellFlux` has no value here. -/
theorem computeWellFluxDbl_zero_invB_example :
    volumeRatioDbl sampleExternal sampleInjectorModel sampleCellZeroInvB (300 + 0)
      (cmixOf sampleInjectorModel 0)
      (bPerfcells sampleExternal sampleInjectorModel sampleCellZeroInvB) = Dbl.pinf ∧
    computeWellFluxDbl sampleExternal sampleInjectorModel 0 2 sampleCellZeroInvB 300 0 false
      [Dbl.fin 5, Dbl.fin 5, Dbl.fin 5] = [Dbl.fin 0, Dbl.fin 0, Dbl.fin 0] ∧
    computeWellFlux sampleExternal sampleInjectorModel 0 2 sampleCellZeroInvB 300 0 false
      [5, 5, 5] = none := by
  decide!

end Opm
